import Mathlib

/-! # shournal-run: socket protocol, flush path and poll loop of the file watcher

A shallow embedding of `src/src/shournal-run/filewatcher.cpp`
(`FileWatcher::processSocketEvent`, `FileWatcher::flushToDisk`,
`FileWatcher::pollUntilStopped`, `FileWatcher::run`).

The code is effectful; the embedding passes the state explicitly and records
every external call (logging, store calls, fanotify and socket reads) in a
trace.  Everything the environment decides (what `poll` reports, which events
fanotify delivers, which messages the socket holds, whether a store call
throws, how much time passes, how the child ends) is an input.
-/

namespace Shournal

/-- A `QByteArray`; a `QString` is identified with its bytes. -/
abbrev Bytes := List Nat

/-- Modelled from the spec: `socket_message.h` is missing from the sources. The
enumerators are the message ids of the control protocol in the order of its
table, closed by `ENUM_END`. -/
inductive E_SocketMsg where
  | SETUP_DONE
  | COMMAND
  | RETURN_VALUE
  | LOG_MESSAGE
  | CLEAR_EVENTS
  | EMPTY
  | ENUM_END
  deriving DecidableEq, Repr

/-- The conversion `int(E_SocketMsg::X)`. -/
def E_SocketMsg.toInt : E_SocketMsg → Int
  | .SETUP_DONE => 0
  | .COMMAND => 1
  | .RETURN_VALUE => 2
  | .LOG_MESSAGE => 3
  | .CLEAR_EVENTS => 4
  | .EMPTY => 5
  | .ENUM_END => 6

/-- The conversion `E_SocketMsg(msgId)` as far as a `switch` can see it: the
enumerator with that value, or none (the `default` label is taken). -/
def E_SocketMsg.ofInt (i : Int) : Option E_SocketMsg :=
  if i = 0 then some .SETUP_DONE
  else if i = 1 then some .COMMAND
  else if i = 2 then some .RETURN_VALUE
  else if i = 3 then some .LOG_MESSAGE
  else if i = 4 then some .CLEAR_EVENTS
  else if i = 5 then some .EMPTY
  else if i = 6 then some .ENUM_END
  else none

/-- One received frame of `fdcommunication::SocketCommunication::Messages`;
`msgId = -1` is what `receiveMessages` reports when the peer has closed. -/
structure SockMsg where
  msgId : Int
  bytes : Bytes
  fd : Int
  deriving DecidableEq, Repr

/-- Modelled from the spec: `commandinfo.h` is missing; the session record. -/
structure SessionInfo where
  uuid : Bytes
  comment : Option Bytes
  deriving DecidableEq, Repr

/-- Modelled from the spec: `commandinfo.h` is missing; the command record with
the fields the file watcher reads and writes. A null `QDateTime` is `none`. -/
structure CommandInfo where
  idInDb : Int
  text : Bytes
  workingDir : Bytes
  startTime : Option Nat
  endTime : Option Nat
  returnVal : Int
  sessionInfo : SessionInfo
  hostname : Bytes
  username : Bytes
  deriving DecidableEq, Repr

/-- Modelled from the spec: `db_globals.h` is missing; `db::INVALID_INT_ID` is the
value of `idInDb` while the id is absent. Row ids handed out by the store are
natural numbers, so none equals it. -/
def INVALID_INT_ID : Int := -1

/-- Modelled from the spec: `fileevents.h` is missing; a classified write event. -/
structure FileWriteEvent where
  path : Bytes
  name : Bytes
  size : Nat
  mtime : Nat
  hash : Option Nat
  deriving DecidableEq, Repr

/-- Modelled from the spec: `fileevents.h` is missing; a classified read event. -/
structure FileReadEvent where
  path : Bytes
  name : Bytes
  size : Nat
  mtime : Nat
  bytes : Option Bytes
  hash : Option Nat
  deriving DecidableEq, Repr

/-- Modelled from the spec: `fileeventhandler.h` is missing; the two caches of
the classifier (`m_fEventHandler`). -/
structure FileEventHandler where
  writeEvents : List FileWriteEvent
  readEvents : List FileReadEvent
  deriving DecidableEq, Repr

/-- Size of the body a read event retains. -/
def FileReadEvent.bodySize (e : FileReadEvent) : Nat :=
  match e.bytes with
  | some b => b.length
  | none => 0

/-- Modelled from the spec: `FileEventHandler::sizeOfCachedReadFiles` is missing;
the sum of the sizes of the cached read bodies. -/
def FileEventHandler.sizeOfCachedReadFiles (h : FileEventHandler) : Nat :=
  (h.readEvents.map FileReadEvent.bodySize).sum

/-- Modelled from the spec: `FileEventHandler::clearEvents` is missing; it empties
both caches. -/
def FileEventHandler.clearEvents (_h : FileEventHandler) : FileEventHandler :=
  { writeEvents := [], readEvents := [] }

/-- Modelled from the spec: `FanotifyController::handleEvents` and the classifier
are missing. A wakeup supplies the classified events that the reader newly
inserts into the caches (filters and insert-or-ignore already applied). -/
def FileEventHandler.insertEvents (h : FileEventHandler)
    (ws : List FileWriteEvent) (rs : List FileReadEvent) : FileEventHandler :=
  { writeEvents := h.writeEvents ++ ws, readEvents := h.readEvents ++ rs }

/-- Modelled from the spec: `db_controller` and the relational store are missing;
the store is the rows written by `addCommand`, `updateCommand` and
`addFileEvents`, and the next free command row id. -/
structure Store where
  nextId : Nat
  cmd : List CommandInfo
  writtenFile : List (Int × FileWriteEvent)
  readFile : List (Int × FileReadEvent)
  deriving DecidableEq, Repr

/-- Modelled from the spec: `db_controller::addCommand` is missing; it inserts the
command row and returns the id the store assigned. -/
def Store.addCommand (st : Store) (c : CommandInfo) : Int × Store :=
  ((st.nextId : Int),
   { st with nextId := st.nextId + 1,
             cmd := st.cmd ++ [{ c with idInDb := (st.nextId : Int) }] })

/-- Modelled from the spec: `db_controller::updateCommand` is missing; it updates
in place the row that carries the id of the command. -/
def Store.updateCommand (st : Store) (c : CommandInfo) : Store :=
  { st with cmd := st.cmd.map (fun r => if r.idInDb = c.idInDb then c else r) }

/-- Modelled from the spec: `db_controller::addFileEvents` is missing; it inserts
all written and read file rows under the command id. -/
def Store.addFileEvents (st : Store) (cmdId : Int)
    (ws : List FileWriteEvent) (rs : List FileReadEvent) : Store :=
  { st with writtenFile := st.writtenFile ++ ws.map (fun e => (cmdId, e)),
            readFile := st.readFile ++ rs.map (fun e => (cmdId, e)) }

/-- The store call of `flushToDisk` that throws, when one does. -/
inductive StoreStep where
  | command
  | mkpath
  | addFileEvents
  deriving DecidableEq, Repr

inductive LogLevel where
  | debug
  | info
  | warning
  | critical
  deriving DecidableEq, Repr

/-- The log lines of `filewatcher.cpp`, one constructor per call site. -/
inductive LogMsg where
  | unusualLargeMessage
  | receivedMessage (msgId : Int)
  | invalidMessage (msgId : Int)
  | storeFailed (step : StoreStep)
  | flushingToDisk
  | pollFailed (errno : Int)
  | processingStopped
  | unhandledPollResult (r : Int)
  | emptyCommandText
  | missingFields
  deriving DecidableEq, Repr

/-- The external calls the embedding records, in program order. -/
inductive Effect where
  | log (level : LogLevel) (msg : LogMsg)
  | shellLog (line : Bytes)
  | handleEvents (ws : List FileWriteEvent) (rs : List FileReadEvent)
  | receiveMessages (msgs : List SockMsg)
  | clearEvents
  | addCommand (c : CommandInfo) (id : Int)
  | updateCommand (c : CommandInfo)
  | mkpath
  | addFileEvents (cmdId : Int) (ws : List FileWriteEvent) (rs : List FileReadEvent)
  | sendSetupDone
  deriving DecidableEq, Repr

/-- Compile-time and settings constants that the missing headers define. -/
structure Config where
  assertsEnabled : Bool
  RECEIVE_BUF_SIZE : Int
  INVALID_RETURN_VAL : Int
  flushToDiskTotalSize : Nat
  flushToDiskEventCount : Nat
  deriving DecidableEq, Repr

/-- The state the file watcher works on: the command record, the classifier
caches, the store, the wall clock and the trace of external calls. -/
structure State where
  cmdInfo : CommandInfo
  fEventHandler : FileEventHandler
  store : Store
  clock : Nat
  trace : List Effect
  deriving DecidableEq, Repr

def State.emit (s : State) (e : Effect) : State :=
  { s with trace := s.trace ++ [e] }

def State.log (s : State) (level : LogLevel) (msg : LogMsg) : State :=
  s.emit (Effect.log level msg)

/-- The test `isContinuationByte` of the UTF-8 decoder of Qt: `(b & 0xc0) == 0x80`. -/
def isContinuationByte (b : Nat) : Bool :=
  decide (128 ≤ b) && decide (b < 192)

/-- The Qt function `QUtf8Functions::fromUtf8` (Qt 5, base traits) for a first
byte `b` that is not US-ASCII, with the bytes `rest` behind it: the UTF-16 code
units of the decoded character and the number of continuation bytes consumed, or
`none` at a decoding error (a first byte that starts no sequence, a missing or
wrong continuation byte, an overlong form, a surrogate, a value above U+10FFFF). -/
def decodeSequence (b : Nat) (rest : Bytes) : Option (List Nat × Nat) :=
  if b ≤ 0xC1 ∨ 0xF5 ≤ b then none
  else
    let charsNeeded : Nat := if b < 0xE0 then 2 else if b < 0xF0 then 3 else 4
    let min_uc : Nat := if b < 0xE0 then 0x80 else if b < 0xF0 then 0x800 else 0x10000
    let uc0 : Nat := if b < 0xE0 then b % 32 else if b < 0xF0 then b % 16 else b % 8
    let conts := rest.take (charsNeeded - 1)
    if conts.length < charsNeeded - 1 ∨ ¬ conts.all isContinuationByte then none
    else
      let uc := conts.foldl (fun acc c => acc * 64 + c % 64) uc0
      if uc < min_uc ∨ (0xD800 ≤ uc ∧ uc < 0xE000) ∨ 0x10FFFF < uc then none
      else if uc < 0x10000 then some ([uc], charsNeeded - 1)
      else some ([0xD7C0 + uc / 1024, 0xDC00 + uc % 1024], charsNeeded - 1)

/-- The loop of the Qt function `QUtf8::convertToUnicode`: a US-ASCII byte is its
own code unit, a decoding error yields one replacement character U+FFFD for the
byte at which it occurred. The first argument bounds the number of steps. -/
def convertToUnicodeLoop : Nat → Bytes → List Nat
  | 0, _ => []
  | _ + 1, [] => []
  | fuel + 1, b :: rest =>
    if b < 128 then b :: convertToUnicodeLoop fuel rest
    else
      match decodeSequence b rest with
      | some (units, n) => units ++ convertToUnicodeLoop fuel (rest.drop n)
      | none => 0xFFFD :: convertToUnicodeLoop fuel rest

/-- The Qt function `QUtf8::convertToUnicode` (Qt 5.7 and later): a byte order
mark at the start of the input is skipped, the rest is decoded. -/
def convertToUnicode (bs : Bytes) : List Nat :=
  let src := if bs.take 3 = [0xEF, 0xBB, 0xBF] then bs.drop 3 else bs
  convertToUnicodeLoop src.length src

/-- The assignment of a `QByteArray` to a `QString`
(`QString::operator=(const QByteArray &)`, which is `QString::fromUtf8`): the
conversion stops at the first NUL byte of the array, and what stands before it
is decoded as UTF-8. A `QString` is kept as the list of its UTF-16 code units. -/
def QString.fromUtf8 (ba : Bytes) : Bytes :=
  convertToUnicode (ba.takeWhile (fun b => decide (b ≠ 0)))

/-- Modelled from the spec: `varFromQBytes<qint32>` (util.h) is missing; the
payload is a little-endian two's complement 32-bit integer. -/
def varFromQBytes (b : Bytes) : Int :=
  let u : Nat := (b.getD 0 0 % 256) + 256 * (b.getD 1 0 % 256)
    + 65536 * (b.getD 2 0 % 256) + 16777216 * (b.getD 3 0 % 256)
  if u < 2147483648 then (u : Int) else (u : Int) - 4294967296

/-- What a call of `processSocketEvent` ends in: a return value, or a failed
`assert` (the process aborts). -/
inductive SockResult where
  | returned (msg : E_SocketMsg)
  | assertFailed
  deriving DecidableEq, Repr

/-- The `switch` of `processSocketEvent` on one message, after the line
`returnMsg = E_SocketMsg(msg.msgId)`: the value of `returnMsg` and the state
behind the `switch`. -/
def handleMessage (msg : SockMsg) (s : State) : E_SocketMsg × State :=
  match E_SocketMsg.ofInt msg.msgId with
  | some E_SocketMsg.COMMAND =>
    (E_SocketMsg.COMMAND,
     { s with cmdInfo := { s.cmdInfo with text := QString.fromUtf8 msg.bytes } })
  | some E_SocketMsg.RETURN_VALUE =>
    (E_SocketMsg.RETURN_VALUE,
     { s with cmdInfo := { s.cmdInfo with returnVal := varFromQBytes msg.bytes } })
  | some E_SocketMsg.LOG_MESSAGE =>
    (E_SocketMsg.LOG_MESSAGE, s.emit (Effect.shellLog msg.bytes))
  | some E_SocketMsg.CLEAR_EVENTS =>
    let s3 := s.emit Effect.clearEvents
    (E_SocketMsg.CLEAR_EVENTS,
     { s3 with fEventHandler := s3.fEventHandler.clearEvents,
               cmdInfo := { s3.cmdInfo with startTime := some s3.clock } })
  | _ =>
    (E_SocketMsg.EMPTY, s.log LogLevel.critical (LogMsg.invalidMessage msg.msgId))

/-- The size check at the head of the `for` loop of `processSocketEvent`. -/
def warnIfLarge (cfg : Config) (msg : SockMsg) (s : State) : State :=
  if (msg.bytes.length : Int) > cfg.RECEIVE_BUF_SIZE - 1024 * 10 then
    s.log LogLevel.warning LogMsg.unusualLargeMessage
  else s

/-- The `for` loop of `processSocketEvent` over the received messages, with the
local `returnMsg`. -/
def processMessages (cfg : Config) :
    List SockMsg → E_SocketMsg → State → SockResult × State
  | [], returnMsg, s =>
    if cfg.assertsEnabled ∧ returnMsg = E_SocketMsg.ENUM_END then
      (SockResult.assertFailed, s)
    else (SockResult.returned returnMsg, s)
  | msg :: rest, _, s =>
    let s1 := warnIfLarge cfg msg s
    if msg.msgId = -1 then (SockResult.returned E_SocketMsg.EMPTY, s1)
    else if cfg.assertsEnabled ∧
        ¬ (msg.msgId ≥ 0 ∧ msg.msgId < E_SocketMsg.ENUM_END.toInt) then
      (SockResult.assertFailed, s1)
    else
      let r := handleMessage msg (s1.log LogLevel.debug (LogMsg.receivedMessage msg.msgId))
      processMessages cfg rest r.1 r.2

/-- The method `FileWatcher::processSocketEvent`: receive the pending messages
(`msgs` is what `receiveMessages` delivers) and process them in order. -/
def processSocketEvent (cfg : Config) (msgs : List SockMsg) (s : State) :
    SockResult × State :=
  processMessages cfg msgs E_SocketMsg.ENUM_END (s.emit (Effect.receiveMessages msgs))

/-- The command record as `flushToDisk` hands it to `addCommand` or
`updateCommand`: a null end time is filled in on the insert branch only. -/
def flushCommand (s : State) : CommandInfo :=
  if s.cmdInfo.idInDb = INVALID_INT_ID ∧ s.cmdInfo.endTime.isNone = true then
    { s.cmdInfo with endTime := some s.clock }
  else s.cmdInfo

/-- The first statement of the `try` block when its store call does not throw:
`addCommand` with assignment of the id, or `updateCommand`. -/
def storeCommand (s : State) : State :=
  if s.cmdInfo.idInDb = INVALID_INT_ID then
    let r := s.store.addCommand s.cmdInfo
    { s with cmdInfo := { s.cmdInfo with idInDb := r.1 }, store := r.2,
             trace := s.trace ++ [Effect.addCommand s.cmdInfo r.1] }
  else
    { s with store := s.store.updateCommand s.cmdInfo,
             trace := s.trace ++ [Effect.updateCommand s.cmdInfo] }

/-- The call of `addFileEvents` with both caches when it does not throw. -/
def storeFileEvents (s : State) : State :=
  { s with
    store := s.store.addFileEvents s.cmdInfo.idInDb
      s.fEventHandler.writeEvents s.fEventHandler.readEvents,
    trace := s.trace ++ [Effect.addFileEvents s.cmdInfo.idInDb
      s.fEventHandler.writeEvents s.fEventHandler.readEvents] }

/-- The `try` block of `flushToDisk`; the flag tells whether an exception left
it. Assignments made before the throwing call persist (the end time is
assigned before `addCommand` is called). -/
def flushTry (fault : Option StoreStep) (s : State) : State × Bool :=
  let s0 : State := { s with cmdInfo := flushCommand s }
  if fault = some StoreStep.command then (s0, true)
  else
    let s1 := storeCommand s0
    if fault = some StoreStep.mkpath then (s1, true)
    else
      let s2 := s1.emit Effect.mkpath
      if fault = some StoreStep.addFileEvents then (s2, true)
      else (storeFileEvents s2, false)

/-- The method `FileWatcher::flushToDisk`. `fault` names the store call that
throws, if one does. (The two asserts on the effective ids concern the
privilege state, which `run` has restored before; they are not modelled.) -/
def flushToDisk (fault : Option StoreStep) (s : State) : State :=
  let r := flushTry fault s
  let s1 :=
    match r.2, fault with
    | true, some step => r.1.log LogLevel.critical (LogMsg.storeFailed step)
    | _, _ => r.1
  { s1 with fEventHandler := s1.fEventHandler.clearEvents }

/-- The value of `errno` for an interrupted system call. -/
def EINTR : Int := 4

/-- One return of `poll` together with everything the environment decides for
the iteration that follows it. -/
structure Wakeup where
  elapsed : Nat
  poll_num : Int
  errno : Int
  fanReadable : Bool
  sockReadable : Bool
  fanWrites : List FileWriteEvent
  fanReads : List FileReadEvent
  sockMsgs : List SockMsg
  storeFault : Option StoreStep
  deriving DecidableEq, Repr

/-- The call `fanotifyCtrl.handleEvents()`. -/
def handleEvents (ws : List FileWriteEvent) (rs : List FileReadEvent) (s : State) : State :=
  let s1 := s.emit (Effect.handleEvents ws rs)
  { s1 with fEventHandler := s1.fEventHandler.insertEvents ws rs }

/-- The flush condition at the end of a loop iteration. -/
def thresholdExceeded (cfg : Config) (s : State) : Bool :=
  decide (s.fEventHandler.sizeOfCachedReadFiles > cfg.flushToDiskTotalSize) ||
    decide (s.fEventHandler.writeEvents.length > cfg.flushToDiskEventCount)

/-- The tail of a loop iteration: flush when a threshold is exceeded. -/
def checkFlush (cfg : Config) (fault : Option StoreStep) (s : State) : State :=
  if thresholdExceeded cfg s then
    flushToDisk fault (s.log LogLevel.info LogMsg.flushingToDisk)
  else s

/-- How one iteration of the loop of `pollUntilStopped` ends. -/
inductive Step where
  | continue (s : State)
  | returned (r : E_SocketMsg) (s : State)
  | aborted (s : State)
  deriving DecidableEq, Repr

/-- Time passes while the loop is blocked in `poll`. -/
def State.advance (s : State) (dt : Nat) : State :=
  { s with clock := s.clock + dt }

/-- The statement `if (fds[1].revents & POLLIN) fanotifyCtrl.handleEvents();`. -/
def drainFanotify (w : Wakeup) (s : State) : State :=
  if w.fanReadable then handleEvents w.fanWrites w.fanReads s else s

/-- The rest of a loop iteration: inspect the socket when it is readable, then
check the flush thresholds. -/
def inspectSocket (cfg : Config) (w : Wakeup) (s1 : State) : Step :=
  if w.sockReadable then
    match processSocketEvent cfg w.sockMsgs s1 with
    | (SockResult.assertFailed, s2) => Step.aborted s2
    | (SockResult.returned r, s2) =>
      if r = E_SocketMsg.EMPTY then Step.returned E_SocketMsg.EMPTY s2
      else Step.continue (checkFlush cfg w.storeFault s2)
  else Step.continue (checkFlush cfg w.storeFault s1)

/-- One iteration of the `while (true)` loop of `pollUntilStopped`. -/
def pollIteration (cfg : Config) (w : Wakeup) (s0 : State) : Step :=
  let s : State := s0.advance w.elapsed
  if w.poll_num = -1 then
    if w.errno = EINTR then Step.continue s
    else Step.returned E_SocketMsg.ENUM_END (s.log LogLevel.critical (LogMsg.pollFailed w.errno))
  else if cfg.assertsEnabled ∧ w.poll_num = 0 then Step.aborted s
  else inspectSocket cfg w (drainFanotify w s)

/-- How the loop stands after a finite sequence of wakeups. -/
inductive LoopResult where
  | returned (r : E_SocketMsg) (s : State)
  | aborted (s : State)
  | blocked (s : State)
  deriving DecidableEq, Repr

/-- The method `FileWatcher::pollUntilStopped` run on a sequence of wakeups. The
loop has no exit of its own: `blocked` says that it waits in `poll` after the
last wakeup given. (Capabilities and priority are not modelled.) -/
def pollUntilStopped (cfg : Config) : List Wakeup → State → LoopResult
  | [], s => LoopResult.blocked s
  | w :: ws, s =>
    match pollIteration cfg w s with
    | Step.continue s1 => pollUntilStopped cfg ws s1
    | Step.returned r s1 => LoopResult.returned r s1
    | Step.aborted s1 => LoopResult.aborted s1

/-- How the observed child ended: `waitFinish` returned its exit code, or threw
`ExcProcessExitNotNormal` carrying `status` (the signal number). -/
inductive ChildExit where
  | normal (code : Int)
  | notNormal (status : Int)
  deriving DecidableEq, Repr

/-- The value `run` assigns to `cmdInfo.returnVal` after `waitFinish`. -/
def ChildExit.returnVal : ChildExit → Int
  | .normal code => code
  | .notNormal status => 128 + status

/-- The members of `FileWatcher` that `run` reads. -/
structure FileWatcher where
  m_sockFd : Int
  m_commandArgc : Int
  m_commandFilename : Option Bytes
  m_commandArgv : List Bytes
  m_shellSessionUUID : Bytes
  deriving DecidableEq, Repr

/-- Everything the environment decides during one call of `run`. -/
structure RunEnv where
  workingDir : Bytes
  hostname : Bytes
  username : Bytes
  store0 : Store
  clock0 : Nat
  child : ChildExit
  exitAt : Nat
  wakeups : List Wakeup
  elapsedEnd : Nat
  terminalFault : Option StoreStep
  deriving DecidableEq, Repr

/-- Modelled from the spec: `CommandInfo::fromLocalEnv` is missing; a fresh record
of the local environment without id, text, times or return value. -/
def CommandInfo.fromLocalEnv (cfg : Config) (env : RunEnv) : CommandInfo :=
  { idInDb := INVALID_INT_ID, text := [], workingDir := env.workingDir,
    startTime := none, endTime := none, returnVal := cfg.INVALID_RETURN_VAL,
    sessionInfo := { uuid := [], comment := none },
    hostname := env.hostname, username := env.username }

/-- Modelled from the spec: `argvToQStr` is missing; the arguments joined by
single blanks (scenario S1). -/
def argvToQStr (argv : List Bytes) : Bytes :=
  List.intercalate [32] argv

/-- How a call of `run` ends: `cpp_exit(code)`, a failed `assert`, or still
waiting in `poll` after the last wakeup given. -/
inductive RunResult where
  | exited (code : Int) (s : State)
  | aborted (s : State)
  | blocked (s : State)
  deriving DecidableEq, Repr

/-- The end of `run` on the normal path: discard a command without text and
without id, else note a missing return value, flush and exit. `cpp_exit` does
not return. -/
def finalFlush (cfg : Config) (fault : Option StoreStep) (ret : Int) (s : State) :
    RunResult :=
  if s.cmdInfo.text.isEmpty ∧ s.cmdInfo.idInDb = INVALID_INT_ID then
    RunResult.exited ret (s.log LogLevel.debug LogMsg.emptyCommandText)
  else
    let s1 :=
      if s.cmdInfo.returnVal = cfg.INVALID_RETURN_VAL then
        s.log LogLevel.debug LogMsg.missingFields
      else s
    RunResult.exited ret (flushToDisk fault s1)

/-- The statement `cmdInfo.endTime = QDateTime::currentDateTime()` behind the
mode branch of `run`. -/
def State.setEndTime (s : State) : State :=
  { s with cmdInfo := { s.cmdInfo with endTime := some s.clock } }

/-- The part of `run` after the poll loop (from `cmdInfo.endTime = ...` on). -/
def runFinish (cfg : Config) (elapsedEnd : Nat) (fault : Option StoreStep)
    (pollResult : E_SocketMsg) (ret : Int) (s0 : State) : RunResult :=
  let s : State := (s0.advance elapsedEnd).setEndTime
  match pollResult with
  | E_SocketMsg.EMPTY => finalFlush cfg fault ret s
  | E_SocketMsg.ENUM_END =>
    RunResult.exited ret (s.log LogLevel.critical LogMsg.processingStopped)
  | r => finalFlush cfg fault ret (s.log LogLevel.warning (LogMsg.unhandledPollResult r.toInt))

/-- The assignment `cmdInfo.returnVal = ...` of the main thread in command mode. -/
def State.setReturnVal (s : State) (v : Int) : State :=
  { s with cmdInfo := { s.cmdInfo with returnVal := v } }

/-- The poll loop in command mode. It runs in its own thread while the main
thread waits for the child; `exitAt` is the number of wakeups the loop has
handled when the main thread stores the return value. -/
def commandLoop (cfg : Config) (v : Int) (exitAt : Nat) (ws : List Wakeup) (s : State) :
    LoopResult :=
  match pollUntilStopped cfg (ws.take exitAt) s with
  | LoopResult.blocked s1 => pollUntilStopped cfg (ws.drop exitAt) (s1.setReturnVal v)
  | LoopResult.returned r s1 => LoopResult.returned r (s1.setReturnVal v)
  | LoopResult.aborted s1 => LoopResult.aborted s1

/-- The state with which `run` enters one of its modes. -/
def runInit (cfg : Config) (fw : FileWatcher) (env : RunEnv) : State :=
  let c := CommandInfo.fromLocalEnv cfg env
  { cmdInfo := { c with sessionInfo := { c.sessionInfo with uuid := fw.m_shellSessionUUID } },
    fEventHandler := { writeEvents := [], readEvents := [] },
    store := env.store0, clock := env.clock0, trace := [] }

/-- The state with which the poll loop starts in command mode. -/
def commandStart (cfg : Config) (fw : FileWatcher) (env : RunEnv) : State :=
  let s0 := runInit cfg fw env
  let t1 : Bytes :=
    match fw.m_commandFilename with
    | some f => s0.cmdInfo.text ++ (QString.fromUtf8 f ++ [32])
    | none => s0.cmdInfo.text
  { s0 with cmdInfo := { s0.cmdInfo with text := t1 ++ argvToQStr fw.m_commandArgv,
                                         startTime := some s0.clock } }

/-- The state with which the poll loop starts in socket mode. -/
def socketStart (cfg : Config) (fw : FileWatcher) (env : RunEnv) : State :=
  let s0 := runInit cfg fw env
  let s1 : State := { s0 with cmdInfo := { s0.cmdInfo with startTime := some s0.clock } }
  s1.emit Effect.sendSetupDone

/-- The state of the poll loop of `run` when it has handled the given wakeups. -/
def runLoop (cfg : Config) (fw : FileWatcher) (env : RunEnv) : LoopResult :=
  if fw.m_commandArgc ≠ 0 then
    commandLoop cfg env.child.returnVal env.exitAt env.wakeups (commandStart cfg fw env)
  else if fw.m_sockFd ≠ -1 then
    pollUntilStopped cfg env.wakeups (socketStart cfg fw env)
  else if cfg.assertsEnabled then LoopResult.aborted (runInit cfg fw env)
  else LoopResult.returned E_SocketMsg.ENUM_END (runInit cfg fw env)

/-- The value of the local `ret` of `run` after the mode branch. -/
def runRet (fw : FileWatcher) (env : RunEnv) : Int :=
  if fw.m_commandArgc ≠ 0 then env.child.returnVal
  else if fw.m_sockFd ≠ -1 then 0
  else 1

/-- The method `FileWatcher::run` after its setup (group lookup, unshare and
fanotify marks succeeded). -/
def run (cfg : Config) (fw : FileWatcher) (env : RunEnv) : RunResult :=
  match runLoop cfg fw env with
  | LoopResult.blocked s => RunResult.blocked s
  | LoopResult.aborted s => RunResult.aborted s
  | LoopResult.returned pollResult s =>
    runFinish cfg env.elapsedEnd env.terminalFault pollResult (runRet fw env) s

/-! ## Accessors used in the statements -/

def Step.state : Step → State
  | .continue s => s
  | .returned _ s => s
  | .aborted s => s

def LoopResult.state : LoopResult → State
  | .returned _ s => s
  | .aborted s => s
  | .blocked s => s

/-- The value `pollUntilStopped` returned, if it has returned. -/
def LoopResult.result : LoopResult → Option E_SocketMsg
  | .returned r _ => some r
  | _ => none

def RunResult.state : RunResult → State
  | .exited _ s => s
  | .aborted s => s
  | .blocked s => s

/-- The code `run` handed to `cpp_exit`, if it has exited. -/
def RunResult.exitCode : RunResult → Option Int
  | .exited c _ => some c
  | _ => none

/-- A message id that `processSocketEvent` does not recognise: none of COMMAND,
RETURN_VALUE, LOG_MESSAGE, CLEAR_EVENTS, and not the peer-closed marker. -/
def unknownMsgId (i : Int) : Prop :=
  i ≠ -1 ∧ i ≠ E_SocketMsg.COMMAND.toInt ∧ i ≠ E_SocketMsg.RETURN_VALUE.toInt ∧
    i ≠ E_SocketMsg.LOG_MESSAGE.toInt ∧ i ≠ E_SocketMsg.CLEAR_EVENTS.toInt

instance (i : Int) : Decidable (unknownMsgId i) := by
  unfold unknownMsgId
  infer_instance

/-- A message id passes `assert(msg.msgId >= 0 && msg.msgId < int(ENUM_END))`, or
asserts are compiled out. -/
def passesAssert (cfg : Config) (i : Int) : Prop :=
  cfg.assertsEnabled = true → 0 ≤ i ∧ i < E_SocketMsg.ENUM_END.toInt

instance (cfg : Config) (i : Int) : Decidable (passesAssert cfg i) := by
  unfold passesAssert
  infer_instance

/-- The command record a store call receives, for `addCommand` and
`updateCommand`. -/
def Effect.command? : Effect → Option CommandInfo
  | .addCommand c _ => some c
  | .updateCommand c => some c
  | _ => none

/-- The command records handed to `addCommand` or `updateCommand` in a trace. -/
def storedCommands (tr : List Effect) : List CommandInfo :=
  tr.filterMap Effect.command?

/-- The property `startTime ≤ endTime` whenever both are set. -/
def CommandInfo.timesOrdered (c : CommandInfo) : Prop :=
  ∀ a b, c.startTime = some a → c.endTime = some b → a ≤ b

instance (c : CommandInfo) : Decidable c.timesOrdered :=
  match hs : c.startTime, he : c.endTime with
  | some a, some b =>
    if h : a ≤ b then
      isTrue (fun x y hx hy => by
        rw [hs] at hx
        rw [he] at hy
        cases hx
        cases hy
        exact h)
    else isFalse (fun hh => h (hh a b hs he))
  | none, _ => isTrue (fun x y hx _ => by rw [hs] at hx; cases hx)
  | _, none => isTrue (fun x y _ hy => by rw [he] at hy; cases hy)

/-- The start time, when set, is not later than the clock. -/
def State.startBeforeClock (s : State) : Prop :=
  ∀ a, s.cmdInfo.startTime = some a → a ≤ s.clock

/-- The start and end time of the current record and of every record handed to
the store so far are ordered, and the start time is not later than the clock. -/
def State.timesInvariant (s : State) : Prop :=
  s.startBeforeClock ∧ s.cmdInfo.timesOrdered ∧ ∀ c ∈ storedCommands s.trace, c.timesOrdered

/-- No message of any batch is CLEAR_EVENTS. -/
def noClearEvents (ws : List Wakeup) : Prop :=
  ∀ w ∈ ws, ∀ m ∈ w.sockMsgs, m.msgId ≠ E_SocketMsg.CLEAR_EVENTS.toInt

instance (ws : List Wakeup) : Decidable (noClearEvents ws) := by
  unfold noClearEvents
  infer_instance

/-- On the private socket pair of command mode nothing is ever sent: the only
thing `receiveMessages` can deliver is the peer-closed marker. -/
def onlyPeerClosed (ws : List Wakeup) : Prop :=
  ∀ w ∈ ws, ∀ m ∈ w.sockMsgs, m.msgId = -1

instance (ws : List Wakeup) : Decidable (onlyPeerClosed ws) := by
  unfold onlyPeerClosed
  infer_instance

/-- The state in which an iteration of the poll loop stands when its event
handling is over (the point of the flush condition): after the notification
events and the socket messages of that wakeup. An interrupted poll handles
nothing. -/
def stateAtCheck (cfg : Config) (w : Wakeup) (s : State) : State :=
  if w.poll_num = -1 then s.advance w.elapsed
  else if w.sockReadable then
    (processSocketEvent cfg w.sockMsgs (drainFanotify w (s.advance w.elapsed))).2
  else drainFanotify w (s.advance w.elapsed)

/-- The number of mid-command flushes of the poll loop a trace records (the
line `logInfo << "flushing to disk."` precedes each). -/
def flushCount (tr : List Effect) : Nat :=
  tr.count (Effect.log LogLevel.info LogMsg.flushingToDisk)

/-- The store call that inserts a command row. -/
def Effect.isAddCommand : Effect → Bool
  | .addCommand _ _ => true
  | _ => false

/-- A call of `addFileEvents` that carries at least one read or write event. -/
def Effect.flushesEvents : Effect → Bool
  | .addFileEvents _ ws rs => !(ws.isEmpty && rs.isEmpty)
  | _ => false

/-- A command record exists in the store: the trace holds a call of `addCommand`
(the only call that inserts a command row). -/
def commandRowAdded (tr : List Effect) : Bool :=
  tr.any Effect.isAddCommand

/-- At least one read or write event has been flushed to the store. -/
def eventsFlushed (tr : List Effect) : Bool :=
  tr.any Effect.flushesEvents

/-- The invariant of the poll loop behind C6, for runs without store failure: the
command has an id exactly when its row has been inserted, and that is exactly
when events have been flushed. -/
def State.rowInvariant (s : State) : Prop :=
  (s.cmdInfo.idInDb ≠ INVALID_INT_ID ↔ commandRowAdded s.trace = true) ∧
  (eventsFlushed s.trace = true ↔ commandRowAdded s.trace = true)

/-! ## Concrete inputs -/

def cfgDebug : Config :=
  { assertsEnabled := true, RECEIVE_BUF_SIZE := 1048576, INVALID_RETURN_VAL := 2147483647,
    flushToDiskTotalSize := 1000, flushToDiskEventCount := 2 }

def cfgRelease : Config := { cfgDebug with assertsEnabled := false }

def store0 : Store := { nextId := 1, cmd := [], writtenFile := [], readFile := [] }

/-- The command text `ls`. -/
def textLs : Bytes := [108, 115]

def cmd0 : CommandInfo :=
  { idInDb := INVALID_INT_ID, text := textLs, workingDir := [47], startTime := some 10,
    endTime := none, returnVal := 2147483647, sessionInfo := { uuid := [], comment := none },
    hostname := [104], username := [117] }

def state0 : State :=
  { cmdInfo := cmd0, fEventHandler := { writeEvents := [], readEvents := [] },
    store := store0, clock := 10, trace := [] }

/-- A wakeup on which only the control socket is readable. -/
def wakeSock (msgs : List SockMsg) : Wakeup :=
  { elapsed := 1, poll_num := 1, errno := 0, fanReadable := false, sockReadable := true,
    fanWrites := [], fanReads := [], sockMsgs := msgs, storeFault := none }

/-- A written file `/tmp/<n>` of size 3. -/
def writeEvt (n : Nat) : FileWriteEvent :=
  { path := [47, 116, 109, 112], name := [n], size := 3, mtime := 5, hash := none }

/-- A wakeup on which only the notification descriptor is readable; it delivers
the given write events. -/
def wakeFan (ws : List FileWriteEvent) : Wakeup :=
  { elapsed := 1, poll_num := 1, errno := 0, fanReadable := true, sockReadable := false,
    fanWrites := ws, fanReads := [], sockMsgs := [], storeFault := none }

/-- The peer-closed marker. -/
def msgClosed : SockMsg := { msgId := -1, bytes := [], fd := -1 }

/-- A file watcher in socket mode (`--socket 3`). -/
def fwSocket : FileWatcher :=
  { m_sockFd := 3, m_commandArgc := 0, m_commandFilename := none, m_commandArgv := [],
    m_shellSessionUUID := [1] }

/-- A socket-mode session: three written files (flush), CLEAR_EVENTS two ticks
later, three more written files (flush), then the shell closes the socket. -/
def envClearAfterFlush : RunEnv :=
  { workingDir := [47], hostname := [104], username := [117], store0 := store0, clock0 := 10,
    child := ChildExit.normal 0, exitAt := 0,
    wakeups := [wakeFan [writeEvt 1, writeEvt 2, writeEvt 3],
                { wakeSock [⟨4, [], -1⟩] with elapsed := 2 },
                wakeFan [writeEvt 4, writeEvt 5, writeEvt 6],
                wakeSock [msgClosed]],
    elapsedEnd := 1, terminalFault := none }

/-- A socket-mode session without CLEAR_EVENTS: three written files (flush), the
command text, then the shell closes the socket. -/
def envPlain : RunEnv :=
  { envClearAfterFlush with
    wakeups := [wakeFan [writeEvt 1, writeEvt 2, writeEvt 3],
                wakeSock [⟨1, textLs, -1⟩],
                wakeSock [msgClosed]] }

/-- A file watcher in command mode: `/bin/sh -c x`. -/
def fwCommand : FileWatcher :=
  { m_sockFd := -1, m_commandArgc := 3, m_commandFilename := none,
    m_commandArgv := [[47, 98, 105, 110, 47, 115, 104], [45, 99], [120]],
    m_shellSessionUUID := [] }

/-- A command-mode run whose child is killed by signal 9 after one written file
was seen; the main thread then closes its end of the socket pair. -/
def envKilled : RunEnv :=
  { workingDir := [47], hostname := [104], username := [117], store0 := store0, clock0 := 10,
    child := ChildExit.notNormal 9, exitAt := 1,
    wakeups := [wakeFan [writeEvt 1], wakeSock [msgClosed]],
    elapsedEnd := 1, terminalFault := none }

/-- A wakeup on which `poll` fails with EBADF. -/
def wakePollFails : Wakeup :=
  { elapsed := 1, poll_num := -1, errno := 9, fanReadable := false, sockReadable := false,
    fanWrites := [], fanReads := [], sockMsgs := [], storeFault := none }

/-- A run whose child exits with code 0 and whose poll loop fails on its second
wakeup, after one written file was cached. -/
def envPollFails : RunEnv :=
  { workingDir := [47], hostname := [104], username := [117], store0 := store0, clock0 := 10,
    child := ChildExit.normal 0, exitAt := 1,
    wakeups := [wakeFan [writeEvt 1], wakePollFails],
    elapsedEnd := 1, terminalFault := none }

/-- A wakeup on which both descriptors are readable: a written file is pending
and the peer has closed the socket. -/
def wakeBoth : Wakeup :=
  { elapsed := 1, poll_num := 2, errno := 0, fanReadable := true, sockReadable := true,
    fanWrites := [writeEvt 7], fanReads := [], sockMsgs := [msgClosed], storeFault := none }

/-- A state whose command already has the row id 7 and whose caches hold one
written file. -/
def stateWithId : State :=
  { state0 with cmdInfo := { cmd0 with idInDb := 7, endTime := some 11 },
                fEventHandler := { writeEvents := [writeEvt 1], readEvents := [] } }

/-- The state of a poll loop that started in `state0` and has seen one written
file. -/
def stateAfterOne : State :=
  (pollUntilStopped cfgDebug [wakeFan [writeEvt 1]] state0).state

/-! ## Definitions for the statements on message batches -/

/-- A message id that the `switch` of `processSocketEvent` recognises. -/
def recognisedMsgId (i : Int) : Prop :=
  i = E_SocketMsg.COMMAND.toInt ∨ i = E_SocketMsg.RETURN_VALUE.toInt ∨
    i = E_SocketMsg.LOG_MESSAGE.toInt ∨ i = E_SocketMsg.CLEAR_EVENTS.toInt

instance (i : Int) : Decidable (recognisedMsgId i) := by
  unfold recognisedMsgId
  infer_instance

/-- The payload of the last message of a batch that carries the given id. -/
def lastPayload (id : Int) : List SockMsg → Option Bytes
  | [] => none
  | m :: rest =>
    match lastPayload id rest with
    | some b => some b
    | none => if m.msgId = id then some m.bytes else none

/-- The effect of one message that is not the peer-closed marker and passes the
range assert: one pass through the body of the `for` loop of
`processSocketEvent`. -/
def applyMessage (cfg : Config) (s : State) (m : SockMsg) : State :=
  (handleMessage m ((warnIfLarge cfg m s).log LogLevel.debug
    (LogMsg.receivedMessage m.msgId))).2

/-- The effects of a sequence of messages, applied in order. -/
def applyMessages (cfg : Config) (msgs : List SockMsg) (s : State) : State :=
  msgs.foldl (applyMessage cfg) s

/-- A CLEAR_EVENTS message with arbitrary payload and descriptor. -/
def msgClearEvents (b : Bytes) (fd : Int) : SockMsg :=
  { msgId := E_SocketMsg.CLEAR_EVENTS.toInt, bytes := b, fd := fd }

/-- A state with cached events, an id and an end time, for CLEAR_EVENTS. -/
def stateBusy : State :=
  { stateWithId with
    fEventHandler :=
      { writeEvents := [writeEvt 1],
        readEvents := [{ path := [47], name := [114], size := 2, mtime := 4,
                         bytes := some [1, 2], hash := none }] },
    clock := 20 }

/-- A wakeup on which `poll` reports the socket readable and on which no store
call of a flush throws. -/
def Wakeup.socketOk (w : Wakeup) : Prop :=
  0 < w.poll_num ∧ w.sockReadable = true ∧ w.storeFault = none

instance (w : Wakeup) : Decidable w.socketOk := by
  unfold Wakeup.socketOk
  infer_instance

/-- The shell sends COMMAND and the peer-closed marker in one batch. -/
def envHandshakeOneBatch : RunEnv :=
  { envPlain with wakeups := [wakeSock [⟨1, textLs, -1⟩, msgClosed]] }

/-- The shell sends COMMAND, and the peer-closed marker arrives on a later wakeup. -/
def envHandshakeTwoWakeups : RunEnv :=
  { envPlain with wakeups := [wakeSock [⟨1, textLs, -1⟩], wakeSock [msgClosed]] }

/-- The shell sends an empty COMMAND and closes the socket. -/
def envHandshakeEmptyText : RunEnv :=
  { envPlain with wakeups := [wakeSock [⟨1, [], -1⟩, msgClosed]] }

/-! ## Definitions for the statements on the write events of a run -/

/-- The write events one external call inserted into the write cache. -/
def Effect.cachedWrites : Effect → List FileWriteEvent
  | .handleEvents ws _ => ws
  | _ => []

/-- The write events cached during a run, in the order of their arrival. -/
def cachedWrites : List Effect → List FileWriteEvent
  | [] => []
  | e :: es => e.cachedWrites ++ cachedWrites es

/-- The write events one external call handed to the store. -/
def Effect.handedWrites : Effect → List FileWriteEvent
  | .addFileEvents _ ws _ => ws
  | _ => []

/-- The write events handed to the store by the calls of `addFileEvents` of a
run, in order. -/
def handedWrites : List Effect → List FileWriteEvent
  | [] => []
  | e :: es => e.handedWrites ++ handedWrites es

/-- The command id of a call of `addFileEvents`. -/
def Effect.fileEventsId? : Effect → Option Int
  | .addFileEvents id _ _ => some id
  | _ => none

/-- The command ids of the calls of `addFileEvents` of a run: one entry per
flush that reached the store. -/
def fileEventsIds (tr : List Effect) : List Int :=
  tr.filterMap Effect.fileEventsId?

/-- The invariant of the poll loop behind C12, for runs without store failure and
without socket messages: every cached write event is either handed to the store
or still in the cache, all calls of `addFileEvents` carry the id of the command,
the written file rows are the handed events under that id, and the text is
untouched. -/
def State.writesInvariant (base : List (Int × FileWriteEvent)) (t0 : Bytes) (s : State) : Prop :=
  cachedWrites s.trace = handedWrites s.trace ++ s.fEventHandler.writeEvents ∧
  (∀ id ∈ fileEventsIds s.trace, id = s.cmdInfo.idInDb ∧ id ≠ INVALID_INT_ID) ∧
  s.store.writtenFile = base ++ (handedWrites s.trace).map (fun e => (s.cmdInfo.idInDb, e)) ∧
  s.cmdInfo.text = t0

/-- Scenario S4, events early: three written files arrive on three wakeups while
the child runs; then the child exits with 0 and the socket pair is closed. -/
def envThreeFilesEarly : RunEnv :=
  { workingDir := [47], hostname := [104], username := [117], store0 := store0, clock0 := 10,
    child := ChildExit.normal 0, exitAt := 3,
    wakeups := [wakeFan [writeEvt 1], wakeFan [writeEvt 2], wakeFan [writeEvt 3],
                wakeSock [msgClosed]],
    elapsedEnd := 1, terminalFault := none }

/-- Scenario S4, events late: the loop first wakes up when the three written
files and the closed socket pair are all pending. -/
def envThreeFilesLate : RunEnv :=
  { envThreeFilesEarly with
    exitAt := 0,
    wakeups := [{ wakeBoth with fanWrites := [writeEvt 1, writeEvt 2, writeEvt 3] }] }

/-- The write invariant together with the count of the flushes: inside the poll
loop every call of `addFileEvents` belongs to one threshold flush. -/
def State.flushInvariant (base : List (Int × FileWriteEvent)) (t0 : Bytes) (s : State) : Prop :=
  s.writesInvariant base t0 ∧ (fileEventsIds s.trace).length = flushCount s.trace

/-- No read event is cached, and every threshold flush so far has handed more
than `flushToDiskEventCount` write events to the store. -/
def State.writeFlushBound (cfg : Config) (s : State) : Prop :=
  s.fEventHandler.readEvents = [] ∧
  (cfg.flushToDiskEventCount + 1) * flushCount s.trace ≤ (handedWrites s.trace).length

/-- A command-mode watcher whose only argument is the empty string, so that the
command text of the run is empty. -/
def fwEmptyText : FileWatcher :=
  { m_sockFd := -1, m_commandArgc := 1, m_commandFilename := none,
    m_commandArgv := [[]], m_shellSessionUUID := [] }

/-! ## The store connection (db_connection.cpp) -/

/-- The Qt class `QVersionNumber`: the list of its segments. The segments that
`fromString` yields are non-negative and fit into an `int`, so the difference of
two of them is exact. -/
structure QVersionNumber where
  segments : List Nat
  deriving DecidableEq, Repr

/-- The Qt function `QVersionNumber::compare` on the segment lists: the first
differing segment decides by its difference; if one list extends the other, the
longer one is the greater (the result is its next segment, or 1 if that is 0). -/
def compareSegments : List Nat → List Nat → Int
  | [], [] => 0
  | a :: _, [] => if a ≠ 0 then (a : Int) else 1
  | [], b :: _ => if b ≠ 0 then -(b : Int) else -1
  | a :: as, b :: bs => if a ≠ b then (a : Int) - (b : Int) else compareSegments as bs

def QVersionNumber.compare (v1 v2 : QVersionNumber) : Int :=
  compareSegments v1.segments v2.segments

/-- The statements that `openAndPrepareSqliteDb` sends to the store, and the call
`g_db->open()`. -/
inductive DbStep where
  | openDb
  | foreignKeys
  | transaction
  | scheme
  | queryVersion
  | zero_point_nine
  | replaceVersion
  deriving DecidableEq, Repr

/-- The exception `QExcDatabase`, with the step that raised it. -/
inductive QExc where
  | QExcDatabase (step : DbStep)
  deriving DecidableEq, Repr

inductive DbLogMsg where
  | creatingNewDatabase
  | setPermissionsFailed
  | dbVersionHigher (dbVersion appVersion : QVersionNumber)
  | dbVersion (v : QVersionNumber)
  deriving DecidableEq, Repr

/-- What `openAndPrepareSqliteDb` does to the outside, in program order. -/
inductive DbEffect where
  | exec (step : DbStep)
  | setPermissions
  | log (level : LogLevel) (msg : DbLogMsg)
  deriving DecidableEq, Repr

/-- The content of the store as far as the function reads or writes it: the
version that the text in column `ver` of the row of table `version` denotes
(`none`: there is no such row), and the pragma `foreign_keys`. -/
structure Database where
  version : Option QVersionNumber
  foreign_keys : Bool
  deriving DecidableEq, Repr

/-- The inputs of `openAndPrepareSqliteDb`. `pathExisted` is the value of
`QFileInfo::exists(dbPath)`; `existing` is the content of the file if it existed;
`openOk` is the result of `g_db->open()`; `fault` names a statement at which the
store raises an exception; `appVersion` is `app::version()`. -/
structure DbEnv where
  pathExisted : Bool
  existing : Database
  openOk : Bool
  /-- Modelled from the spec: `DATABASE_SCHEME` is missing; it creates the table
  `version(id PK=1, ver TEXT)` (section 6), this field is the version of the row
  it inserts, `none` if it inserts no row. -/
  DATABASE_SCHEME : Option QVersionNumber
  setPermissionsOk : Bool
  appVersion : QVersionNumber
  fault : Option DbStep
  deriving DecidableEq, Repr

structure DbState where
  db : Database
  trace : List DbEffect
  deriving DecidableEq, Repr

def DbState.emit (s : DbState) (e : DbEffect) : DbState :=
  { s with trace := s.trace ++ [e] }

/-- One call of `QSqlQueryThrow::exec` (or `transaction`): it throws if the store
fails at this statement. -/
def exec (env : DbEnv) (step : DbStep) (s : DbState) : Except QExc DbState :=
  if env.fault = some step then Except.error (QExc.QExcDatabase step)
  else Except.ok (s.emit (DbEffect.exec step))

/-- The function `queryVersion`: `select ver from version`, then `next(true)`,
which throws if there is no row. -/
def queryVersion (env : DbEnv) (s : DbState) : Except QExc (QVersionNumber × DbState) :=
  match exec env DbStep.queryVersion s with
  | Except.error e => Except.error e
  | Except.ok s1 =>
    match s1.db.version with
    | none => Except.error (QExc.QExcDatabase DbStep.queryVersion)
    | some v => Except.ok (v, s1)

/-- The branch `if(! pathExisted)` of `openAndPrepareSqliteDb`. -/
def createDatabase (env : DbEnv) (s : DbState) : Except QExc DbState :=
  match exec env DbStep.scheme (s.emit (DbEffect.log LogLevel.info DbLogMsg.creatingNewDatabase)) with
  | Except.error e => Except.error e
  | Except.ok s1 =>
    let s2 : DbState :=
      ({ s1 with db := { s1.db with version := env.DATABASE_SCHEME } }).emit
        DbEffect.setPermissions
    if env.setPermissionsOk then Except.ok s2
    else Except.ok (s2.emit (DbEffect.log LogLevel.warning DbLogMsg.setPermissionsFailed))

/-- The statement `if(QVersionNumber::compare(dbVersion, app::version()) >= 1)`
with its warning. -/
def warnIfNewer (env : DbEnv) (dbVersion : QVersionNumber) (s : DbState) : DbState :=
  if QVersionNumber.compare dbVersion env.appVersion ≥ 1 then
    s.emit (DbEffect.log LogLevel.warning (DbLogMsg.dbVersionHigher dbVersion env.appVersion))
  else s

/-- The statement `if(QVersionNumber::compare(dbVersion, {0, 9}) <= -1)`.
Modelled from the spec: `zero_point_nine` is missing; an upgrade step of the
schema that leaves the version row to its caller (section 4.9: the migrations
are applied, then the current version is written back). -/
def updateZeroPointNine (env : DbEnv) (dbVersion : QVersionNumber) (s : DbState) :
    Except QExc DbState :=
  if QVersionNumber.compare dbVersion { segments := [0, 9] } ≤ -1 then
    exec env DbStep.zero_point_nine s
  else Except.ok s

/-- The statement `if(QVersionNumber::compare(dbVersion, app::version()) <= -1)`
with `replace into version (id, ver) values (1, ?)`. -/
def writeAppVersion (env : DbEnv) (dbVersion : QVersionNumber) (s : DbState) :
    Except QExc DbState :=
  if QVersionNumber.compare dbVersion env.appVersion ≤ -1 then
    match exec env DbStep.replaceVersion s with
    | Except.error e => Except.error e
    | Except.ok s1 => Except.ok { s1 with db := { s1.db with version := some env.appVersion } }
  else Except.ok s

/-- The part of `openAndPrepareSqliteDb` from `queryVersion` on. -/
def prepareVersion (env : DbEnv) (s : DbState) : Except QExc DbState :=
  match queryVersion env s with
  | Except.error e => Except.error e
  | Except.ok (dbVersion, s1) =>
    let s2 := (warnIfNewer env dbVersion s1).emit
      (DbEffect.log LogLevel.debug (DbLogMsg.dbVersion dbVersion))
    match updateZeroPointNine env dbVersion s2 with
    | Except.error e => Except.error e
    | Except.ok s3 => writeAppVersion env dbVersion s3

/-- The store right after `g_db->open()`: the content of the file, or an empty
store if the file did not exist. -/
def openedDatabase (env : DbEnv) : Database :=
  if env.pathExisted then env.existing else { version := none, foreign_keys := false }

/-- The function `openAndPrepareSqliteDb`. The result is the store as the
queries of this connection see it after the call, or the exception thrown. -/
def openAndPrepareSqliteDb (env : DbEnv) : Except QExc DbState :=
  if ¬ env.openOk then Except.error (QExc.QExcDatabase DbStep.openDb)
  else
    match exec env DbStep.foreignKeys { db := openedDatabase env, trace := [] } with
    | Except.error e => Except.error e
    | Except.ok s1 =>
      match exec env DbStep.transaction
          { s1 with db := { s1.db with foreign_keys := true } } with
      | Except.error e => Except.error e
      | Except.ok s2 =>
        if ¬ env.pathExisted then
          match createDatabase env s2 with
          | Except.error e => Except.error e
          | Except.ok s3 => prepareVersion env s3
        else prepareVersion env s2

/-! ## Definitions for the statements on the store connection -/

/-- The version that `queryVersion` finds: the one of the existing file, or the
one that the schema has just inserted. -/
def versionBefore (env : DbEnv) : Option QVersionNumber :=
  if env.pathExisted then env.existing.version else env.DATABASE_SCHEME

def DbEffect.isWarning : DbEffect → Bool
  | .log LogLevel.warning (DbLogMsg.dbVersionHigher _ _) => true
  | _ => false

def appVersion23 : QVersionNumber := { segments := [2, 3] }

/-- An existing store at version 0.8, opened by application version 2.3. -/
def envOldStore : DbEnv :=
  { pathExisted := true, existing := { version := some { segments := [0, 8] }, foreign_keys := false },
    openOk := true, DATABASE_SCHEME := some { segments := [2, 3] }, setPermissionsOk := true,
    appVersion := appVersion23, fault := none }

/-- No store file yet; the schema inserts version 0.1. -/
def envFreshStore : DbEnv :=
  { envOldStore with pathExisted := false, DATABASE_SCHEME := some { segments := [0, 1] } }

/-- An existing store at version 2.4, opened by application version 2.3. -/
def envNewerStore : DbEnv :=
  { envOldStore with existing := { version := some { segments := [2, 4] }, foreign_keys := true } }

/-- An existing store at version 1.0, opened by application version 2.3. -/
def envStoreOneZero : DbEnv :=
  { envOldStore with existing := { version := some { segments := [1, 0] }, foreign_keys := true } }

/-- The effects of `openAndPrepareSqliteDb` before `queryVersion`. -/
def setupSteps (env : DbEnv) : List DbEffect :=
  [DbEffect.exec DbStep.foreignKeys, DbEffect.exec DbStep.transaction] ++
    (if env.pathExisted then []
     else
      [DbEffect.log LogLevel.info DbLogMsg.creatingNewDatabase, DbEffect.exec DbStep.scheme,
        DbEffect.setPermissions] ++
      (if env.setPermissionsOk then []
       else [DbEffect.log LogLevel.warning DbLogMsg.setPermissionsFailed]))

/-- The effects of `openAndPrepareSqliteDb` from `queryVersion` on, for the
version `v` that was found. -/
def versionSteps (env : DbEnv) (v : QVersionNumber) : List DbEffect :=
  [DbEffect.exec DbStep.queryVersion] ++
    (if QVersionNumber.compare v env.appVersion ≥ 1 then
      [DbEffect.log LogLevel.warning (DbLogMsg.dbVersionHigher v env.appVersion)]
     else []) ++
    [DbEffect.log LogLevel.debug (DbLogMsg.dbVersion v)] ++
    (if QVersionNumber.compare v { segments := [0, 9] } ≤ -1 then
      [DbEffect.exec DbStep.zero_point_nine]
     else []) ++
    (if QVersionNumber.compare v env.appVersion ≤ -1 then
      [DbEffect.exec DbStep.replaceVersion]
     else [])

/-- The greater of two versions in the order of `QVersionNumber::compare`. -/
def maxVersion (v1 v2 : QVersionNumber) : QVersionNumber :=
  if QVersionNumber.compare v1 v2 ≥ 0 then v1 else v2

/-- The conversion `static_cast<int>` of an `unsigned int`. -/
def uintToInt (n : Nat) : Int :=
  if n % 2 ^ 32 < 2 ^ 31 then ((n % 2 ^ 32 : Nat) : Int)
  else ((n % 2 ^ 32 : Nat) : Int) - 2 ^ 32

/-- The comparison operators of a `QOptSqlArg`. -/
inductive E_CompareOperator where
  | eq | ne | lt | le | gt | ge | like
  deriving DecidableEq, Repr

/-- One entry of a `SqlQuery`: a column compared with values, or the entries
that `file_query_helper` derives from an existing file. -/
inductive SqlCondition where
  | compare (tableCol : String) (values : List String) (op : E_CompareOperator)
  | compareBytes (tableCol : String) (value : Bytes) (op : E_CompareOperator)
  | writtenFile (path : String) (mtime hash size : Bool)
  | writtenFileSmart (path : String)
  deriving DecidableEq, Repr

/-- Modelled from the spec: the class `SqlQuery` is missing; a family of
AND-connected predicates (CLI, query), kept as what its setters were given:
the text of `setQuery`, the entries of `addWithAnd`, the order and the limit
(`none`: as constructed). -/
structure SqlQuery where
  query : String
  conditions : List SqlCondition
  ascending : Option Bool
  limit : Option Int
  deriving DecidableEq, Repr

def SqlQuery.new : SqlQuery :=
  { query := "", conditions := [], ascending := none, limit := none }

def SqlQuery.setAscending (q : SqlQuery) (b : Bool) : SqlQuery :=
  { q with ascending := some b }

def SqlQuery.setLimit (q : SqlQuery) (n : Int) : SqlQuery :=
  { q with limit := some n }

def SqlQuery.setQuery (q : SqlQuery) (t : String) : SqlQuery :=
  { q with query := t }

def SqlQuery.addWithAnd (q : SqlQuery) (tableCol : String) (values : List String)
    (op : E_CompareOperator) : SqlQuery :=
  { q with conditions := q.conditions ++ [SqlCondition.compare tableCol values op] }

/-- Modelled from the spec: `SqlQuery::isEmpty` is missing; no query text and no
predicate ("No target fields given (empty query)"). -/
def SqlQuery.isEmpty (q : SqlQuery) : Bool :=
  q.query.isEmpty && q.conditions.isEmpty

/-- The settings that `parse` gives to the `PrettyPrint` object. -/
structure PrettyPrint where
  maxCountOfReadFileLines : Int
  restoreReadFiles : Bool
  restoreDir : Option String
  deriving DecidableEq, Repr

/-- A parsed `QOptSqlArg`: its values and its operator. -/
structure QOptSqlArg where
  values : List String
  parsedOperator : E_CompareOperator
  deriving DecidableEq, Repr

/-- The options of `--take-from-wfile` that the argument parser lets pass. -/
inductive WFileOption where
  | mtime | hash | size
  deriving DecidableEq, Repr

/-- The arguments after `parser.parse(argc, argv)`: for each argument its value
if it was parsed (`wasParsed`), and the rest of the command line. -/
structure ParsedArgs where
  argHistory : Option Nat
  argWFile : Option String
  argTakeFromWFile : Option (List WFileOption)
  argWName : Option QOptSqlArg
  argWPath : Option QOptSqlArg
  argWSize : Option QOptSqlArg
  argWHash : Option QOptSqlArg
  argWMtime : Option QOptSqlArg
  argRName : Option QOptSqlArg
  argRPath : Option QOptSqlArg
  argRSize : Option QOptSqlArg
  argRMtime : Option QOptSqlArg
  argMaxReadFileLines : Option Nat
  argRestoreRfiles : Bool
  argRestoreRfilesAt : Option String
  argRestoreRfileId : Option Nat
  argCmdText : Option QOptSqlArg
  argCmdCwd : Option QOptSqlArg
  argCmdId : Option QOptSqlArg
  argCmdEndDate : Option QOptSqlArg
  argShellSessionId : Option QOptSqlArg
  rest : List String
  deriving DecidableEq, Repr

inductive QueryErrMsg where
  | emptyQuery
  | noDatabaseEntry
  | restoreDirDoesNotExist (path : String)
  | invalidParameters (rest : List String)
  deriving DecidableEq, Repr

/-- What `parse` does to the outside, in program order. -/
inductive QueryEffect where
  | qiErr (msg : QueryErrMsg)
  | queryForCmd (sqlQ : SqlQuery) (reverseResultIter : Bool)
  | printCommandInfosEvtlRestore (prettyPrint : PrettyPrint) (results : List CommandInfo)
  | restoreReadFileAtDir (id : Nat)
  deriving DecidableEq, Repr

/-- The surroundings of `parse`: whether the directory of `--restore-rfiles-at`
exists and its absolute path, the snippet `shournalRestore`, the commands of
the store in the order of the query (oldest first), which commands a predicate
or a query text holds for, whether `queryReadInfo` finds the read file, and
whether the user declines to replace an existing file. -/
structure QueryEnv where
  restoreDirExists : Bool
  restoreDirAbsolutePath : String
  shournalRestore : String
  commands : List CommandInfo
  evalCondition : SqlCondition → CommandInfo → Bool
  evalQuery : String → CommandInfo → Bool
  readInfoFound : Nat → Bool
  replaceDeclined : Bool

/-- Whether the query selects a command: its text holds (the text ` 1 ` of
`--history` is the SQL constant for true, an empty text stands for no text) and
so does each of its AND-connected predicates. -/
def SqlQuery.selects (env : QueryEnv) (q : SqlQuery) (c : CommandInfo) : Bool :=
  (decide (q.query = " 1 ") || q.query.isEmpty || env.evalQuery q.query c) &&
    q.conditions.all (fun k => env.evalCondition k c)

/-- Modelled from the spec: `db_controller::queryForCmd` is missing; the commands
that satisfy the AND-connected predicates of the query (CLI, query), in
ascending order or, if the query says so, in descending order, cut off after
`limit` commands (a negative limit is none), and handed over in reverse when
`reverseResultIter` is set. -/
def queryForCmd (env : QueryEnv) (sqlQ : SqlQuery) (reverseResultIter : Bool) :
    List CommandInfo :=
  let rows := env.commands.filter (sqlQ.selects env)
  let ordered := if sqlQ.ascending = some false then rows.reverse else rows
  let limited :=
    match sqlQ.limit with
    | some n => if 0 ≤ n then ordered.take n.toNat else ordered
    | none => ordered
  if reverseResultIter then limited.reverse else limited

/-- The call `cpp_exit(code)` that ends every path of `parse`, with the effects
up to it. -/
structure ParseExit where
  code : Int
  trace : List QueryEffect
  deriving DecidableEq, Repr

/-- The function `queryCmdPrintAndExit`. -/
def queryCmdPrintAndExit (env : QueryEnv) (prettyPrint : PrettyPrint) (sqlQ : SqlQuery)
    (reverseResultIter : Bool) : ParseExit :=
  if sqlQ.isEmpty then
    { code := 1, trace := [QueryEffect.qiErr QueryErrMsg.emptyQuery] }
  else
    let results := queryForCmd env sqlQ reverseResultIter
    { code := 0,
      trace := [QueryEffect.queryForCmd sqlQ reverseResultIter,
        QueryEffect.printCommandInfosEvtlRestore prettyPrint results] }

/-- The function `restoreSingleReadFile`. -/
def restoreSingleReadFile (env : QueryEnv) (id : Nat) : ParseExit :=
  if ¬ env.readInfoFound id then
    { code := 1, trace := [QueryEffect.qiErr QueryErrMsg.noDatabaseEntry] }
  else if env.replaceDeclined then { code := 0, trace := [] }
  else { code := 0, trace := [QueryEffect.restoreReadFileAtDir id] }

/-- The value of one character in the Base64 alphabet, as the Qt function
`QByteArray::fromBase64` reads it; `none` for a character outside the alphabet. -/
def base64Digit (ch : Nat) : Option Nat :=
  if 65 ≤ ch ∧ ch ≤ 90 then some (ch - 65)
  else if 97 ≤ ch ∧ ch ≤ 122 then some (ch - 97 + 26)
  else if 48 ≤ ch ∧ ch ≤ 57 then some (ch - 48 + 52)
  else if ch = 43 then some 62
  else if ch = 47 then some 63
  else none

/-- The loop of the Qt function `QByteArray::fromBase64` with its locals `buf` and
`nbits`: characters outside the alphabet are skipped, every eight collected bits
yield a byte. -/
def fromBase64Loop : List Nat → Nat → Nat → Bytes → Bytes
  | [], _, _, out => out
  | ch :: rest, buf, nbits, out =>
    match base64Digit ch with
    | none => fromBase64Loop rest buf nbits out
    | some d =>
      let buf1 := buf * 64 + d
      if nbits + 6 ≥ 8 then
        fromBase64Loop rest (buf1 % 2 ^ (nbits + 6 - 8)) (nbits + 6 - 8)
          (out ++ [buf1 / 2 ^ (nbits + 6 - 8) % 256])
      else fromBase64Loop rest buf1 (nbits + 6) out

/-- The Qt function `QByteArray::fromBase64`. -/
def QByteArray.fromBase64 (base64 : Bytes) : Bytes :=
  fromBase64Loop base64 0 0 []

/-- The value of a parsed argument as `getValue<QByteArray>()` hands it over: the
bytes of its first value. -/
def QOptSqlArg.getValueBytes (a : QOptSqlArg) : Bytes :=
  (a.values.headD "").toUTF8.toList.map (fun b => b.toNat)

/-- The function `addBytesizeSqlArgToQueryIfParsed`. -/
def addBytesizeSqlArgToQueryIfParsed (query : SqlQuery) (arg : Option QOptSqlArg)
    (tableCol : String) : SqlQuery :=
  match arg with
  | none => query
  | some a => query.addWithAnd tableCol a.values a.parsedOperator

/-- Modelled from the spec: `addSimpleSqlArgToQueryIfParsed` is missing; it adds
the predicate of a parsed argument, AND-connected (CLI, query). -/
def addSimpleSqlArgToQueryIfParsed (query : SqlQuery) (arg : Option QOptSqlArg)
    (tableCol : String) : SqlQuery :=
  match arg with
  | none => query
  | some a => query.addWithAnd tableCol a.values a.parsedOperator

/-- Modelled from the spec: `addVariantSqlArgToQueryIfParsed` is missing; it adds
the predicate of a parsed argument, AND-connected (CLI, query). -/
def addVariantSqlArgToQueryIfParsed (query : SqlQuery) (arg : Option QOptSqlArg)
    (tableCol : String) : SqlQuery :=
  match arg with
  | none => query
  | some a => query.addWithAnd tableCol a.values a.parsedOperator

/-- The branch `if(argWFile.wasParsed())` of `parse`.
Modelled from the spec: `file_query_helper` is missing; it derives predicates
from an existing file (CLI, query), kept here as one entry of the query. -/
def addWFile (query : SqlQuery) (a : ParsedArgs) : SqlQuery :=
  match a.argWFile with
  | none => query
  | some path =>
    match a.argTakeFromWFile with
    | some opts =>
      { query with conditions := query.conditions ++
          [SqlCondition.writtenFile path (opts.contains WFileOption.mtime)
            (opts.contains WFileOption.hash) (opts.contains WFileOption.size)] }
    | none =>
      { query with conditions := query.conditions ++ [SqlCondition.writtenFileSmart path] }

/-- The statements of `parse` that add the parsed predicates to the query, from
`argWName` to `argWFile`; the column names are those of `QueryColumns`. -/
def addPredicates (a : ParsedArgs) (query : SqlQuery) : SqlQuery :=
  let q1 := addSimpleSqlArgToQueryIfParsed query a.argWName "writtenFile.name"
  let q2 := addSimpleSqlArgToQueryIfParsed q1 a.argWPath "writtenFile.path"
  let q3 := addBytesizeSqlArgToQueryIfParsed q2 a.argWSize "writtenFile.size"
  let q4 := match a.argWHash with
    | none => q3
    | some h => q3.addWithAnd "writtenFile.hash" h.values h.parsedOperator
  let q5 := addVariantSqlArgToQueryIfParsed q4 a.argWMtime "writtenFile.mtime"
  let q6 := addSimpleSqlArgToQueryIfParsed q5 a.argRName "readFile.name"
  let q7 := addSimpleSqlArgToQueryIfParsed q6 a.argRPath "readFile.path"
  let q8 := addBytesizeSqlArgToQueryIfParsed q7 a.argRSize "readFile.size"
  let q9 := addVariantSqlArgToQueryIfParsed q8 a.argRMtime "readFile.mtime"
  let q10 := addVariantSqlArgToQueryIfParsed q9 a.argCmdId "cmd.id"
  let q11 := addSimpleSqlArgToQueryIfParsed q10 a.argCmdText "cmd.txt"
  let q12 := addSimpleSqlArgToQueryIfParsed q11 a.argCmdCwd "cmd.workingDirectory"
  let q13 := addVariantSqlArgToQueryIfParsed q12 a.argCmdEndDate "cmd.endTime"
  let q14 := match a.argShellSessionId with
    | none => q13
    | some s =>
      { q13 with conditions := q13.conditions ++
          [SqlCondition.compareBytes "session.id" (QByteArray.fromBase64 s.getValueBytes)
            s.parsedOperator] }
  addWFile q14 a

/-- The `PrettyPrint` object of `parse` after the block on `argRestoreRfilesAt`. -/
def preparePrettyPrint (env : QueryEnv) (a : ParsedArgs) : PrettyPrint :=
  { maxCountOfReadFileLines := uintToInt (a.argMaxReadFileLines.getD 5),
    restoreReadFiles := a.argRestoreRfiles || a.argRestoreRfilesAt.isSome,
    restoreDir :=
      match a.argRestoreRfilesAt with
      | some _ => some (env.restoreDirAbsolutePath ++ "/" ++ env.shournalRestore)
      | none => none }

/-- The function `argcontol_dbquery::parse` after `parser.parse(argc, argv)`. -/
def argcontol_dbquery.parse (env : QueryEnv) (a : ParsedArgs) : ParseExit :=
  if a.argRestoreRfilesAt.isSome ∧ ¬ env.restoreDirExists then
    { code := 1,
      trace := [QueryEffect.qiErr
        (QueryErrMsg.restoreDirDoesNotExist env.restoreDirAbsolutePath)] }
  else
    let prettyPrint := preparePrettyPrint env a
    match a.argHistory with
    | some n =>
      queryCmdPrintAndExit env prettyPrint
        (((SqlQuery.new.setAscending false).setLimit (uintToInt n)).setQuery " 1 ") true
    | none =>
      match a.argRestoreRfileId with
      | some id => restoreSingleReadFile env id
      | none =>
        let query := addPredicates a SqlQuery.new
        if a.rest.length ≠ 0 then
          { code := 1, trace := [QueryEffect.qiErr (QueryErrMsg.invalidParameters a.rest)] }
        else queryCmdPrintAndExit env prettyPrint query false

/-! ## Definitions for the statements on the query command line -/

/-- The query that `--history n` stands for. -/
def historyQuery (n : Nat) : SqlQuery :=
  { query := " 1 ", conditions := [], ascending := some false, limit := some (n : Int) }

def QueryEffect.isInvalidParameters : QueryEffect → Bool
  | .qiErr (QueryErrMsg.invalidParameters _) => true
  | _ => false

/-- A command line without arguments. -/
def argsNone : ParsedArgs :=
  { argHistory := none, argWFile := none, argTakeFromWFile := none, argWName := none,
    argWPath := none, argWSize := none, argWHash := none, argWMtime := none,
    argRName := none, argRPath := none, argRSize := none, argRMtime := none,
    argMaxReadFileLines := none, argRestoreRfiles := false, argRestoreRfilesAt := none,
    argRestoreRfileId := none, argCmdText := none, argCmdCwd := none, argCmdId := none,
    argCmdEndDate := none, argShellSessionId := none, rest := [] }

/-- The command line `--history 3 --wname -eq foo bar`. -/
def argsHistoryAndMore : ParsedArgs :=
  { argsNone with
    argHistory := some 3,
    argWName := some { values := ["foo"], parsedOperator := E_CompareOperator.eq },
    rest := ["bar"] }

/-- The command line `--history 3 --restore-rfiles-at /nowhere`. -/
def argsHistoryRestoreAt : ParsedArgs :=
  { argsNone with argHistory := some 3, argRestoreRfilesAt := some "/nowhere" }

/-- The command line `--history 2147483648`. -/
def argsHistoryHuge : ParsedArgs :=
  { argsNone with argHistory := some 2147483648 }

/-- The command with the row id `n` and the text `ls`. -/
def cmdRow (n : Int) : CommandInfo :=
  { cmd0 with idInDb := n, returnVal := 0, endTime := some 11 }

/-- Surroundings in which no directory exists and the store holds five commands;
no predicate holds for any of them. -/
def queryEnv0 : QueryEnv :=
  { restoreDirExists := false, restoreDirAbsolutePath := "/nowhere",
    shournalRestore := "shournal-restore",
    commands := [cmdRow 1, cmdRow 2, cmdRow 3, cmdRow 4, cmdRow 5],
    evalCondition := fun _ _ => false, evalQuery := fun _ _ => false,
    readInfoFound := fun _ => false, replaceDeclined := false }

/-- A command-mode run whose child is killed by signal 9: three written files
make the loop flush before the main thread has stored the return value, then
`poll` fails. -/
def envFlushThenPollFails : RunEnv :=
  { envKilled with
    wakeups := [wakeFan [writeEvt 1, writeEvt 2, writeEvt 3], wakePollFails] }

/-- A wakeup that leaves the loop running whatever the state: `poll` was
interrupted by a signal, or it reports descriptors of which the socket is not
one. -/
def Wakeup.quiet (w : Wakeup) : Prop :=
  (w.poll_num = -1 ∧ w.errno = EINTR) ∨ (0 < w.poll_num ∧ w.sockReadable = false)

instance (w : Wakeup) : Decidable w.quiet := by
  unfold Wakeup.quiet
  exact inferInstance

/-- A wakeup on which the socket is readable and the first thing received is the
peer-closed marker. -/
def Wakeup.seesClose (w : Wakeup) : Prop :=
  0 < w.poll_num ∧ w.sockReadable = true ∧
    w.sockMsgs.head?.map (fun m => m.msgId) = some (-1)

instance (w : Wakeup) : Decidable w.seesClose := by
  unfold Wakeup.seesClose
  exact inferInstance

/-- The wakeups of a run in which the closing of the socket is seen after
wakeups that leave the loop running. -/
def closesAfterQuiet (ws : List Wakeup) : Prop :=
  ∃ pre wc post, ws = pre ++ wc :: post ∧ (∀ w ∈ pre, w.quiet) ∧ wc.seesClose

/-! ## C1: an unknown message id -/

theorem handleMessage_unknown (msg : SockMsg) (s : State) (h : unknownMsgId msg.msgId) :
    handleMessage msg s =
      (E_SocketMsg.EMPTY, s.log LogLevel.critical (LogMsg.invalidMessage msg.msgId)) := by
  obtain ⟨_, h1, h2, h3, h4⟩ := h
  simp only [E_SocketMsg.toInt] at h1 h2 h3 h4
  unfold handleMessage E_SocketMsg.ofInt
  split_ifs <;> simp_all

theorem processMessages_unknown_last (cfg : Config) (m : SockMsg)
    (hm : unknownMsgId m.msgId) (hrange : passesAssert cfg m.msgId) :
    ∀ (pre : List SockMsg) (ret : E_SocketMsg) (s : State),
      (∀ x ∈ pre, x.msgId ≠ -1 ∧ passesAssert cfg x.msgId) →
      ∃ s', processMessages cfg (pre ++ [m]) ret s = (SockResult.returned E_SocketMsg.EMPTY, s') ∧
        Effect.log LogLevel.critical (LogMsg.invalidMessage m.msgId) ∈ s'.trace := by
  intro pre
  induction pre with
  | nil =>
    intro ret s _
    have h1 : m.msgId ≠ -1 := hm.1
    have h2 : ¬ (cfg.assertsEnabled = true ∧
        ¬ (m.msgId ≥ 0 ∧ m.msgId < E_SocketMsg.ENUM_END.toInt)) := by
      intro h
      exact h.2 (hrange h.1)
    have h3 : ¬ (cfg.assertsEnabled = true ∧ E_SocketMsg.EMPTY = E_SocketMsg.ENUM_END) := by
      intro h
      exact absurd h.2 (by decide)
    simp only [List.nil_append, processMessages, if_neg h1, if_neg h2,
      handleMessage_unknown _ _ hm, if_neg h3]
    exact ⟨_, rfl, by simp [State.log, State.emit]⟩
  | cons x pre ih =>
    intro ret s hpre
    have hx := hpre x (List.mem_cons_self _ _)
    have h1 : x.msgId ≠ -1 := hx.1
    have h2 : ¬ (cfg.assertsEnabled = true ∧
        ¬ (x.msgId ≥ 0 ∧ x.msgId < E_SocketMsg.ENUM_END.toInt)) := by
      intro h
      exact h.2 (hx.2 h.1)
    simp only [List.cons_append, processMessages, if_neg h1, if_neg h2]
    exact ih _ _ (fun y hy => hpre y (List.mem_cons_of_mem _ hy))

/-- C1 (counterexample): a batch whose only message has the id 0 (SETUP_DONE, which
`processSocketEvent` does not recognise) makes `pollUntilStopped` return EMPTY at
that wakeup, after the message has been logged: the loop does not continue. The
same holds for the id 99, which is no enumerator at all, when asserts are
compiled out. -/
theorem unknown_last_message_ends_loop :
    unknownMsgId 0 ∧
    (pollUntilStopped cfgDebug [wakeSock [⟨0, [], -1⟩]] state0).result
      = some E_SocketMsg.EMPTY ∧
    (pollUntilStopped cfgRelease [wakeSock [⟨0, [], -1⟩]] state0).result
      = some E_SocketMsg.EMPTY ∧
    Effect.log LogLevel.critical (LogMsg.invalidMessage 0) ∈
      (pollUntilStopped cfgDebug [wakeSock [⟨0, [], -1⟩]] state0).state.trace ∧
    unknownMsgId 99 ∧
    (pollUntilStopped cfgRelease [wakeSock [⟨99, [], -1⟩]] state0).result
      = some E_SocketMsg.EMPTY := by
  decide

/-! ## Induction principles for the message loop and the poll loop -/

theorem handleMessage_clock (m : SockMsg) (s : State) :
    (handleMessage m s).2.clock = s.clock := by
  unfold handleMessage
  split <;> simp [State.log, State.emit]

theorem handleMessage_startBeforeClock (m : SockMsg) (s : State)
    (h : s.startBeforeClock) : (handleMessage m s).2.startBeforeClock := by
  unfold handleMessage
  split <;> simp_all [State.log, State.emit, State.startBeforeClock]

theorem processMessages_induction (cfg : Config) (P : State → Prop) (Q : SockMsg → Prop)
    (hwarn : ∀ m s, P s → P (warnIfLarge cfg m s))
    (hmsg : ∀ m s, Q m → P s →
      P (handleMessage m (s.log LogLevel.debug (LogMsg.receivedMessage m.msgId))).2) :
    ∀ (msgs : List SockMsg) (ret : E_SocketMsg) (s : State), (∀ m ∈ msgs, Q m) → P s →
      P (processMessages cfg msgs ret s).2 := by
  intro msgs
  induction msgs with
  | nil =>
    intro ret s _ h
    unfold processMessages
    split_ifs <;> exact h
  | cons m rest ih =>
    intro ret s hq h
    have h1 := hwarn m s h
    unfold processMessages
    simp only
    split_ifs
    · exact h1
    · exact h1
    · exact ih _ _ (fun x hx => hq x (List.mem_cons_of_mem _ hx))
        (hmsg _ _ (hq m (List.mem_cons_self _ _)) h1)

theorem pollUntilStopped_induction (cfg : Config) (P : State → Prop) (Q : Wakeup → Prop)
    (hstep : ∀ w s, Q w → P s → P (pollIteration cfg w s).state) :
    ∀ (ws : List Wakeup) (s : State), (∀ w ∈ ws, Q w) → P s →
      P (pollUntilStopped cfg ws s).state := by
  intro ws
  induction ws with
  | nil =>
    intro s _ h
    exact h
  | cons w rest ih =>
    intro s hq h
    have h1 := hstep w s (hq w (List.mem_cons_self _ _)) h
    unfold pollUntilStopped
    cases hw : pollIteration cfg w s with
    | «continue» s1 =>
      rw [hw] at h1
      exact ih s1 (fun x hx => hq x (List.mem_cons_of_mem _ hx)) h1
    | returned r s1 =>
      rw [hw] at h1
      exact h1
    | aborted s1 =>
      rw [hw] at h1
      exact h1

/-! ## The flush path: basic facts -/

theorem storeCommand_trace (s : State) :
    ∃ e, (storeCommand s).trace = s.trace ++ [e] ∧ e.command? = some s.cmdInfo ∧
      ∀ id ws rs, e ≠ Effect.addFileEvents id ws rs := by
  unfold storeCommand
  split_ifs
  · exact ⟨_, rfl, rfl, fun _ _ _ h => by cases h⟩
  · exact ⟨_, rfl, rfl, fun _ _ _ h => by cases h⟩

theorem storeCommand_cmdInfo (s : State) :
    (storeCommand s).cmdInfo = { s.cmdInfo with idInDb := (storeCommand s).cmdInfo.idInDb } := by
  unfold storeCommand
  split_ifs <;> rfl

theorem storeCommand_frame (s : State) :
    (storeCommand s).clock = s.clock ∧ (storeCommand s).fEventHandler = s.fEventHandler ∧
    (storeCommand s).store.writtenFile = s.store.writtenFile ∧
    (storeCommand s).store.readFile = s.store.readFile := by
  unfold storeCommand
  split_ifs <;> exact ⟨rfl, rfl, rfl, rfl⟩

theorem flushToDisk_none (s : State) :
    flushToDisk none s =
      { storeFileEvents ((storeCommand { s with cmdInfo := flushCommand s }).emit Effect.mkpath)
        with fEventHandler := { writeEvents := [], readEvents := [] } } := by
  simp [flushToDisk, flushTry, FileEventHandler.clearEvents]

theorem flushToDisk_some (step : StoreStep) (s : State) :
    flushToDisk (some step) s =
      { (match step with
          | StoreStep.command => ({ s with cmdInfo := flushCommand s } : State)
          | StoreStep.mkpath => storeCommand { s with cmdInfo := flushCommand s }
          | StoreStep.addFileEvents =>
            (storeCommand { s with cmdInfo := flushCommand s }).emit Effect.mkpath).log
          LogLevel.critical (LogMsg.storeFailed step)
        with fEventHandler := { writeEvents := [], readEvents := [] } } := by
  cases step <;> simp [flushToDisk, flushTry, FileEventHandler.clearEvents]

theorem flushToDisk_clock (fault : Option StoreStep) (s : State) :
    (flushToDisk fault s).clock = s.clock := by
  have h := (storeCommand_frame { s with cmdInfo := flushCommand s }).1
  rcases fault with _ | _ | _ | _
  · rw [flushToDisk_none]
    simpa [storeFileEvents, State.emit] using h
  · rw [flushToDisk_some]
    simp [State.log, State.emit]
  · rw [flushToDisk_some]
    simpa [State.log, State.emit] using h
  · rw [flushToDisk_some]
    simpa [State.log, State.emit] using h

theorem flushToDisk_cmdInfo (fault : Option StoreStep) (s : State) :
    (flushToDisk fault s).cmdInfo =
      { flushCommand s with idInDb := (flushToDisk fault s).cmdInfo.idInDb } := by
  have h := storeCommand_cmdInfo { s with cmdInfo := flushCommand s }
  rcases fault with _ | _ | _ | _
  · rw [flushToDisk_none]
    simpa [storeFileEvents, State.emit] using h
  · rw [flushToDisk_some]
    simp [State.log, State.emit]
  · rw [flushToDisk_some]
    simpa [State.log, State.emit] using h
  · rw [flushToDisk_some]
    simpa [State.log, State.emit] using h

theorem flushCommand_startTime (s : State) :
    (flushCommand s).startTime = s.cmdInfo.startTime := by
  unfold flushCommand
  split_ifs <;> rfl

theorem flushToDisk_startTime (fault : Option StoreStep) (s : State) :
    (flushToDisk fault s).cmdInfo.startTime = s.cmdInfo.startTime := by
  rw [flushToDisk_cmdInfo]
  exact flushCommand_startTime s

theorem flushToDisk_times (fault : Option StoreStep) (s : State) :
    (flushToDisk fault s).cmdInfo.startTime = (flushCommand s).startTime ∧
    (flushToDisk fault s).cmdInfo.endTime = (flushCommand s).endTime := by
  rw [flushToDisk_cmdInfo]
  exact ⟨rfl, rfl⟩

theorem flushToDisk_trace (fault : Option StoreStep) (s : State) :
    ∃ tail, (flushToDisk fault s).trace = s.trace ++ tail ∧
      ∀ c ∈ storedCommands tail, c = flushCommand s := by
  obtain ⟨e, he, hc, _⟩ := storeCommand_trace { s with cmdInfo := flushCommand s }
  simp only at he hc
  rcases fault with _ | _ | _ | _
  · refine ⟨[e, Effect.mkpath, Effect.addFileEvents
      (storeCommand { s with cmdInfo := flushCommand s }).cmdInfo.idInDb
      s.fEventHandler.writeEvents s.fEventHandler.readEvents], ?_, ?_⟩
    · rw [flushToDisk_none]
      simp [storeFileEvents, State.emit, he, (storeCommand_frame _).2.1]
    · intro c hmem
      simp only [storedCommands, List.filterMap_cons, hc] at hmem
      simpa [Effect.command?] using hmem
  · refine ⟨[Effect.log LogLevel.critical (LogMsg.storeFailed StoreStep.command)], ?_, ?_⟩
    · rw [flushToDisk_some]
      simp [State.log, State.emit]
    · simp [storedCommands, Effect.command?]
  · refine ⟨[e, Effect.log LogLevel.critical (LogMsg.storeFailed StoreStep.mkpath)], ?_, ?_⟩
    · rw [flushToDisk_some]
      simp [State.log, State.emit, he]
    · intro c hmem
      simp only [storedCommands, List.filterMap_cons, hc] at hmem
      simpa [Effect.command?] using hmem
  · refine ⟨[e, Effect.mkpath,
      Effect.log LogLevel.critical (LogMsg.storeFailed StoreStep.addFileEvents)], ?_, ?_⟩
    · rw [flushToDisk_some]
      simp [State.log, State.emit, he]
    · intro c hmem
      simp only [storedCommands, List.filterMap_cons, hc] at hmem
      simpa [Effect.command?] using hmem

theorem flushToDisk_caches (fault : Option StoreStep) (s : State) :
    (flushToDisk fault s).fEventHandler = { writeEvents := [], readEvents := [] } := by
  simp [flushToDisk, FileEventHandler.clearEvents]

theorem flushToDisk_insert (s : State) (h : s.cmdInfo.idInDb = INVALID_INT_ID) :
    flushToDisk none s =
      { cmdInfo := { flushCommand s with idInDb := (s.store.nextId : Int) },
        fEventHandler := { writeEvents := [], readEvents := [] },
        store := (s.store.addCommand (flushCommand s)).2.addFileEvents (s.store.nextId : Int)
          s.fEventHandler.writeEvents s.fEventHandler.readEvents,
        clock := s.clock,
        trace := s.trace ++ [Effect.addCommand (flushCommand s) (s.store.nextId : Int),
          Effect.mkpath,
          Effect.addFileEvents (s.store.nextId : Int) s.fEventHandler.writeEvents
            s.fEventHandler.readEvents] } := by
  have h1 : (flushCommand s).idInDb = INVALID_INT_ID := by
    unfold flushCommand
    split_ifs <;> exact h
  rw [flushToDisk_none]
  simp [storeCommand, storeFileEvents, State.emit, h1, Store.addCommand]

theorem flushToDisk_update (s : State) (h : s.cmdInfo.idInDb ≠ INVALID_INT_ID) :
    flushToDisk none s =
      { cmdInfo := s.cmdInfo,
        fEventHandler := { writeEvents := [], readEvents := [] },
        store := (s.store.updateCommand s.cmdInfo).addFileEvents s.cmdInfo.idInDb
          s.fEventHandler.writeEvents s.fEventHandler.readEvents,
        clock := s.clock,
        trace := s.trace ++ [Effect.updateCommand s.cmdInfo, Effect.mkpath,
          Effect.addFileEvents s.cmdInfo.idInDb s.fEventHandler.writeEvents
            s.fEventHandler.readEvents] } := by
  have h1 : flushCommand s = s.cmdInfo := by
    unfold flushCommand
    rw [if_neg (fun hh => h hh.1)]
  rw [flushToDisk_none]
  simp [storeCommand, storeFileEvents, State.emit, h1, h]

theorem flushToDisk_fault_files (step : StoreStep) (s : State) :
    (flushToDisk (some step) s).store.writtenFile = s.store.writtenFile ∧
    (flushToDisk (some step) s).store.readFile = s.store.readFile ∧
    ∃ pre, (flushToDisk (some step) s).trace =
        s.trace ++ pre ++ [Effect.log LogLevel.critical (LogMsg.storeFailed step)] ∧
      ∀ e ∈ pre, ∀ id ws rs, e ≠ Effect.addFileEvents id ws rs := by
  obtain ⟨e, he, _, hne⟩ := storeCommand_trace { s with cmdInfo := flushCommand s }
  obtain ⟨_, _, hw, hr⟩ := storeCommand_frame { s with cmdInfo := flushCommand s }
  simp only at he hw hr
  rw [flushToDisk_some]
  cases step
  · exact ⟨rfl, rfl, [], by simp [State.log, State.emit], by simp⟩
  · refine ⟨hw, hr, [e], by simp [State.log, State.emit, he], ?_⟩
    intro x hx
    rw [List.mem_singleton] at hx
    subst hx
    exact hne
  · refine ⟨hw, hr, [e, Effect.mkpath], by simp [State.log, State.emit, he], ?_⟩
    intro x hx id ws rs
    simp only [List.mem_cons, List.mem_singleton, List.not_mem_nil, or_false] at hx
    rcases hx with hx | hx
    · subst hx
      exact hne id ws rs
    · subst hx
      intro hh
      cases hh

/-! ## C2: start time and end time of flushed commands -/

theorem inspectSocket_induction (cfg : Config) (P : State → Prop) (w : Wakeup) (s : State)
    (hsock : P (processSocketEvent cfg w.sockMsgs s).2)
    (hflush : ∀ s1, P s1 → P (checkFlush cfg w.storeFault s1))
    (h : P s) : P (inspectSocket cfg w s).state := by
  unfold inspectSocket
  split_ifs
  · split
    · next s2 heq =>
      rw [heq] at hsock
      exact hsock
    · next r s2 heq =>
      rw [heq] at hsock
      split_ifs
      · exact hsock
      · exact hflush _ hsock
  · exact hflush _ h

theorem pollIteration_induction (cfg : Config) (P : State → Prop) (w : Wakeup)
    (hadv : ∀ s, P s → P (s.advance w.elapsed))
    (hlog : ∀ s, P s → P (s.log LogLevel.critical (LogMsg.pollFailed w.errno)))
    (hfan : ∀ s, P s → P (drainFanotify w s))
    (hsock : ∀ s, P s → P (processSocketEvent cfg w.sockMsgs s).2)
    (hflush : ∀ s, P s → P (checkFlush cfg w.storeFault s))
    (s : State) (h : P s) : P (pollIteration cfg w s).state := by
  unfold pollIteration
  simp only
  split_ifs
  · exact hadv _ h
  · exact hlog _ (hadv _ h)
  · exact hadv _ h
  · exact inspectSocket_induction cfg P w _ (hsock _ (hfan _ (hadv _ h))) hflush
      (hfan _ (hadv _ h))

theorem checkFlush_startBeforeClock (cfg : Config) (fault : Option StoreStep) (s : State)
    (h : s.startBeforeClock) : (checkFlush cfg fault s).startBeforeClock := by
  unfold checkFlush
  split_ifs
  · intro a ha
    rw [flushToDisk_startTime] at ha
    rw [flushToDisk_clock]
    exact h a ha
  · exact h

theorem processSocketEvent_startBeforeClock (cfg : Config) (msgs : List SockMsg) (s : State)
    (h : s.startBeforeClock) : (processSocketEvent cfg msgs s).2.startBeforeClock := by
  unfold processSocketEvent
  refine processMessages_induction cfg State.startBeforeClock (fun _ => True) ?_ ?_
    msgs _ _ (fun _ _ => trivial) h
  · intro m s0 h0
    unfold warnIfLarge
    split_ifs
    · exact h0
    · exact h0
  · intro m s0 _ h0
    exact handleMessage_startBeforeClock _ _ h0

theorem drainFanotify_startBeforeClock (w : Wakeup) (s : State)
    (h : s.startBeforeClock) : (drainFanotify w s).startBeforeClock := by
  unfold drainFanotify
  split_ifs
  · exact h
  · exact h

theorem pollIteration_startBeforeClock (cfg : Config) (w : Wakeup) (s : State)
    (h : s.startBeforeClock) : (pollIteration cfg w s).state.startBeforeClock :=
  pollIteration_induction cfg State.startBeforeClock w
    (fun _ h0 a ha => Nat.le_trans (h0 a ha) (Nat.le_add_right _ _))
    (fun _ h0 => h0)
    (fun _ h0 => drainFanotify_startBeforeClock w _ h0)
    (fun _ h0 => processSocketEvent_startBeforeClock cfg _ _ h0)
    (fun _ h0 => checkFlush_startBeforeClock cfg _ _ h0)
    s h

theorem pollUntilStopped_startBeforeClock (cfg : Config) (ws : List Wakeup) (s : State)
    (h : s.startBeforeClock) : (pollUntilStopped cfg ws s).state.startBeforeClock :=
  pollUntilStopped_induction cfg State.startBeforeClock (fun _ => True)
    (fun w s0 _ h0 => pollIteration_startBeforeClock cfg w s0 h0) ws s (fun _ _ => trivial) h

theorem flushCommand_timesOrdered (s : State) (h1 : s.startBeforeClock)
    (h2 : s.cmdInfo.timesOrdered) : (flushCommand s).timesOrdered := by
  unfold flushCommand
  split_ifs
  · intro a b ha hb
    simp only [Option.some.injEq] at hb
    subst hb
    exact h1 a ha
  · exact h2

theorem commandLoop_induction (cfg : Config) (P : State → Prop) (v : Int) (k : Nat)
    (ws : List Wakeup)
    (hret : ∀ s, P s → P (s.setReturnVal v))
    (hstep : ∀ w ∈ ws, ∀ s, P s → P (pollIteration cfg w s).state)
    (s : State) (h : P s) : P (commandLoop cfg v k ws s).state := by
  have h1 : P (pollUntilStopped cfg (ws.take k) s).state :=
    pollUntilStopped_induction cfg P (fun w => w ∈ ws) (fun w s0 hw h0 => hstep w hw s0 h0)
      _ s (fun w hw => List.mem_of_mem_take hw) h
  unfold commandLoop
  split
  · next s1 heq =>
    rw [heq] at h1
    exact pollUntilStopped_induction cfg P (fun w => w ∈ ws)
      (fun w s0 hw h0 => hstep w hw s0 h0) _ _ (fun w hw => List.mem_of_mem_drop hw)
      (hret _ h1)
  · next r s1 heq =>
    rw [heq] at h1
    exact hret _ h1
  · next s1 heq =>
    rw [heq] at h1
    exact h1

theorem runLoop_induction (cfg : Config) (fw : FileWatcher) (env : RunEnv) (P : State → Prop)
    (hcmd : P (commandStart cfg fw env)) (hsock : P (socketStart cfg fw env))
    (hinit : P (runInit cfg fw env))
    (hret : ∀ s, P s → P (s.setReturnVal env.child.returnVal))
    (hstep : ∀ w ∈ env.wakeups, ∀ s, P s → P (pollIteration cfg w s).state) :
    P (runLoop cfg fw env).state := by
  unfold runLoop
  split_ifs
  · exact commandLoop_induction cfg P _ _ _ hret hstep _ hcmd
  · exact pollUntilStopped_induction cfg P (fun w => w ∈ env.wakeups)
      (fun w s0 hw h0 => hstep w hw s0 h0) _ _ (fun _ hw => hw) hsock
  · exact hinit
  · exact hinit

theorem runLoop_startBeforeClock (cfg : Config) (fw : FileWatcher) (env : RunEnv) :
    (runLoop cfg fw env).state.startBeforeClock := by
  apply runLoop_induction
  · intro a ha
    simp [commandStart, runInit] at ha
    simp [commandStart, runInit, ha]
  · intro a ha
    simp [socketStart, runInit, State.emit] at ha
    simp [socketStart, runInit, State.emit, ha]
  · intro a ha
    simp [runInit, CommandInfo.fromLocalEnv] at ha
  · intro s h
    exact h
  · intro w _ s h
    exact pollIteration_startBeforeClock cfg w s h

theorem storedCommands_append (l1 l2 : List Effect) :
    storedCommands (l1 ++ l2) = storedCommands l1 ++ storedCommands l2 := by
  simp [storedCommands]

theorem finalFlush_trace (cfg : Config) (fault : Option StoreStep) (ret : Int) (s : State)
    (h1 : s.startBeforeClock) (h2 : s.cmdInfo.timesOrdered) :
    ∃ tail, (finalFlush cfg fault ret s).state.trace = s.trace ++ tail ∧
      ∀ c ∈ storedCommands tail, c.timesOrdered := by
  unfold finalFlush
  split_ifs with ha hb
  · exact ⟨[Effect.log LogLevel.debug LogMsg.emptyCommandText],
      by simp [State.log, State.emit, RunResult.state],
      by simp [storedCommands, Effect.command?]⟩
  · obtain ⟨tail, ht, hc⟩ :=
      flushToDisk_trace fault (s.log LogLevel.debug LogMsg.missingFields)
    refine ⟨Effect.log LogLevel.debug LogMsg.missingFields :: tail, ?_, ?_⟩
    · simp only [RunResult.state, ht]
      simp [State.log, State.emit]
    · intro c hmem
      have hmem2 : c ∈ storedCommands tail := by
        simpa [storedCommands, Effect.command?] using hmem
      rw [hc c hmem2]
      exact flushCommand_timesOrdered _ h1 h2
  · obtain ⟨tail, ht, hc⟩ := flushToDisk_trace fault s
    refine ⟨tail, by simp only [RunResult.state, ht], ?_⟩
    intro c hmem
    rw [hc c hmem]
    exact flushCommand_timesOrdered _ h1 h2

theorem runFinish_trace (cfg : Config) (dt : Nat) (fault : Option StoreStep)
    (r : E_SocketMsg) (ret : Int) (s : State) (h : s.startBeforeClock) :
    ∃ tail, (runFinish cfg dt fault r ret s).state.trace = s.trace ++ tail ∧
      ∀ c ∈ storedCommands tail, c.timesOrdered := by
  have hA : (s.advance dt).setEndTime.startBeforeClock :=
    fun a ha => Nat.le_trans (h a ha) (Nat.le_add_right _ _)
  have hB : (s.advance dt).setEndTime.cmdInfo.timesOrdered := by
    intro a b ha hb
    simp only [State.setEndTime, State.advance, Option.some.injEq] at hb
    subst hb
    exact hA a ha
  have hlog : ∀ m, ∃ tail,
      (finalFlush cfg fault ret
        ((s.advance dt).setEndTime.log LogLevel.warning m)).state.trace = s.trace ++ tail ∧
      ∀ c ∈ storedCommands tail, c.timesOrdered := by
    intro m
    obtain ⟨tail, ht, hc⟩ := finalFlush_trace cfg fault ret
      ((s.advance dt).setEndTime.log LogLevel.warning m) hA hB
    refine ⟨Effect.log LogLevel.warning m :: tail, ?_, ?_⟩
    · rw [ht]
      simp [State.log, State.emit, State.setEndTime, State.advance]
    · intro c hmem
      exact hc c (by simpa [storedCommands, Effect.command?] using hmem)
  cases r
  case EMPTY => exact finalFlush_trace cfg fault ret _ hA hB
  case ENUM_END =>
    exact ⟨[Effect.log LogLevel.critical LogMsg.processingStopped],
      by simp [runFinish, State.log, State.emit, RunResult.state, State.setEndTime,
        State.advance],
      by simp [storedCommands, Effect.command?]⟩
  all_goals exact hlog _

theorem run_trace (cfg : Config) (fw : FileWatcher) (env : RunEnv) :
    ∃ tail, (run cfg fw env).state.trace = (runLoop cfg fw env).state.trace ++ tail ∧
      ∀ c ∈ storedCommands tail, c.timesOrdered := by
  have h := runLoop_startBeforeClock cfg fw env
  unfold run
  cases hl : runLoop cfg fw env with
  | blocked s1 => exact ⟨[], by simp [RunResult.state, LoopResult.state], by simp [storedCommands]⟩
  | aborted s1 => exact ⟨[], by simp [RunResult.state, LoopResult.state], by simp [storedCommands]⟩
  | returned r s1 =>
    rw [hl] at h
    exact runFinish_trace cfg _ _ r _ s1 h

theorem handleMessage_timesInvariant (m : SockMsg) (s : State)
    (hm : m.msgId ≠ E_SocketMsg.CLEAR_EVENTS.toInt) (h : s.timesInvariant) :
    (handleMessage m (s.log LogLevel.debug (LogMsg.receivedMessage m.msgId))).2.timesInvariant := by
  obtain ⟨h1, h2, h3⟩ := h
  simp only [E_SocketMsg.toInt] at hm
  unfold handleMessage E_SocketMsg.ofInt
  split_ifs <;>
    first
    | contradiction
    | exact ⟨h1, h2, by
        simpa [State.log, State.emit, storedCommands_append, storedCommands, Effect.command?]
          using h3⟩

theorem processSocketEvent_timesInvariant (cfg : Config) (msgs : List SockMsg) (s : State)
    (hm : ∀ m ∈ msgs, m.msgId ≠ E_SocketMsg.CLEAR_EVENTS.toInt) (h : s.timesInvariant) :
    (processSocketEvent cfg msgs s).2.timesInvariant := by
  unfold processSocketEvent
  refine processMessages_induction cfg State.timesInvariant
    (fun m => m.msgId ≠ E_SocketMsg.CLEAR_EVENTS.toInt) ?_ ?_ msgs _ _ hm ?_
  · intro m s0 h0
    unfold warnIfLarge
    split_ifs
    · exact ⟨h0.1, h0.2.1, by
        simpa [State.log, State.emit, storedCommands, Effect.command?] using h0.2.2⟩
    · exact h0
  · intro m s0 hq h0
    exact handleMessage_timesInvariant m s0 hq h0
  · exact ⟨h.1, h.2.1, by
      simpa [State.emit, storedCommands, Effect.command?] using h.2.2⟩

theorem flushToDisk_timesInvariant (fault : Option StoreStep) (s : State)
    (h : s.timesInvariant) : (flushToDisk fault s).timesInvariant := by
  obtain ⟨h1, h2, h3⟩ := h
  have hc := flushCommand_timesOrdered s h1 h2
  obtain ⟨tail, ht, htail⟩ := flushToDisk_trace fault s
  obtain ⟨hs, he⟩ := flushToDisk_times fault s
  refine ⟨?_, ?_, ?_⟩
  · intro a ha
    rw [flushToDisk_startTime] at ha
    rw [flushToDisk_clock]
    exact h1 a ha
  · intro a b ha hb
    rw [hs] at ha
    rw [he] at hb
    exact hc a b ha hb
  · intro c hmem
    rw [ht, storedCommands_append, List.mem_append] at hmem
    rcases hmem with hmem | hmem
    · exact h3 c hmem
    · rw [htail c hmem]
      exact hc

theorem checkFlush_timesInvariant (cfg : Config) (fault : Option StoreStep) (s : State)
    (h : s.timesInvariant) : (checkFlush cfg fault s).timesInvariant := by
  unfold checkFlush
  split_ifs
  · apply flushToDisk_timesInvariant
    exact ⟨h.1, h.2.1, by
      simpa [State.log, State.emit, storedCommands, Effect.command?] using h.2.2⟩
  · exact h

theorem pollIteration_timesInvariant (cfg : Config) (w : Wakeup) (s : State)
    (hw : ∀ m ∈ w.sockMsgs, m.msgId ≠ E_SocketMsg.CLEAR_EVENTS.toInt)
    (h : s.timesInvariant) : (pollIteration cfg w s).state.timesInvariant := by
  refine pollIteration_induction cfg State.timesInvariant w ?_ ?_ ?_ ?_ ?_ s h
  · intro s0 h0
    exact ⟨fun a ha => Nat.le_trans (h0.1 a ha) (Nat.le_add_right _ _), h0.2.1, h0.2.2⟩
  · intro s0 h0
    exact ⟨h0.1, h0.2.1, by
      simpa [State.log, State.emit, storedCommands, Effect.command?] using h0.2.2⟩
  · intro s0 h0
    unfold drainFanotify
    split_ifs
    · exact ⟨h0.1, h0.2.1, by
        simpa [handleEvents, State.emit, storedCommands, Effect.command?] using h0.2.2⟩
    · exact h0
  · intro s0 h0
    exact processSocketEvent_timesInvariant cfg _ _ hw h0
  · intro s0 h0
    exact checkFlush_timesInvariant cfg _ _ h0

theorem runLoop_timesInvariant (cfg : Config) (fw : FileWatcher) (env : RunEnv)
    (h : noClearEvents env.wakeups) : (runLoop cfg fw env).state.timesInvariant := by
  apply runLoop_induction
  · refine ⟨?_, ?_, ?_⟩
    · intro a ha
      simp [commandStart, runInit] at ha
      simp [commandStart, runInit, ha]
    · intro a b _ hb
      simp [commandStart, runInit, CommandInfo.fromLocalEnv] at hb
    · simp [commandStart, runInit, storedCommands]
  · refine ⟨?_, ?_, ?_⟩
    · intro a ha
      simp [socketStart, runInit, State.emit] at ha
      simp [socketStart, runInit, State.emit, ha]
    · intro a b _ hb
      simp [socketStart, runInit, State.emit, CommandInfo.fromLocalEnv] at hb
    · simp [socketStart, runInit, State.emit, storedCommands, Effect.command?]
  · refine ⟨?_, ?_, ?_⟩
    · intro a ha
      simp [runInit, CommandInfo.fromLocalEnv] at ha
    · intro a b ha _
      simp [runInit, CommandInfo.fromLocalEnv] at ha
    · simp [runInit, storedCommands]
  · intro s h0
    exact h0
  · intro w hw s h0
    exact pollIteration_timesInvariant cfg w s (h w hw) h0

/-- C2 (counterexample): in a socket-mode session with a threshold flush, then
CLEAR_EVENTS, then a second threshold flush, the second flush hands to
`updateCommand` a record whose start time (13, set by CLEAR_EVENTS) is later than
its end time (11, set by the first flush). -/
theorem update_after_clear_has_start_after_end :
    (storedCommands (run cfgDebug fwSocket envClearAfterFlush).state.trace).map
        (fun c => (c.startTime, c.endTime))
      = [(some 10, some 11), (some 13, some 11), (some 13, some 16)] ∧
    ∃ c ∈ storedCommands (run cfgDebug fwSocket envClearAfterFlush).state.trace,
      ¬ c.timesOrdered := by
  decide

/-- C2 (amended): under a non-decreasing clock, every CommandInfo that the terminal
flush of `run` hands to `addCommand` or `updateCommand` satisfies
`startTime ≤ endTime`; and when no CLEAR_EVENTS message is received during the
run, so does every CommandInfo handed over by any flush, intermediate or
terminal. -/
theorem flushed_commands_times_ordered (cfg : Config) (fw : FileWatcher) (env : RunEnv) :
    (∀ c ∈ storedCommands
        ((run cfg fw env).state.trace.drop (runLoop cfg fw env).state.trace.length),
      c.timesOrdered) ∧
    (noClearEvents env.wakeups →
      ∀ c ∈ storedCommands (run cfg fw env).state.trace, c.timesOrdered) := by
  obtain ⟨tail, ht, hc⟩ := run_trace cfg fw env
  refine ⟨?_, ?_⟩
  · intro c hmem
    rw [ht, List.drop_left] at hmem
    exact hc c hmem
  · intro hno c hmem
    rw [ht, storedCommands_append, List.mem_append] at hmem
    rcases hmem with hmem | hmem
    · exact (runLoop_timesInvariant cfg fw env hno).2.2 c hmem
    · exact hc c hmem

/-- C2 (amended), instance: a socket-mode session without CLEAR_EVENTS hands two records to the store, both with ordered times. -/
theorem flushed_commands_times_ordered_witness :
    noClearEvents envPlain.wakeups ∧
    (storedCommands (run cfgDebug fwSocket envPlain).state.trace).length = 2 ∧
    ∀ c ∈ storedCommands (run cfgDebug fwSocket envPlain).state.trace, c.timesOrdered :=
  ⟨by decide, by decide,
    (flushed_commands_times_ordered cfgDebug fwSocket envPlain).2 (by decide)⟩

/-! ## C3: exit code and return value in command mode -/

theorem flushCommand_returnVal (s : State) :
    (flushCommand s).returnVal = s.cmdInfo.returnVal := by
  unfold flushCommand
  split_ifs <;> rfl

theorem flushToDisk_returnVal (fault : Option StoreStep) (s : State) :
    (flushToDisk fault s).cmdInfo.returnVal = s.cmdInfo.returnVal := by
  rw [flushToDisk_cmdInfo]
  exact flushCommand_returnVal s

theorem finalFlush_exited (cfg : Config) (fault : Option StoreStep) (ret : Int) (s : State) :
    ∃ s' tail, finalFlush cfg fault ret s = RunResult.exited ret s' ∧
      s'.trace = s.trace ++ tail ∧ (∀ c ∈ storedCommands tail, c = flushCommand s) ∧
      s'.cmdInfo.returnVal = s.cmdInfo.returnVal := by
  unfold finalFlush
  split_ifs with ha hb
  · exact ⟨_, [Effect.log LogLevel.debug LogMsg.emptyCommandText], rfl,
      by simp [State.log, State.emit], by simp [storedCommands, Effect.command?], rfl⟩
  · obtain ⟨tail, ht, hc⟩ :=
      flushToDisk_trace fault (s.log LogLevel.debug LogMsg.missingFields)
    refine ⟨_, Effect.log LogLevel.debug LogMsg.missingFields :: tail, rfl, ?_, ?_, ?_⟩
    · rw [ht]
      simp [State.log, State.emit]
    · intro c hmem
      have hmem2 : c ∈ storedCommands tail := by
        simpa [storedCommands, Effect.command?] using hmem
      rw [hc c hmem2]
      rfl
    · rw [flushToDisk_returnVal]
      rfl
  · obtain ⟨tail, ht, hc⟩ := flushToDisk_trace fault s
    exact ⟨_, tail, rfl, ht, hc, flushToDisk_returnVal fault s⟩

theorem flushCommand_setEndTime (s : State) :
    flushCommand s.setEndTime = { s.cmdInfo with endTime := some s.clock } := by
  simp [flushCommand, State.setEndTime]

theorem runFinish_exited (cfg : Config) (dt : Nat) (fault : Option StoreStep)
    (r : E_SocketMsg) (ret : Int) (s : State) :
    ∃ s' tail, runFinish cfg dt fault r ret s = RunResult.exited ret s' ∧
      s'.trace = s.trace ++ tail ∧
      (∀ c ∈ storedCommands tail, c = { s.cmdInfo with endTime := some (s.clock + dt) }) ∧
      s'.cmdInfo.returnVal = s.cmdInfo.returnVal := by
  have hlog : ∀ m, ∃ s' tail,
      finalFlush cfg fault ret ((s.advance dt).setEndTime.log LogLevel.warning m)
        = RunResult.exited ret s' ∧
      s'.trace = s.trace ++ tail ∧
      (∀ c ∈ storedCommands tail, c = { s.cmdInfo with endTime := some (s.clock + dt) }) ∧
      s'.cmdInfo.returnVal = s.cmdInfo.returnVal := by
    intro m
    obtain ⟨s', tail, h1, h2, h3, h4⟩ := finalFlush_exited cfg fault ret
      ((s.advance dt).setEndTime.log LogLevel.warning m)
    refine ⟨s', Effect.log LogLevel.warning m :: tail, h1, ?_, ?_, ?_⟩
    · rw [h2]
      simp [State.log, State.emit, State.setEndTime, State.advance]
    · intro c hmem
      rw [h3 c (by simpa [storedCommands, Effect.command?] using hmem)]
      exact flushCommand_setEndTime (s.advance dt)
    · rw [h4]
      rfl
  cases r
  case EMPTY =>
    obtain ⟨s', tail, h1, h2, h3, h4⟩ := finalFlush_exited cfg fault ret
      (s.advance dt).setEndTime
    refine ⟨s', tail, h1, h2, ?_, h4⟩
    intro c hmem
    rw [h3 c hmem]
    exact flushCommand_setEndTime (s.advance dt)
  case ENUM_END =>
    exact ⟨_, [Effect.log LogLevel.critical LogMsg.processingStopped], rfl,
      by simp [State.log, State.emit, State.setEndTime, State.advance],
      by simp [storedCommands, Effect.command?], rfl⟩
  all_goals exact hlog _

theorem pollIteration_returnVal (cfg : Config) (v : Int) (w : Wakeup) (s : State)
    (hw : ∀ m ∈ w.sockMsgs, m.msgId = -1) (h : s.cmdInfo.returnVal = v) :
    (pollIteration cfg w s).state.cmdInfo.returnVal = v := by
  refine pollIteration_induction cfg (fun s => s.cmdInfo.returnVal = v) w ?_ ?_ ?_ ?_ ?_ s h
  · intro s0 h0
    exact h0
  · intro s0 h0
    exact h0
  · intro s0 h0
    unfold drainFanotify
    split_ifs
    · exact h0
    · exact h0
  · intro s0 h0
    unfold processSocketEvent
    refine processMessages_induction cfg (fun s => s.cmdInfo.returnVal = v)
      (fun m => m.msgId = -1) ?_ ?_ w.sockMsgs _ _ hw h0
    · intro m s1 h1
      unfold warnIfLarge
      split_ifs
      · exact h1
      · exact h1
    · intro m s1 hq h1
      simp only [handleMessage, hq]
      exact h1
  · intro s0 h0
    unfold checkFlush
    split_ifs
    · rw [flushToDisk_returnVal]
      exact h0
    · exact h0

theorem commandLoop_returnVal (cfg : Config) (v : Int) (k : Nat) (ws : List Wakeup)
    (s : State) (hws : onlyPeerClosed ws) (r : E_SocketMsg) (s1 : State)
    (h : commandLoop cfg v k ws s = LoopResult.returned r s1) :
    s1.cmdInfo.returnVal = v := by
  unfold commandLoop at h
  split at h
  · next s2 _ =>
    have h2 := pollUntilStopped_induction cfg (fun s => s.cmdInfo.returnVal = v)
      (fun w => ∀ m ∈ w.sockMsgs, m.msgId = -1)
      (fun w s0 hw h0 => pollIteration_returnVal cfg v w s0 hw h0)
      (ws.drop k) (s2.setReturnVal v) (fun w hw => hws w (List.mem_of_mem_drop hw)) rfl
    rw [h] at h2
    exact h2
  · next r2 s2 _ =>
    cases h
    rfl
  · cases h

/-! ## C4 and C7: the poll loop ends with the error status -/

/-- C4 (counterexample): the poll loop fails (`poll` reports EBADF), the loop
returns ENUM_END, and `run` exits with 0, not 1: in command mode with a child
that exited with 0, and in socket mode. -/
theorem loop_error_exits_with_zero :
    (runLoop cfgDebug fwCommand envPollFails).result = some E_SocketMsg.ENUM_END ∧
    (run cfgDebug fwCommand envPollFails).exitCode = some 0 ∧
    (runLoop cfgDebug fwSocket envPollFails).result = some E_SocketMsg.ENUM_END ∧
    (run cfgDebug fwSocket envPollFails).exitCode = some 0 := by
  decide

/-- C4 (amended): whenever the poll loop stops with the error status in command
mode, `run` exits with the value of `ret`, which is the exit code of the child
(128 + the signal number on an abnormal exit); it is 1 only if that value is 1. -/
theorem loop_error_exit_code_command_mode (cfg : Config) (fw : FileWatcher) (env : RunEnv)
    (hcmd : fw.m_commandArgc ≠ 0) (s : State)
    (hloop : runLoop cfg fw env = LoopResult.returned E_SocketMsg.ENUM_END s) :
    (run cfg fw env).exitCode =
      some (match env.child with
            | ChildExit.normal code => code
            | ChildExit.notNormal sig => 128 + sig) := by
  have hv : runRet fw env = (match env.child with
      | ChildExit.normal code => code
      | ChildExit.notNormal sig => 128 + sig) := by
    simp only [runRet, if_pos hcmd]
    cases env.child <;> rfl
  simp only [run, hloop, runFinish, RunResult.exitCode, hv]

/-- C4 (amended), instance: the child exited with 0, `poll` failed, `run` exits with 0. -/
theorem loop_error_exit_code_command_mode_witness :
    (run cfgDebug fwCommand envPollFails).exitCode = some 0 :=
  loop_error_exit_code_command_mode cfgDebug fwCommand envPollFails (by decide)
    (runLoop cfgDebug fwCommand envPollFails).state (by decide)

/-- C7: if the poll loop ends with the error status ENUM_END, `run` logs the
critical message and exits; behind the loop it performs no store call at all
(no `addCommand`, `updateCommand`, `addFileEvents`): the trace grows by the log
line only, the store and the caches stay as the loop left them, whatever the
command text, the id and the cached events are. -/
theorem loop_error_skips_final_flush (cfg : Config) (fw : FileWatcher) (env : RunEnv)
    (s : State) (hloop : runLoop cfg fw env = LoopResult.returned E_SocketMsg.ENUM_END s) :
    ∃ code s', run cfg fw env = RunResult.exited code s' ∧
      s'.trace = s.trace ++ [Effect.log LogLevel.critical LogMsg.processingStopped] ∧
      s'.store = s.store ∧ s'.fEventHandler = s.fEventHandler ∧
      s'.cmdInfo.idInDb = s.cmdInfo.idInDb := by
  refine ⟨runRet fw env,
    (s.advance env.elapsedEnd).setEndTime.log LogLevel.critical LogMsg.processingStopped,
    ?_, ?_, rfl, rfl, rfl⟩
  · simp only [run, hloop, runFinish]
  · simp [State.log, State.emit, State.setEndTime, State.advance]

/-- C7, instance: `poll` fails while one written file is cached; behind the loop only the log line is added. -/
theorem loop_error_skips_final_flush_witness :
    ∃ code s', run cfgDebug fwCommand envPollFails = RunResult.exited code s' ∧
      s'.trace = (runLoop cfgDebug fwCommand envPollFails).state.trace ++
        [Effect.log LogLevel.critical LogMsg.processingStopped] ∧
      s'.store = (runLoop cfgDebug fwCommand envPollFails).state.store ∧
      s'.fEventHandler = (runLoop cfgDebug fwCommand envPollFails).state.fEventHandler ∧
      s'.cmdInfo.idInDb = (runLoop cfgDebug fwCommand envPollFails).state.cmdInfo.idInDb :=
  loop_error_skips_final_flush cfgDebug fwCommand envPollFails
    (runLoop cfgDebug fwCommand envPollFails).state (by decide)

/-! ## C5: notification events are drained before the socket is inspected -/

theorem handleMessage_extends_trace (m : SockMsg) (s : State) :
    s.trace <+: (handleMessage m s).2.trace := by
  unfold handleMessage
  split <;> simp [State.log, State.emit]

theorem processMessages_extends_trace (cfg : Config) (base : List Effect)
    (msgs : List SockMsg) (ret : E_SocketMsg) (s : State) (h : base <+: s.trace) :
    base <+: (processMessages cfg msgs ret s).2.trace := by
  refine processMessages_induction cfg (fun s => base <+: s.trace) (fun _ => True) ?_ ?_
    msgs ret s (fun _ _ => trivial) h
  · intro m s0 h0
    unfold warnIfLarge
    split_ifs
    · exact h0.trans (by simp [State.log, State.emit])
    · exact h0
  · intro m s0 _ h0
    exact (h0.trans (by simp [State.log, State.emit])).trans (handleMessage_extends_trace _ _)

theorem checkFlush_extends_trace (cfg : Config) (fault : Option StoreStep) (s : State) :
    s.trace <+: (checkFlush cfg fault s).trace := by
  unfold checkFlush
  split_ifs
  · obtain ⟨tail, ht, _⟩ := flushToDisk_trace fault (s.log LogLevel.info LogMsg.flushingToDisk)
    rw [ht]
    simp [State.log, State.emit, List.append_assoc]
  · exact List.prefix_refl _

theorem pollIteration_drains_first (cfg : Config) (w : Wakeup) (s : State)
    (hpoll : 0 < w.poll_num) (hfan : w.fanReadable = true) (hsock : w.sockReadable = true) :
    (s.trace ++ [Effect.handleEvents w.fanWrites w.fanReads,
        Effect.receiveMessages w.sockMsgs]) <+: (pollIteration cfg w s).state.trace := by
  have h1 : w.poll_num ≠ -1 := by omega
  have h2 : ¬ (cfg.assertsEnabled = true ∧ w.poll_num = 0) := by
    intro h
    omega
  have h3 := processMessages_extends_trace cfg
    (s.trace ++ [Effect.handleEvents w.fanWrites w.fanReads,
      Effect.receiveMessages w.sockMsgs])
    w.sockMsgs E_SocketMsg.ENUM_END
    ((handleEvents w.fanWrites w.fanReads (s.advance w.elapsed)).emit
      (Effect.receiveMessages w.sockMsgs))
    (by simp [handleEvents, State.emit, State.advance])
  simp only [pollIteration, if_neg h1, if_neg h2, drainFanotify, hfan, if_true, inspectSocket,
    hsock, processSocketEvent]
  split
  · next s2 heq =>
    rw [heq] at h3
    exact h3
  · next r s2 heq =>
    rw [heq] at h3
    split_ifs
    · exact h3
    · exact h3.trans (checkFlush_extends_trace _ _ _)

theorem pollUntilStopped_returned_split (cfg : Config) (r : E_SocketMsg) :
    ∀ (ws : List Wakeup) (s s' : State),
      pollUntilStopped cfg ws s = LoopResult.returned r s' →
      ∃ pre w post s1, ws = pre ++ w :: post ∧
        pollUntilStopped cfg pre s = LoopResult.blocked s1 ∧
        pollIteration cfg w s1 = Step.returned r s' := by
  intro ws
  induction ws with
  | nil =>
    intro s s' h
    simp [pollUntilStopped] at h
  | cons w rest ih =>
    intro s s' h
    unfold pollUntilStopped at h
    cases hw : pollIteration cfg w s with
    | «continue» s1 =>
      rw [hw] at h
      obtain ⟨pre, w1, post, s2, h1, h2, h3⟩ := ih s1 s' h
      refine ⟨w :: pre, w1, post, s2, by rw [h1]; rfl, ?_, h3⟩
      unfold pollUntilStopped
      rw [hw]
      exact h2
    | returned r1 s1 =>
      rw [hw] at h
      simp only [LoopResult.returned.injEq] at h
      obtain ⟨hr, hs⟩ := h
      subst hr
      subst hs
      exact ⟨[], w, rest, s, rfl, rfl, hw⟩
    | aborted s1 =>
      rw [hw] at h
      cases h

theorem inspectSocket_returned (cfg : Config) (w : Wakeup) (s1 s' : State) (r : E_SocketMsg)
    (h : inspectSocket cfg w s1 = Step.returned r s') :
    w.sockReadable = true ∧ r = E_SocketMsg.EMPTY ∧
      processSocketEvent cfg w.sockMsgs s1 = (SockResult.returned E_SocketMsg.EMPTY, s') := by
  unfold inspectSocket at h
  split_ifs at h with hs
  · refine ⟨hs, ?_⟩
    split at h
    · cases h
    · next r1 s2 heq =>
      split_ifs at h with hr
      · simp only [Step.returned.injEq] at h
        obtain ⟨h1, h2⟩ := h
        subst h1
        subst h2
        subst hr
        exact ⟨rfl, heq⟩

theorem pollIteration_returned_EMPTY (cfg : Config) (w : Wakeup) (s s' : State)
    (h : pollIteration cfg w s = Step.returned E_SocketMsg.EMPTY s') :
    w.sockReadable = true ∧
      processSocketEvent cfg w.sockMsgs (drainFanotify w (s.advance w.elapsed))
        = (SockResult.returned E_SocketMsg.EMPTY, s') := by
  unfold pollIteration at h
  simp only at h
  split_ifs at h
  · simp at h
  · obtain ⟨h1, _, h3⟩ := inspectSocket_returned cfg w _ s' _ h
    exact ⟨h1, h3⟩

/-- C5: on a wakeup on which both the notification descriptor and the control
socket are readable, `handleEvents` runs before `processSocketEvent` (the trace
of the iteration starts with the two calls in this order); hence whenever the
loop returns EMPTY, it does so in an iteration that, if notification events were
reported readable at that wakeup, has drained them before it read the socket. -/
theorem events_drained_before_socket (cfg : Config) :
    (∀ (w : Wakeup) (s : State), 0 < w.poll_num → w.fanReadable = true →
      w.sockReadable = true →
      (s.trace ++ [Effect.handleEvents w.fanWrites w.fanReads,
          Effect.receiveMessages w.sockMsgs]) <+: (pollIteration cfg w s).state.trace) ∧
    (∀ (ws : List Wakeup) (s s' : State),
      pollUntilStopped cfg ws s = LoopResult.returned E_SocketMsg.EMPTY s' →
      ∃ pre w post s1, ws = pre ++ w :: post ∧
        pollUntilStopped cfg pre s = LoopResult.blocked s1 ∧
        pollIteration cfg w s1 = Step.returned E_SocketMsg.EMPTY s' ∧
        w.sockReadable = true ∧
        (w.fanReadable = true →
          (s1.trace ++ [Effect.handleEvents w.fanWrites w.fanReads,
            Effect.receiveMessages w.sockMsgs]) <+: s'.trace)) := by
  refine ⟨fun w s h1 h2 h3 => pollIteration_drains_first cfg w s h1 h2 h3, ?_⟩
  intro ws s s' h
  obtain ⟨pre, w, post, s1, h1, h2, h3⟩ := pollUntilStopped_returned_split cfg _ ws s s' h
  obtain ⟨hsock, hproc⟩ := pollIteration_returned_EMPTY cfg w s1 s' h3
  refine ⟨pre, w, post, s1, h1, h2, h3, hsock, ?_⟩
  intro hfan
  have h4 := processMessages_extends_trace cfg
    (s1.trace ++ [Effect.handleEvents w.fanWrites w.fanReads,
      Effect.receiveMessages w.sockMsgs])
    w.sockMsgs E_SocketMsg.ENUM_END
    ((handleEvents w.fanWrites w.fanReads (s1.advance w.elapsed)).emit
      (Effect.receiveMessages w.sockMsgs))
    (by simp [handleEvents, State.emit, State.advance])
  simp only [processSocketEvent, drainFanotify, hfan, if_true] at hproc
  rw [hproc] at h4
  exact h4

/-- C5, instance: the peer closes the socket while a written file is pending; the iteration that returns EMPTY has called `handleEvents` first. -/
theorem events_drained_before_socket_witness :
    (state0.trace ++ [Effect.handleEvents wakeBoth.fanWrites wakeBoth.fanReads,
        Effect.receiveMessages wakeBoth.sockMsgs])
      <+: (pollIteration cfgDebug wakeBoth state0).state.trace ∧
    (pollUntilStopped cfgDebug [wakeFan [writeEvt 1], wakeBoth] state0).result
      = some E_SocketMsg.EMPTY ∧
    ∃ pre w post s1, [wakeFan [writeEvt 1], wakeBoth] = pre ++ w :: post ∧
      pollUntilStopped cfgDebug pre state0 = LoopResult.blocked s1 ∧
      pollIteration cfgDebug w s1 = Step.returned E_SocketMsg.EMPTY
        (pollUntilStopped cfgDebug [wakeFan [writeEvt 1], wakeBoth] state0).state ∧
      w.sockReadable = true ∧
      (w.fanReadable = true →
        (s1.trace ++ [Effect.handleEvents w.fanWrites w.fanReads,
          Effect.receiveMessages w.sockMsgs])
          <+: (pollUntilStopped cfgDebug [wakeFan [writeEvt 1], wakeBoth] state0).state.trace) :=
  ⟨(events_drained_before_socket cfgDebug).1 wakeBoth state0 (by decide) rfl rfl,
   by decide,
   (events_drained_before_socket cfgDebug).2 [wakeFan [writeEvt 1], wakeBoth] state0 _
     (by decide)⟩

/-! ## C8 and C9: the flush path -/

/-- C8: when no store call throws, `flushToDisk` inserts a new command row
(`addCommand`) and assigns the returned id to `idInDb` exactly when `idInDb` is the
invalid id on entry; otherwise it calls `updateCommand`, inserts no row and leaves
`idInDb` unchanged. In both cases the store calls of the flush are the command
call, `mkpath` and one single `addFileEvents` that carries all cached write and
read events under the id the command then has. -/
theorem flushToDisk_adds_or_updates (s : State) :
    (s.cmdInfo.idInDb = INVALID_INT_ID →
      (flushToDisk none s).trace = s.trace ++
        [Effect.addCommand (flushCommand s) (s.store.nextId : Int), Effect.mkpath,
         Effect.addFileEvents (flushToDisk none s).cmdInfo.idInDb
           s.fEventHandler.writeEvents s.fEventHandler.readEvents] ∧
      (flushToDisk none s).cmdInfo.idInDb = (s.store.nextId : Int) ∧
      (flushToDisk none s).cmdInfo.idInDb ≠ INVALID_INT_ID ∧
      (flushToDisk none s).store.cmd =
        s.store.cmd ++ [{ flushCommand s with idInDb := (s.store.nextId : Int) }]) ∧
    (s.cmdInfo.idInDb ≠ INVALID_INT_ID →
      (flushToDisk none s).trace = s.trace ++
        [Effect.updateCommand s.cmdInfo, Effect.mkpath,
         Effect.addFileEvents s.cmdInfo.idInDb
           s.fEventHandler.writeEvents s.fEventHandler.readEvents] ∧
      (flushToDisk none s).cmdInfo.idInDb = s.cmdInfo.idInDb ∧
      (flushToDisk none s).store.cmd.length = s.store.cmd.length ∧
      (flushToDisk none s).store.nextId = s.store.nextId) := by
  refine ⟨fun h => ?_, fun h => ?_⟩
  · rw [flushToDisk_insert s h]
    refine ⟨rfl, rfl, ?_, ?_⟩
    · simp only [INVALID_INT_ID]
      omega
    · simp [Store.addCommand, Store.addFileEvents]
  · rw [flushToDisk_update s h]
    refine ⟨rfl, rfl, ?_, rfl⟩
    simp [Store.updateCommand, Store.addFileEvents]

/-- C8, instances: a command without id is inserted, a command with id 7 is updated. -/
theorem flushToDisk_adds_or_updates_witness :
    ((flushToDisk none state0).trace = state0.trace ++
        [Effect.addCommand (flushCommand state0) (state0.store.nextId : Int), Effect.mkpath,
         Effect.addFileEvents (flushToDisk none state0).cmdInfo.idInDb
           state0.fEventHandler.writeEvents state0.fEventHandler.readEvents] ∧
      (flushToDisk none state0).cmdInfo.idInDb = (state0.store.nextId : Int) ∧
      (flushToDisk none state0).cmdInfo.idInDb ≠ INVALID_INT_ID ∧
      (flushToDisk none state0).store.cmd =
        state0.store.cmd ++
          [{ flushCommand state0 with idInDb := (state0.store.nextId : Int) }]) ∧
    ((flushToDisk none stateWithId).trace = stateWithId.trace ++
        [Effect.updateCommand stateWithId.cmdInfo, Effect.mkpath,
         Effect.addFileEvents stateWithId.cmdInfo.idInDb
           stateWithId.fEventHandler.writeEvents stateWithId.fEventHandler.readEvents] ∧
      (flushToDisk none stateWithId).cmdInfo.idInDb = stateWithId.cmdInfo.idInDb ∧
      (flushToDisk none stateWithId).store.cmd.length = stateWithId.store.cmd.length ∧
      (flushToDisk none stateWithId).store.nextId = stateWithId.store.nextId) :=
  ⟨(flushToDisk_adds_or_updates state0).1 (by decide),
   (flushToDisk_adds_or_updates stateWithId).2 (by decide)⟩

/-- C9: when a store call of `flushToDisk` throws (the command call, `mkpath`
or `addFileEvents`), `flushToDisk` still returns, its last action before
clearing is the critical log line, and both caches are empty afterwards. The
pending events never reach the store: not in this flush, and a later flush
(whatever happens to it) finds empty caches and adds no file row either. -/
theorem flushToDisk_failure_drops_events (step : StoreStep) (s : State) :
    (flushToDisk (some step) s).fEventHandler.writeEvents = [] ∧
    (flushToDisk (some step) s).fEventHandler.readEvents = [] ∧
    (∃ pre, (flushToDisk (some step) s).trace =
        s.trace ++ pre ++ [Effect.log LogLevel.critical (LogMsg.storeFailed step)] ∧
      ∀ e ∈ pre, ∀ id ws rs, e ≠ Effect.addFileEvents id ws rs) ∧
    (flushToDisk (some step) s).store.writtenFile = s.store.writtenFile ∧
    (flushToDisk (some step) s).store.readFile = s.store.readFile ∧
    (∀ later : Option StoreStep,
      (flushToDisk later (flushToDisk (some step) s)).store.writtenFile = s.store.writtenFile ∧
      (flushToDisk later (flushToDisk (some step) s)).store.readFile = s.store.readFile) := by
  obtain ⟨h1, h2, h3⟩ := flushToDisk_fault_files step s
  have hc := flushToDisk_caches (some step) s
  refine ⟨by rw [hc], by rw [hc], h3, h1, h2, ?_⟩
  intro later
  rw [← h1, ← h2]
  generalize flushToDisk (some step) s = s1 at hc
  rcases later with _ | step2
  · by_cases hid : s1.cmdInfo.idInDb = INVALID_INT_ID
    · rw [flushToDisk_insert s1 hid]
      simp [Store.addFileEvents, Store.addCommand, hc]
    · rw [flushToDisk_update s1 hid]
      simp [Store.addFileEvents, Store.updateCommand, hc]
  · exact ⟨(flushToDisk_fault_files step2 s1).1, (flushToDisk_fault_files step2 s1).2.1⟩

/-! ## C10: the threshold flush -/

theorem flushCount_emit (s : State) (e : Effect)
    (h : e ≠ Effect.log LogLevel.info LogMsg.flushingToDisk) :
    flushCount (s.emit e).trace = flushCount s.trace := by
  simp [flushCount, State.emit, List.count_append, List.count_singleton, h]

theorem handleMessage_flushCount (m : SockMsg) (s : State) :
    flushCount (handleMessage m s).2.trace = flushCount s.trace := by
  unfold handleMessage
  split <;> first
    | rfl
    | exact flushCount_emit _ _ (by simp)

theorem processSocketEvent_flushCount (cfg : Config) (msgs : List SockMsg) (s : State) :
    flushCount (processSocketEvent cfg msgs s).2.trace = flushCount s.trace := by
  unfold processSocketEvent
  refine processMessages_induction cfg (fun x => flushCount x.trace = flushCount s.trace)
    (fun _ => True) ?_ ?_ msgs _ _ (fun _ _ => trivial) ?_
  · intro m s0 h0
    unfold warnIfLarge
    split_ifs
    · rw [← h0]
      exact flushCount_emit _ _ (by simp)
    · exact h0
  · intro m s0 _ h0
    rw [handleMessage_flushCount, ← h0]
    exact flushCount_emit _ _ (by simp)
  · exact flushCount_emit _ _ (by simp)

theorem drainFanotify_flushCount (w : Wakeup) (s : State) :
    flushCount (drainFanotify w s).trace = flushCount s.trace := by
  unfold drainFanotify
  split_ifs
  · exact flushCount_emit _ _ (by simp)
  · rfl

theorem stateAtCheck_flushCount (cfg : Config) (w : Wakeup) (s : State) :
    flushCount (stateAtCheck cfg w s).trace = flushCount s.trace := by
  unfold stateAtCheck
  split_ifs
  · rfl
  · rw [processSocketEvent_flushCount, drainFanotify_flushCount]
    rfl
  · rw [drainFanotify_flushCount]
    rfl

theorem flushToDisk_flushCount (fault : Option StoreStep) (s : State) :
    flushCount (flushToDisk fault s).trace = flushCount s.trace := by
  obtain ⟨e, he, hc, _⟩ := storeCommand_trace { s with cmdInfo := flushCommand s }
  have hne : e ≠ Effect.log LogLevel.info LogMsg.flushingToDisk := by
    intro h
    rw [h] at hc
    cases hc
  simp only at he
  rcases fault with _ | _ | _ | _
  · rw [flushToDisk_none]
    simp [flushCount, storeFileEvents, State.emit, he, List.count_append,
      List.count_cons, hne]
  · rw [flushToDisk_some]
    simp [flushCount, State.log, State.emit, List.count_append, List.count_singleton]
  · rw [flushToDisk_some]
    simp [flushCount, State.log, State.emit, he, List.count_append, List.count_cons, hne]
  · rw [flushToDisk_some]
    simp [flushCount, State.log, State.emit, he, List.count_append, List.count_cons, hne]

theorem thresholdExceeded_flushToDisk (cfg : Config) (fault : Option StoreStep) (s : State) :
    thresholdExceeded cfg (flushToDisk fault s) = false := by
  simp [thresholdExceeded, flushToDisk_caches, FileEventHandler.sizeOfCachedReadFiles]

theorem pollIteration_continue (cfg : Config) (w : Wakeup) (s s' : State)
    (h : pollIteration cfg w s = Step.continue s') :
    (w.poll_num = -1 ∧ s' = s.advance w.elapsed) ∨
    (w.poll_num ≠ -1 ∧ s' = checkFlush cfg w.storeFault (stateAtCheck cfg w s)) := by
  unfold pollIteration at h
  simp only at h
  split_ifs at h with h1 h2 h3
  · left
    simp only [Step.continue.injEq] at h
    exact ⟨h1, h.symm⟩
  · right
    refine ⟨h1, ?_⟩
    unfold inspectSocket at h
    unfold stateAtCheck
    rw [if_neg h1]
    split_ifs at h with hs
    · rw [if_pos hs]
      split at h
      · cases h
      · next r s2 heq =>
        split_ifs at h
        simp only [Step.continue.injEq] at h
        rw [heq]
        exact h.symm
    · rw [if_neg hs]
      simp only [Step.continue.injEq] at h
      exact h.symm

theorem checkFlush_flushCount (cfg : Config) (fault : Option StoreStep) (s : State) :
    flushCount (checkFlush cfg fault s).trace =
      flushCount s.trace + (if thresholdExceeded cfg s = true then 1 else 0) := by
  unfold checkFlush
  split_ifs
  · rw [flushToDisk_flushCount]
    simp [flushCount, State.log, State.emit, List.count_append, List.count_singleton]
  · rfl

theorem checkFlush_below (cfg : Config) (fault : Option StoreStep) (s : State) :
    thresholdExceeded cfg (checkFlush cfg fault s) = false := by
  unfold checkFlush
  split_ifs with h
  · exact thresholdExceeded_flushToDisk cfg _ _
  · simpa using h

theorem pollIteration_continue_below (cfg : Config) (w : Wakeup) (s s' : State)
    (hinv : thresholdExceeded cfg s = false)
    (hstep : pollIteration cfg w s = Step.continue s') :
    thresholdExceeded cfg s' = false := by
  rcases pollIteration_continue cfg w s s' hstep with ⟨_, h2⟩ | ⟨_, h2⟩
  · rw [h2]
    exact hinv
  · rw [h2]
    exact checkFlush_below cfg _ _

theorem pollUntilStopped_blocked_below (cfg : Config) :
    ∀ (ws : List Wakeup) (s s1 : State), thresholdExceeded cfg s = false →
      pollUntilStopped cfg ws s = LoopResult.blocked s1 → thresholdExceeded cfg s1 = false := by
  intro ws
  induction ws with
  | nil =>
    intro s s1 h hb
    simp only [pollUntilStopped, LoopResult.blocked.injEq] at hb
    rw [← hb]
    exact h
  | cons w rest ih =>
    intro s s1 h hb
    unfold pollUntilStopped at hb
    cases hw : pollIteration cfg w s with
    | «continue» s2 =>
      rw [hw] at hb
      exact ih s2 s1 (pollIteration_continue_below cfg w s s2 h hw) hb
    | returned r s2 =>
      rw [hw] at hb
      cases hb
    | aborted s2 =>
      rw [hw] at hb
      cases hb

/-- C10: take a poll loop that started with empty caches, has handled the wakeups
`pre` and waits in `poll`, and a further wakeup that does not terminate the loop.
On that wakeup a mid-command flush is performed if and only if, after the events
of the wakeup, `sizeOfCachedReadFiles` exceeds `flushToDiskTotalSize` or the
number of cached write events exceeds `flushToDiskEventCount`, both strictly.
After the flush both caches are empty and the iteration continues the loop with
the same command: text, working directory, start time, return value, session,
host and user are untouched. Without a flush the iteration leaves the state as
the events left it. -/
theorem threshold_flush_iff (cfg : Config) (pre : List Wakeup) (w : Wakeup) (s0 s s' : State)
    (hstart : s0.fEventHandler = { writeEvents := [], readEvents := [] })
    (hpre : pollUntilStopped cfg pre s0 = LoopResult.blocked s)
    (hstep : pollIteration cfg w s = Step.continue s') :
    (thresholdExceeded cfg (stateAtCheck cfg w s) = true ↔
      ((stateAtCheck cfg w s).fEventHandler.sizeOfCachedReadFiles > cfg.flushToDiskTotalSize ∨
       (stateAtCheck cfg w s).fEventHandler.writeEvents.length > cfg.flushToDiskEventCount)) ∧
    (flushCount s'.trace = flushCount s.trace + 1 ↔
      thresholdExceeded cfg (stateAtCheck cfg w s) = true) ∧
    (thresholdExceeded cfg (stateAtCheck cfg w s) = true →
      s' = flushToDisk w.storeFault
        ((stateAtCheck cfg w s).log LogLevel.info LogMsg.flushingToDisk) ∧
      s'.fEventHandler.writeEvents = [] ∧ s'.fEventHandler.readEvents = [] ∧
      s'.cmdInfo.text = (stateAtCheck cfg w s).cmdInfo.text ∧
      s'.cmdInfo.workingDir = (stateAtCheck cfg w s).cmdInfo.workingDir ∧
      s'.cmdInfo.startTime = (stateAtCheck cfg w s).cmdInfo.startTime ∧
      s'.cmdInfo.returnVal = (stateAtCheck cfg w s).cmdInfo.returnVal ∧
      s'.cmdInfo.sessionInfo = (stateAtCheck cfg w s).cmdInfo.sessionInfo ∧
      s'.cmdInfo.hostname = (stateAtCheck cfg w s).cmdInfo.hostname ∧
      s'.cmdInfo.username = (stateAtCheck cfg w s).cmdInfo.username) ∧
    (thresholdExceeded cfg (stateAtCheck cfg w s) = false →
      s' = stateAtCheck cfg w s ∧ flushCount s'.trace = flushCount s.trace) ∧
    thresholdExceeded cfg s' = false := by
  have hinv : thresholdExceeded cfg s = false := by
    refine pollUntilStopped_blocked_below cfg pre s0 s ?_ hpre
    simp [thresholdExceeded, hstart, FileEventHandler.sizeOfCachedReadFiles]
  have hiff : thresholdExceeded cfg (stateAtCheck cfg w s) = true ↔
      ((stateAtCheck cfg w s).fEventHandler.sizeOfCachedReadFiles > cfg.flushToDiskTotalSize ∨
       (stateAtCheck cfg w s).fEventHandler.writeEvents.length > cfg.flushToDiskEventCount) := by
    simp [thresholdExceeded]
  refine ⟨hiff, ?_⟩
  rcases pollIteration_continue cfg w s s' hstep with ⟨h1, h2⟩ | ⟨h1, h2⟩
  · have hst : stateAtCheck cfg w s = s.advance w.elapsed := by
      simp only [stateAtCheck, if_pos h1]
    have hex : thresholdExceeded cfg (stateAtCheck cfg w s) = false := by
      rw [hst]
      exact hinv
    rw [hst] at hex ⊢
    subst h2
    refine ⟨?_, ?_, ?_, hex⟩
    · rw [hex]
      constructor
      · intro h
        have h3 : flushCount (s.advance w.elapsed).trace = flushCount s.trace := rfl
        omega
      · intro h
        cases h
    · intro h
      rw [hex] at h
      cases h
    · intro _
      exact ⟨rfl, rfl⟩
  · have hcount := checkFlush_flushCount cfg w.storeFault (stateAtCheck cfg w s)
    rw [stateAtCheck_flushCount, ← h2] at hcount
    cases hex : thresholdExceeded cfg (stateAtCheck cfg w s) with
    | true =>
      rw [hex] at hcount
      have hs' : s' = flushToDisk w.storeFault
          ((stateAtCheck cfg w s).log LogLevel.info LogMsg.flushingToDisk) := by
        rw [h2]
        simp only [checkFlush, hex, if_true]
      refine ⟨?_, ?_, ?_, ?_⟩
      · simpa using hcount
      · intro _
        refine ⟨hs', ?_, ?_, ?_⟩
        · rw [hs', flushToDisk_caches]
        · rw [hs', flushToDisk_caches]
        · rw [hs', flushToDisk_cmdInfo]
          have hf : flushCommand ((stateAtCheck cfg w s).log LogLevel.info
              LogMsg.flushingToDisk) = flushCommand (stateAtCheck cfg w s) := rfl
          rw [hf]
          unfold flushCommand
          split_ifs <;> exact ⟨rfl, rfl, rfl, rfl, rfl, rfl, rfl⟩
      · intro h
        cases h
      · rw [hs']
        exact thresholdExceeded_flushToDisk cfg _ _
    | false =>
      rw [hex] at hcount
      have hs' : s' = stateAtCheck cfg w s := by
        rw [h2]
        simp only [checkFlush, hex]
        rfl
      refine ⟨?_, ?_, ?_, ?_⟩
      · constructor
        · intro h
          simp at hcount
          omega
        · intro h
          cases h
      · intro h
        cases h
      · intro _
        exact ⟨hs', by simpa using hcount⟩
      · rw [hs']
        exact hex

/-- C10, instances: with `flushToDiskEventCount = 2` the third cached write event triggers the flush, the second does not. -/
theorem threshold_flush_iff_witness :
    flushCount (pollIteration cfgDebug (wakeFan [writeEvt 2, writeEvt 3])
      stateAfterOne).state.trace = flushCount stateAfterOne.trace + 1 ∧
    (pollIteration cfgDebug (wakeFan [writeEvt 2, writeEvt 3])
      stateAfterOne).state.fEventHandler.writeEvents = [] ∧
    flushCount (pollIteration cfgDebug (wakeFan [writeEvt 2])
      stateAfterOne).state.trace = flushCount stateAfterOne.trace :=
  ⟨(threshold_flush_iff cfgDebug [wakeFan [writeEvt 1]] (wakeFan [writeEvt 2, writeEvt 3])
      state0 stateAfterOne
      (pollIteration cfgDebug (wakeFan [writeEvt 2, writeEvt 3]) stateAfterOne).state
      rfl (by decide) (by decide)).2.1.2 (by decide),
   ((threshold_flush_iff cfgDebug [wakeFan [writeEvt 1]] (wakeFan [writeEvt 2, writeEvt 3])
      state0 stateAfterOne
      (pollIteration cfgDebug (wakeFan [writeEvt 2, writeEvt 3]) stateAfterOne).state
      rfl (by decide) (by decide)).2.2.1 (by decide)).2.1,
   ((threshold_flush_iff cfgDebug [wakeFan [writeEvt 1]] (wakeFan [writeEvt 2])
      state0 stateAfterOne
      (pollIteration cfgDebug (wakeFan [writeEvt 2]) stateAfterOne).state
      rfl (by decide) (by decide)).2.2.2.1 (by decide)).2⟩

/-! ## C6: when a command record exists -/

theorem rowInvariant_emit (s : State) (e : Effect) (h1 : e.isAddCommand = false)
    (h2 : e.flushesEvents = false) (h : s.rowInvariant) : (s.emit e).rowInvariant := by
  unfold State.rowInvariant at h ⊢
  simpa [State.emit, commandRowAdded, eventsFlushed, List.any_append, h1, h2] using h

theorem handleMessage_rowInvariant (m : SockMsg) (s : State) (h : s.rowInvariant) :
    (handleMessage m s).2.rowInvariant := by
  unfold handleMessage
  split
  · exact h
  · exact h
  · exact rowInvariant_emit _ _ rfl rfl h
  · exact rowInvariant_emit _ _ rfl rfl h
  · exact rowInvariant_emit _ _ rfl rfl h

theorem processSocketEvent_rowInvariant (cfg : Config) (msgs : List SockMsg) (s : State)
    (h : s.rowInvariant) : (processSocketEvent cfg msgs s).2.rowInvariant := by
  unfold processSocketEvent
  refine processMessages_induction cfg State.rowInvariant (fun _ => True) ?_ ?_
    msgs _ _ (fun _ _ => trivial) (rowInvariant_emit _ _ rfl rfl h)
  · intro m s0 h0
    unfold warnIfLarge
    split_ifs
    · exact rowInvariant_emit _ _ rfl rfl h0
    · exact h0
  · intro m s0 _ h0
    exact handleMessage_rowInvariant _ _ (rowInvariant_emit _ _ rfl rfl h0)

theorem thresholdExceeded_nonempty (cfg : Config) (s : State)
    (h : thresholdExceeded cfg s = true) :
    (s.fEventHandler.writeEvents.isEmpty && s.fEventHandler.readEvents.isEmpty) = false := by
  simp only [thresholdExceeded, Bool.or_eq_true, decide_eq_true_eq] at h
  rcases h with h | h
  · have : s.fEventHandler.readEvents ≠ [] := by
      intro hh
      simp [FileEventHandler.sizeOfCachedReadFiles, hh] at h
    cases hr : s.fEventHandler.readEvents with
    | nil => exact absurd hr this
    | cons a l => simp
  · cases hw : s.fEventHandler.writeEvents with
    | nil => simp [hw] at h
    | cons a l => simp

theorem flushToDisk_rowInvariant (s : State) (h : s.rowInvariant)
    (hne : (s.fEventHandler.writeEvents.isEmpty && s.fEventHandler.readEvents.isEmpty) = false) :
    (flushToDisk none s).rowInvariant ∧
      commandRowAdded (flushToDisk none s).trace = true := by
  unfold State.rowInvariant at h
  by_cases hid : s.cmdInfo.idInDb = INVALID_INT_ID
  · rw [flushToDisk_insert s hid]
    unfold State.rowInvariant
    simp [commandRowAdded, eventsFlushed, List.any_append, Effect.isAddCommand,
      Effect.flushesEvents, hne, INVALID_INT_ID]
  · rw [flushToDisk_update s hid]
    have h1 : commandRowAdded s.trace = true := h.1.1 hid
    unfold State.rowInvariant
    simp only [commandRowAdded, eventsFlushed] at h1 ⊢
    simp [List.any_append, Effect.isAddCommand, Effect.flushesEvents, hne, h1, hid]

theorem checkFlush_rowInvariant (cfg : Config) (s : State) (h : s.rowInvariant) :
    (checkFlush cfg none s).rowInvariant := by
  unfold checkFlush
  split_ifs with hex
  · exact (flushToDisk_rowInvariant (s.log LogLevel.info LogMsg.flushingToDisk)
      (rowInvariant_emit s (Effect.log LogLevel.info LogMsg.flushingToDisk) rfl rfl h)
      (thresholdExceeded_nonempty cfg s hex)).1
  · exact h

theorem pollIteration_rowInvariant (cfg : Config) (w : Wakeup) (s : State)
    (hw : w.storeFault = none) (h : s.rowInvariant) :
    (pollIteration cfg w s).state.rowInvariant := by
  refine pollIteration_induction cfg State.rowInvariant w ?_ ?_ ?_ ?_ ?_ s h
  · intro s0 h0
    exact h0
  · intro s0 h0
    exact rowInvariant_emit s0 (Effect.log LogLevel.critical (LogMsg.pollFailed w.errno))
      rfl rfl h0
  · intro s0 h0
    unfold drainFanotify
    split_ifs
    · exact rowInvariant_emit s0 (Effect.handleEvents w.fanWrites w.fanReads) rfl rfl h0
    · exact h0
  · intro s0 h0
    exact processSocketEvent_rowInvariant cfg _ _ h0
  · intro s0 h0
    rw [hw]
    exact checkFlush_rowInvariant cfg s0 h0

theorem runLoop_rowInvariant (cfg : Config) (fw : FileWatcher) (env : RunEnv)
    (hw : ∀ w ∈ env.wakeups, w.storeFault = none) :
    (runLoop cfg fw env).state.rowInvariant := by
  apply runLoop_induction
  · simp [State.rowInvariant, commandStart, runInit, CommandInfo.fromLocalEnv,
      commandRowAdded, eventsFlushed]
  · simp [State.rowInvariant, socketStart, runInit, CommandInfo.fromLocalEnv, State.emit,
      commandRowAdded, eventsFlushed, Effect.isAddCommand, Effect.flushesEvents]
  · simp [State.rowInvariant, runInit, CommandInfo.fromLocalEnv,
      commandRowAdded, eventsFlushed]
  · intro s h
    exact h
  · intro w hmem s h
    exact pollIteration_rowInvariant cfg w s (hw w hmem) h

theorem terminal_flush_row (s : State) (h : s.rowInvariant)
    (hkeep : ¬ (s.cmdInfo.text.isEmpty = true ∧ s.cmdInfo.idInDb = INVALID_INT_ID)) :
    commandRowAdded (flushToDisk none s).trace = true ∧
      ((flushToDisk none s).cmdInfo.text ≠ [] ∨
        eventsFlushed (flushToDisk none s).trace = true) := by
  unfold State.rowInvariant at h
  by_cases hid : s.cmdInfo.idInDb = INVALID_INT_ID
  · have htext : s.cmdInfo.text ≠ [] := by
      intro hh
      exact hkeep ⟨by rw [hh]; rfl, hid⟩
    have hft : (flushCommand s).text = s.cmdInfo.text := by
      unfold flushCommand
      split_ifs <;> rfl
    rw [flushToDisk_insert s hid]
    refine ⟨by simp [commandRowAdded, List.any_append, Effect.isAddCommand], Or.inl ?_⟩
    simpa [hft] using htext
  · have h1 : commandRowAdded s.trace = true := h.1.1 hid
    have h2 : eventsFlushed s.trace = true := h.2.2 h1
    rw [flushToDisk_update s hid]
    simp only [commandRowAdded, eventsFlushed] at h1 h2 ⊢
    exact ⟨by simp [List.any_append, h1], Or.inr (by simp [List.any_append, h2])⟩

/-- C6 (counterexample): a command-mode run with the non-empty command text
`/bin/sh -c x` whose poll loop fails ends without a command record in the store. -/
theorem loop_error_leaves_no_record :
    (runLoop cfgDebug fwCommand envPollFails).result = some E_SocketMsg.ENUM_END ∧
    (run cfgDebug fwCommand envPollFails).exitCode = some 0 ∧
    (run cfgDebug fwCommand envPollFails).state.cmdInfo.text
      = [47, 98, 105, 110, 47, 115, 104, 32, 45, 99, 32, 120] ∧
    commandRowAdded (run cfgDebug fwCommand envPollFails).state.trace = false ∧
    (run cfgDebug fwCommand envPollFails).state.store.cmd = [] := by
  decide

/-- C6 (amended): for every run of `run` whose poll loop ends normally (EMPTY) and
in which no store call fails, `run` exits, and at exit a command record exists
in the store (a row was inserted by `addCommand`) if and only if the command text
is non-empty or at least one read or write event has been flushed for the
command. -/
theorem command_record_iff (cfg : Config) (fw : FileWatcher) (env : RunEnv) (s : State)
    (hloop : runLoop cfg fw env = LoopResult.returned E_SocketMsg.EMPTY s)
    (hw : ∀ w ∈ env.wakeups, w.storeFault = none) (ht : env.terminalFault = none) :
    ∃ code s', run cfg fw env = RunResult.exited code s' ∧
      (commandRowAdded s'.trace = true ↔
        (s'.cmdInfo.text ≠ [] ∨ eventsFlushed s'.trace = true)) := by
  have hJ := runLoop_rowInvariant cfg fw env hw
  rw [hloop] at hJ
  have hJ2 : ((s.advance env.elapsedEnd).setEndTime).rowInvariant := hJ
  have hrun : run cfg fw env = finalFlush cfg none (runRet fw env)
      (s.advance env.elapsedEnd).setEndTime := by
    simp only [run, hloop, runFinish, ht]
  rw [hrun]
  generalize (s.advance env.elapsedEnd).setEndTime = s2 at hJ2
  unfold finalFlush
  split_ifs with hd hm
  · refine ⟨_, _, rfl, ?_⟩
    have hrow : commandRowAdded s2.trace = false := by
      cases hc : commandRowAdded s2.trace with
      | false => rfl
      | true => exact absurd hd.2 (hJ2.1.2 hc)
    have hev : eventsFlushed s2.trace = false := by
      cases hc : eventsFlushed s2.trace with
      | false => rfl
      | true =>
        rw [hJ2.2.1 hc] at hrow
        cases hrow
    have htext : s2.cmdInfo.text = [] := by
      simpa using hd.1
    simp only [commandRowAdded, eventsFlushed] at hrow hev
    simp [State.log, State.emit, commandRowAdded, eventsFlushed, List.any_append,
      Effect.isAddCommand, Effect.flushesEvents, hrow, hev, htext]
  · refine ⟨_, _, rfl, ?_⟩
    obtain ⟨h1, h2⟩ := terminal_flush_row (s2.log LogLevel.debug LogMsg.missingFields)
      (rowInvariant_emit s2 (Effect.log LogLevel.debug LogMsg.missingFields) rfl rfl hJ2) hd
    exact ⟨fun _ => h2, fun _ => h1⟩
  · refine ⟨_, _, rfl, ?_⟩
    obtain ⟨h1, h2⟩ := terminal_flush_row s2 hJ2 hd
    exact ⟨fun _ => h2, fun _ => h1⟩

/-- C6 (amended), instances: a session with text `ls` leaves a record, a session without text and without flush leaves none. -/
theorem command_record_iff_witness :
    (∃ code s', run cfgDebug fwSocket envPlain = RunResult.exited code s' ∧
      (commandRowAdded s'.trace = true ↔
        (s'.cmdInfo.text ≠ [] ∨ eventsFlushed s'.trace = true))) ∧
    commandRowAdded (run cfgDebug fwSocket envPlain).state.trace = true ∧
    commandRowAdded (run cfgDebug fwSocket
      { envPlain with wakeups := [wakeFan [writeEvt 1], wakeSock [msgClosed]] }).state.trace
        = false :=
  ⟨command_record_iff cfgDebug fwSocket envPlain (runLoop cfgDebug fwSocket envPlain).state
      (by decide) (by decide) rfl,
   by decide, by decide⟩

/-! ## C1: what an unknown message id does to the loop -/

theorem handleMessage_recognised (m : SockMsg) (s : State) (h1 : m.msgId ≠ -1)
    (h2 : ¬ unknownMsgId m.msgId) :
    (handleMessage m s).1 ≠ E_SocketMsg.EMPTY ∧ (handleMessage m s).1 ≠ E_SocketMsg.ENUM_END := by
  have h3 : m.msgId = 1 ∨ m.msgId = 2 ∨ m.msgId = 3 ∨ m.msgId = 4 := by
    simp only [unknownMsgId, E_SocketMsg.toInt] at h2
    omega
  rcases h3 with h | h | h | h <;> simp [handleMessage, E_SocketMsg.ofInt, h]

theorem processMessages_recognised_last (cfg : Config) (m : SockMsg)
    (h1 : m.msgId ≠ -1) (h2 : ¬ unknownMsgId m.msgId) (hrange : passesAssert cfg m.msgId) :
    ∀ (pre : List SockMsg) (ret : E_SocketMsg) (s : State),
      (∀ x ∈ pre, x.msgId ≠ -1 ∧ passesAssert cfg x.msgId) →
      ∃ r s', processMessages cfg (pre ++ [m]) ret s = (SockResult.returned r, s') ∧
        r ≠ E_SocketMsg.EMPTY := by
  intro pre
  induction pre with
  | nil =>
    intro ret s _
    have h3 : ¬ (cfg.assertsEnabled = true ∧
        ¬ (m.msgId ≥ 0 ∧ m.msgId < E_SocketMsg.ENUM_END.toInt)) := by
      intro h
      exact h.2 (hrange h.1)
    obtain ⟨h4, h5⟩ := handleMessage_recognised m
      ((warnIfLarge cfg m s).log LogLevel.debug (LogMsg.receivedMessage m.msgId)) h1 h2
    have h6 : ¬ (cfg.assertsEnabled = true ∧
        (handleMessage m ((warnIfLarge cfg m s).log LogLevel.debug
          (LogMsg.receivedMessage m.msgId))).1 = E_SocketMsg.ENUM_END) := by
      intro h
      exact h5 h.2
    simp only [List.nil_append, processMessages, if_neg h1, if_neg h3, if_neg h6]
    exact ⟨_, _, rfl, h4⟩
  | cons x pre ih =>
    intro ret s hpre
    have hx := hpre x (List.mem_cons_self _ _)
    have h3 : x.msgId ≠ -1 := hx.1
    have h4 : ¬ (cfg.assertsEnabled = true ∧
        ¬ (x.msgId ≥ 0 ∧ x.msgId < E_SocketMsg.ENUM_END.toInt)) := by
      intro h
      exact h.2 (hx.2 h.1)
    simp only [List.cons_append, processMessages, if_neg h3, if_neg h4]
    exact ih _ _ (fun y hy => hpre y (List.mem_cons_of_mem _ hy))

theorem processMessages_logs_unknown (cfg : Config) (m : SockMsg)
    (hm : unknownMsgId m.msgId) :
    ∀ (msgs : List SockMsg) (ret : E_SocketMsg) (s : State),
      (∀ x ∈ msgs, x.msgId ≠ -1 ∧ passesAssert cfg x.msgId) → m ∈ msgs →
      Effect.log LogLevel.critical (LogMsg.invalidMessage m.msgId) ∈
        (processMessages cfg msgs ret s).2.trace := by
  intro msgs
  induction msgs with
  | nil =>
    intro ret s _ hmem
    cases hmem
  | cons x rest ih =>
    intro ret s hall hmem
    have hx := hall x (List.mem_cons_self _ _)
    have h3 : x.msgId ≠ -1 := hx.1
    have h4 : ¬ (cfg.assertsEnabled = true ∧
        ¬ (x.msgId ≥ 0 ∧ x.msgId < E_SocketMsg.ENUM_END.toInt)) := by
      intro h
      exact h.2 (hx.2 h.1)
    simp only [processMessages, if_neg h3, if_neg h4]
    rcases List.mem_cons.mp hmem with heq | hrest
    · subst heq
      refine (processMessages_extends_trace cfg _ rest _ _ (List.prefix_refl _)).subset ?_
      rw [handleMessage_unknown _ _ hm]
      simp [State.log, State.emit]
    · exact ih _ _ (fun y hy => hall y (List.mem_cons_of_mem _ hy)) hrest

/-! ## C16: the frame of CLEAR_EVENTS -/

theorem handleMessage_clearEvents (m : SockMsg) (s : State)
    (h : m.msgId = E_SocketMsg.CLEAR_EVENTS.toInt) :
    handleMessage m s =
      (E_SocketMsg.CLEAR_EVENTS,
       { cmdInfo := { s.cmdInfo with startTime := some s.clock },
         fEventHandler := { writeEvents := [], readEvents := [] },
         store := s.store, clock := s.clock,
         trace := s.trace ++ [Effect.clearEvents] }) := by
  simp only [E_SocketMsg.toInt] at h
  simp [handleMessage, E_SocketMsg.ofInt, h, State.emit, FileEventHandler.clearEvents]

theorem warnIfLarge_frame (cfg : Config) (m : SockMsg) (s : State) :
    (warnIfLarge cfg m s).cmdInfo = s.cmdInfo ∧
    (warnIfLarge cfg m s).fEventHandler = s.fEventHandler ∧
    (warnIfLarge cfg m s).store = s.store ∧ (warnIfLarge cfg m s).clock = s.clock := by
  unfold warnIfLarge
  split_ifs <;> exact ⟨rfl, rfl, rfl, rfl⟩

/-- C16: for every state, processing a CLEAR_EVENTS message (one pass of the loop
of `processSocketEvent`, whatever payload the message has) empties the read
cache and the write cache and sets `startTime` to the current time; text,
returnVal, idInDb, endTime and all other fields of the CommandInfo keep their
values, and so does the store. A batch that consists of the message makes
`processSocketEvent` return CLEAR_EVENTS with the same effect. -/
theorem clear_events_frame (cfg : Config) (b : Bytes) (fd : Int) (s : State) :
    (applyMessage cfg s (msgClearEvents b fd)).fEventHandler.readEvents = [] ∧
    (applyMessage cfg s (msgClearEvents b fd)).fEventHandler.writeEvents = [] ∧
    (applyMessage cfg s (msgClearEvents b fd)).cmdInfo =
      { s.cmdInfo with startTime := some s.clock } ∧
    (applyMessage cfg s (msgClearEvents b fd)).cmdInfo.text = s.cmdInfo.text ∧
    (applyMessage cfg s (msgClearEvents b fd)).cmdInfo.returnVal = s.cmdInfo.returnVal ∧
    (applyMessage cfg s (msgClearEvents b fd)).cmdInfo.idInDb = s.cmdInfo.idInDb ∧
    (applyMessage cfg s (msgClearEvents b fd)).cmdInfo.endTime = s.cmdInfo.endTime ∧
    (applyMessage cfg s (msgClearEvents b fd)).store = s.store ∧
    (processSocketEvent cfg [msgClearEvents b fd] s).1
      = SockResult.returned E_SocketMsg.CLEAR_EVENTS ∧
    (processSocketEvent cfg [msgClearEvents b fd] s).2.cmdInfo =
      { s.cmdInfo with startTime := some s.clock } ∧
    (processSocketEvent cfg [msgClearEvents b fd] s).2.fEventHandler =
      { writeEvents := [], readEvents := [] } := by
  obtain ⟨h1, _, h3, h4⟩ := warnIfLarge_frame cfg (msgClearEvents b fd) s
  obtain ⟨g1, _, _, g4⟩ := warnIfLarge_frame cfg (msgClearEvents b fd)
    (s.emit (Effect.receiveMessages [msgClearEvents b fd]))
  have hid : (msgClearEvents b fd).msgId = E_SocketMsg.CLEAR_EVENTS.toInt := rfl
  have ha : ¬ ((msgClearEvents b fd).msgId = -1) := by
    simp [msgClearEvents, E_SocketMsg.toInt]
  have hb : ¬ (cfg.assertsEnabled = true ∧ ¬ ((msgClearEvents b fd).msgId ≥ 0 ∧
      (msgClearEvents b fd).msgId < E_SocketMsg.ENUM_END.toInt)) := by
    intro h
    exact h.2 (by simp [msgClearEvents, E_SocketMsg.toInt])
  have hc : ¬ (cfg.assertsEnabled = true ∧
      E_SocketMsg.CLEAR_EVENTS = E_SocketMsg.ENUM_END) := by
    intro h
    exact absurd h.2 (by decide)
  simp only [applyMessage, processSocketEvent, processMessages, if_neg ha, if_neg hb,
    handleMessage_clearEvents _ _ hid, if_neg hc]
  simp only [State.emit] at g1 g4
  simp [State.log, State.emit, h1, h3, h4, g1, g4]

/-- C16, instance: CLEAR_EVENTS at clock 20 on a state with two cached events. -/
theorem clear_events_frame_example :
    (applyMessage cfgDebug stateBusy (msgClearEvents [] (-1))).fEventHandler
      = { writeEvents := [], readEvents := [] } ∧
    (applyMessage cfgDebug stateBusy (msgClearEvents [] (-1))).cmdInfo
      = { stateBusy.cmdInfo with startTime := some 20 } := by
  decide

/-! ## C15: what a batch of recognised messages does to the CommandInfo -/

theorem convertToUnicodeLoop_ascii :
    ∀ (bs : Bytes) (fuel : Nat), bs.length ≤ fuel → (∀ b ∈ bs, b < 128) →
      convertToUnicodeLoop fuel bs = bs := by
  intro bs
  induction bs with
  | nil =>
    intro fuel _ _
    cases fuel <;> rfl
  | cons b rest ih =>
    intro fuel hlen hall
    cases fuel with
    | zero => simp at hlen
    | succ k =>
      have hb : b < 128 := hall b (List.mem_cons_self _ _)
      simp only [convertToUnicodeLoop, if_pos hb]
      rw [ih k (by simpa using hlen) (fun x hx => hall x (List.mem_cons_of_mem _ hx))]

theorem convertToUnicode_ascii (bs : Bytes) (h : ∀ b ∈ bs, b < 128) :
    convertToUnicode bs = bs := by
  have hbom : bs.take 3 ≠ [0xEF, 0xBB, 0xBF] := by
    intro hh
    have hmem : 0xEF ∈ bs.take 3 := by
      rw [hh]
      exact List.mem_cons_self _ _
    have := h _ (List.mem_of_mem_take hmem)
    omega
  unfold convertToUnicode
  simp only [if_neg hbom]
  exact convertToUnicodeLoop_ascii bs bs.length (le_refl _) h

/-- A payload of US-ASCII bytes without NUL is its own text. -/
theorem fromUtf8_ascii (bs : Bytes) (h : ∀ b ∈ bs, 0 < b ∧ b < 128) :
    QString.fromUtf8 bs = bs := by
  have h1 : bs.takeWhile (fun b => decide (b ≠ 0)) = bs := by
    rw [List.takeWhile_eq_self_iff]
    intro b hb
    have := (h b hb).1
    simp only [ne_eq, decide_not, Bool.not_eq_true', decide_eq_false_iff_not]
    omega
  unfold QString.fromUtf8
  rw [h1]
  exact convertToUnicode_ascii bs (fun b hb => (h b hb).2)

/-- The conversion looks at the payload up to its first NUL byte only. -/
theorem fromUtf8_stops_at_NUL (pre post : Bytes) (h : ∀ b ∈ pre, b ≠ 0) :
    QString.fromUtf8 (pre ++ 0 :: post) = QString.fromUtf8 pre := by
  have h1 : ∀ (l : Bytes), (∀ b ∈ l, b ≠ 0) →
      (l ++ 0 :: post).takeWhile (fun b => decide (b ≠ 0)) = l := by
    intro l
    induction l with
    | nil =>
      intro _
      simp [List.takeWhile]
    | cons x xs ih =>
      intro hl
      have hx : x ≠ 0 := hl x (List.mem_cons_self _ _)
      have hi := ih (fun b hb => hl b (List.mem_cons_of_mem _ hb))
      rw [List.cons_append, List.takeWhile_cons]
      simp only [hx, ne_eq, not_false_eq_true, decide_True, if_true]
      rw [hi]
  have h2 : pre.takeWhile (fun b => decide (b ≠ 0)) = pre := by
    rw [List.takeWhile_eq_self_iff]
    intro b hb
    simpa using h b hb
  unfold QString.fromUtf8
  rw [h1 pre h, h2]

/-- What the `switch` does to the CommandInfo, for every message id. -/
theorem handleMessage_cmdInfo (m : SockMsg) (s : State) :
    (handleMessage m s).2.cmdInfo =
      { s.cmdInfo with
        text := if m.msgId = E_SocketMsg.COMMAND.toInt then QString.fromUtf8 m.bytes
          else s.cmdInfo.text,
        returnVal := if m.msgId = E_SocketMsg.RETURN_VALUE.toInt then varFromQBytes m.bytes
          else s.cmdInfo.returnVal,
        startTime := if m.msgId = E_SocketMsg.CLEAR_EVENTS.toInt then some s.clock
          else s.cmdInfo.startTime } ∧
    (handleMessage m s).2.clock = s.clock := by
  simp only [E_SocketMsg.toInt]
  by_cases h1 : m.msgId = 1
  · simp [handleMessage, E_SocketMsg.ofInt, h1]
  · by_cases h2 : m.msgId = 2
    · simp [handleMessage, E_SocketMsg.ofInt, h2]
    · by_cases h3 : m.msgId = 3
      · simp [handleMessage, E_SocketMsg.ofInt, h3, State.emit]
      · by_cases h4 : m.msgId = 4
        · simp [handleMessage, E_SocketMsg.ofInt, h4, State.emit]
        · unfold handleMessage E_SocketMsg.ofInt
          simp only [h1, h2, h3, h4, if_false]
          split_ifs <;> simp [State.log, State.emit]

theorem handleMessage_recognised_cmdInfo (m : SockMsg) (s : State)
    (_h : recognisedMsgId m.msgId) :
    (handleMessage m s).2.cmdInfo =
      { s.cmdInfo with
        text := if m.msgId = E_SocketMsg.COMMAND.toInt then QString.fromUtf8 m.bytes
          else s.cmdInfo.text,
        returnVal := if m.msgId = E_SocketMsg.RETURN_VALUE.toInt then varFromQBytes m.bytes
          else s.cmdInfo.returnVal,
        startTime := if m.msgId = E_SocketMsg.CLEAR_EVENTS.toInt then some s.clock
          else s.cmdInfo.startTime } ∧
    (handleMessage m s).2.clock = s.clock :=
  handleMessage_cmdInfo m s

theorem applyMessage_cmdInfo (cfg : Config) (m : SockMsg) (s : State) :
    (applyMessage cfg s m).cmdInfo =
      { s.cmdInfo with
        text := if m.msgId = E_SocketMsg.COMMAND.toInt then QString.fromUtf8 m.bytes
          else s.cmdInfo.text,
        returnVal := if m.msgId = E_SocketMsg.RETURN_VALUE.toInt then varFromQBytes m.bytes
          else s.cmdInfo.returnVal,
        startTime := if m.msgId = E_SocketMsg.CLEAR_EVENTS.toInt then some s.clock
          else s.cmdInfo.startTime } := by
  obtain ⟨h1, _, _, h4⟩ := warnIfLarge_frame cfg m s
  unfold applyMessage
  rw [(handleMessage_cmdInfo m _).1]
  simp [State.log, State.emit, h1, h4]

theorem applyMessage_recognised_cmdInfo (cfg : Config) (m : SockMsg) (s : State)
    (_h : recognisedMsgId m.msgId) :
    (applyMessage cfg s m).cmdInfo =
      { s.cmdInfo with
        text := if m.msgId = E_SocketMsg.COMMAND.toInt then QString.fromUtf8 m.bytes
          else s.cmdInfo.text,
        returnVal := if m.msgId = E_SocketMsg.RETURN_VALUE.toInt then varFromQBytes m.bytes
          else s.cmdInfo.returnVal,
        startTime := if m.msgId = E_SocketMsg.CLEAR_EVENTS.toInt then some s.clock
          else s.cmdInfo.startTime } :=
  applyMessage_cmdInfo cfg m s

theorem recognised_passes (cfg : Config) (i : Int) (h : recognisedMsgId i) :
    i ≠ -1 ∧ passesAssert cfg i ∧ ¬ unknownMsgId i := by
  simp only [recognisedMsgId, E_SocketMsg.toInt] at h
  refine ⟨by omega, fun _ => ?_, ?_⟩
  · simp only [E_SocketMsg.toInt]
    omega
  · simp only [unknownMsgId, E_SocketMsg.toInt]
    omega

theorem processMessages_cons (cfg : Config) (m : SockMsg) (rest : List SockMsg)
    (ret : E_SocketMsg) (s : State) (h1 : m.msgId ≠ -1) (h2 : passesAssert cfg m.msgId) :
    processMessages cfg (m :: rest) ret s =
      processMessages cfg rest
        (handleMessage m ((warnIfLarge cfg m s).log LogLevel.debug
          (LogMsg.receivedMessage m.msgId))).1
        (applyMessage cfg s m) := by
  have h3 : ¬ (cfg.assertsEnabled = true ∧
      ¬ (m.msgId ≥ 0 ∧ m.msgId < E_SocketMsg.ENUM_END.toInt)) := by
    intro h
    exact h.2 (h2 h.1)
  simp only [processMessages, if_neg h1, if_neg h3, applyMessage]

theorem processMessages_nil_state (cfg : Config) (ret : E_SocketMsg) (s : State) :
    (processMessages cfg [] ret s).2 = s := by
  unfold processMessages
  split_ifs <;> rfl

theorem processMessages_fields (cfg : Config) :
    ∀ (msgs : List SockMsg) (ret : E_SocketMsg) (s : State),
      (∀ m ∈ msgs, m.msgId ≠ -1 ∧ passesAssert cfg m.msgId) →
      (processMessages cfg msgs ret s).2.cmdInfo.text =
        ((lastPayload E_SocketMsg.COMMAND.toInt msgs).map QString.fromUtf8).getD
          s.cmdInfo.text ∧
      (processMessages cfg msgs ret s).2.cmdInfo.returnVal =
        ((lastPayload E_SocketMsg.RETURN_VALUE.toInt msgs).map varFromQBytes).getD
          s.cmdInfo.returnVal ∧
      (processMessages cfg msgs ret s).2.cmdInfo.idInDb = s.cmdInfo.idInDb ∧
      (processMessages cfg msgs ret s).2.cmdInfo.workingDir = s.cmdInfo.workingDir ∧
      (processMessages cfg msgs ret s).2.cmdInfo.endTime = s.cmdInfo.endTime ∧
      (processMessages cfg msgs ret s).2.cmdInfo.sessionInfo = s.cmdInfo.sessionInfo ∧
      (processMessages cfg msgs ret s).2.cmdInfo.hostname = s.cmdInfo.hostname ∧
      (processMessages cfg msgs ret s).2.cmdInfo.username = s.cmdInfo.username := by
  intro msgs
  induction msgs with
  | nil =>
    intro ret s _
    rw [processMessages_nil_state]
    simp [lastPayload]
  | cons m rest ih =>
    intro ret s hrec
    obtain ⟨h1, h2⟩ := hrec m (List.mem_cons_self _ _)
    rw [processMessages_cons cfg m rest ret s h1 h2]
    obtain ⟨i1, i2, i3, i4, i5, i6, i7, i8⟩ :=
      ih (handleMessage m ((warnIfLarge cfg m s).log LogLevel.debug
          (LogMsg.receivedMessage m.msgId))).1
        (applyMessage cfg s m) (fun x hx => hrec x (List.mem_cons_of_mem _ hx))
    have hc := applyMessage_cmdInfo cfg m s
    rw [i1, i2, i3, i4, i5, i6, i7, i8, hc]
    refine ⟨?_, ?_, rfl, rfl, rfl, rfl, rfl, rfl⟩
    · simp only [lastPayload]
      cases lastPayload E_SocketMsg.COMMAND.toInt rest with
      | some b => rfl
      | none =>
        simp only [Option.getD, Option.map]
        split_ifs <;> rfl
    · simp only [lastPayload]
      cases lastPayload E_SocketMsg.RETURN_VALUE.toInt rest with
      | some b => rfl
      | none =>
        simp only [Option.getD, Option.map]
        split_ifs <;> rfl

theorem processMessages_recognised_fields (cfg : Config) (msgs : List SockMsg)
    (ret : E_SocketMsg) (s : State) (hrec : ∀ m ∈ msgs, recognisedMsgId m.msgId) :
    (processMessages cfg msgs ret s).2.cmdInfo.text =
      ((lastPayload E_SocketMsg.COMMAND.toInt msgs).map QString.fromUtf8).getD
        s.cmdInfo.text ∧
    (processMessages cfg msgs ret s).2.cmdInfo.returnVal =
      ((lastPayload E_SocketMsg.RETURN_VALUE.toInt msgs).map varFromQBytes).getD
        s.cmdInfo.returnVal ∧
    (processMessages cfg msgs ret s).2.cmdInfo.idInDb = s.cmdInfo.idInDb ∧
    (processMessages cfg msgs ret s).2.cmdInfo.workingDir = s.cmdInfo.workingDir ∧
    (processMessages cfg msgs ret s).2.cmdInfo.endTime = s.cmdInfo.endTime ∧
    (processMessages cfg msgs ret s).2.cmdInfo.sessionInfo = s.cmdInfo.sessionInfo ∧
    (processMessages cfg msgs ret s).2.cmdInfo.hostname = s.cmdInfo.hostname ∧
    (processMessages cfg msgs ret s).2.cmdInfo.username = s.cmdInfo.username :=
  processMessages_fields cfg msgs ret s (fun m hm =>
    ⟨(recognised_passes cfg m.msgId (hrec m hm)).1, (recognised_passes cfg m.msgId (hrec m hm)).2.1⟩)

/-- C15 (counterexample): a COMMAND message whose payload is `l`, NUL, `s` leaves
the text `l`: the assignment of the payload to the `QString` stops at the first
NUL byte. A payload that is the single byte 0xFF, which is not UTF-8, leaves the
replacement character U+FFFD as text. In both cases the text is not the payload. -/
theorem command_payload_is_converted :
    recognisedMsgId 1 ∧
    (processSocketEvent cfgDebug [⟨1, [108, 0, 115], -1⟩] state0).2.cmdInfo.text = [108] ∧
    (processSocketEvent cfgDebug [⟨1, [108, 0, 115], -1⟩] state0).2.cmdInfo.text
      ≠ [108, 0, 115] ∧
    (processSocketEvent cfgDebug [⟨1, [255], -1⟩] state0).2.cmdInfo.text = [65533] ∧
    (processSocketEvent cfgDebug [⟨1, [255], -1⟩] state0).2.cmdInfo.text ≠ [255] := by
  decide

/-- C15 (amended): for every batch of recognised messages (COMMAND, RETURN_VALUE,
LOG_MESSAGE, CLEAR_EVENTS; no peer-closed marker), after `processSocketEvent` the
command text is the payload of the last COMMAND message of the batch as the
assignment to a `QString` converts it (`QString::fromUtf8`: the payload up to its
first NUL byte, decoded as UTF-8), unchanged if there is none; for a payload of
US-ASCII bytes without NUL the text is the payload itself. `returnVal` is the
decoded 32-bit payload of the last RETURN_VALUE message (unchanged if there is
none); idInDb, workingDir, endTime, session, hostname and username are
unchanged. A non-empty batch makes the call return a value other than EMPTY. -/
theorem batch_sets_text_and_returnVal (cfg : Config) (msgs : List SockMsg) (s : State)
    (hrec : ∀ m ∈ msgs, recognisedMsgId m.msgId) :
    (processSocketEvent cfg msgs s).2.cmdInfo.text =
      ((lastPayload E_SocketMsg.COMMAND.toInt msgs).map QString.fromUtf8).getD
        s.cmdInfo.text ∧
    (∀ p, lastPayload E_SocketMsg.COMMAND.toInt msgs = some p →
      (∀ b ∈ p, 0 < b ∧ b < 128) → (processSocketEvent cfg msgs s).2.cmdInfo.text = p) ∧
    (processSocketEvent cfg msgs s).2.cmdInfo.returnVal =
      ((lastPayload E_SocketMsg.RETURN_VALUE.toInt msgs).map varFromQBytes).getD
        s.cmdInfo.returnVal ∧
    (processSocketEvent cfg msgs s).2.cmdInfo.idInDb = s.cmdInfo.idInDb ∧
    (processSocketEvent cfg msgs s).2.cmdInfo.workingDir = s.cmdInfo.workingDir ∧
    (processSocketEvent cfg msgs s).2.cmdInfo.endTime = s.cmdInfo.endTime ∧
    (processSocketEvent cfg msgs s).2.cmdInfo.sessionInfo = s.cmdInfo.sessionInfo ∧
    (processSocketEvent cfg msgs s).2.cmdInfo.hostname = s.cmdInfo.hostname ∧
    (processSocketEvent cfg msgs s).2.cmdInfo.username = s.cmdInfo.username ∧
    (msgs ≠ [] → ∃ r, (processSocketEvent cfg msgs s).1 = SockResult.returned r ∧
      r ≠ E_SocketMsg.EMPTY) := by
  obtain ⟨h1, h2, h3, h4, h5, h6, h7, h8⟩ := processMessages_recognised_fields cfg msgs
    E_SocketMsg.ENUM_END (s.emit (Effect.receiveMessages msgs)) hrec
  refine ⟨h1, ?_, h2, h3, h4, h5, h6, h7, h8, ?_⟩
  · intro p hp hascii
    have h9 : (processSocketEvent cfg msgs s).2.cmdInfo.text =
        ((lastPayload E_SocketMsg.COMMAND.toInt msgs).map QString.fromUtf8).getD
          s.cmdInfo.text := h1
    rw [h9, hp]
    exact fromUtf8_ascii p hascii
  intro hne
  rcases List.eq_nil_or_concat msgs with hnil | ⟨pre, last, hcat⟩
  · exact absurd hnil hne
  · have hlast : recognisedMsgId last.msgId := hrec last (by rw [hcat]; simp)
    obtain ⟨l1, l2, l3⟩ := recognised_passes cfg last.msgId hlast
    obtain ⟨r, s', hs', hr⟩ := processMessages_recognised_last cfg last l1 l3 l2 pre
      E_SocketMsg.ENUM_END (s.emit (Effect.receiveMessages msgs))
      (fun x hx => by
        have hx2 := recognised_passes cfg x.msgId (hrec x (by rw [hcat]; simp [hx]))
        exact ⟨hx2.1, hx2.2.1⟩)
    refine ⟨r, ?_, hr⟩
    unfold processSocketEvent
    rw [hcat]
    rw [hcat] at hs'
    simp only [List.concat_eq_append] at hs' ⊢
    rw [hs']

/-- C15 (witness): COMMAND `ls`, RETURN_VALUE 1, LOG_MESSAGE, COMMAND `x`,
RETURN_VALUE 256 + 3 leave the text `x` and the return value 259. -/
theorem batch_sets_text_and_returnVal_witness :
    (∀ m ∈ ([⟨1, textLs, -1⟩, ⟨2, [1, 0, 0, 0], -1⟩, ⟨3, [104], -1⟩, ⟨1, [120], -1⟩,
       ⟨2, [3, 1, 0, 0], -1⟩] : List SockMsg), recognisedMsgId m.msgId) ∧
    (processSocketEvent cfgDebug
      [⟨1, textLs, -1⟩, ⟨2, [1, 0, 0, 0], -1⟩, ⟨3, [104], -1⟩, ⟨1, [120], -1⟩,
       ⟨2, [3, 1, 0, 0], -1⟩] state0).2.cmdInfo.text = [120] ∧
    (processSocketEvent cfgDebug
      [⟨1, textLs, -1⟩, ⟨2, [1, 0, 0, 0], -1⟩, ⟨3, [104], -1⟩, ⟨1, [120], -1⟩,
       ⟨2, [3, 1, 0, 0], -1⟩] state0).2.cmdInfo.returnVal = 259 :=
  ⟨by decide,
   (batch_sets_text_and_returnVal cfgDebug
      [⟨1, textLs, -1⟩, ⟨2, [1, 0, 0, 0], -1⟩, ⟨3, [104], -1⟩, ⟨1, [120], -1⟩,
       ⟨2, [3, 1, 0, 0], -1⟩] state0 (by decide)).2.1 [120] rfl (by decide),
   (batch_sets_text_and_returnVal cfgDebug
      [⟨1, textLs, -1⟩, ⟨2, [1, 0, 0, 0], -1⟩, ⟨3, [104], -1⟩, ⟨1, [120], -1⟩,
       ⟨2, [3, 1, 0, 0], -1⟩] state0 (by decide)).2.2.1⟩

/-! ## C1: the amended statement -/

theorem processMessages_state (cfg : Config) :
    ∀ (msgs : List SockMsg) (ret : E_SocketMsg) (s : State),
      (∀ m ∈ msgs, m.msgId ≠ -1 ∧ passesAssert cfg m.msgId) →
      (processMessages cfg msgs ret s).2 = applyMessages cfg msgs s := by
  intro msgs
  induction msgs with
  | nil =>
    intro ret s _
    rw [processMessages_nil_state]
    rfl
  | cons m rest ih =>
    intro ret s hall
    obtain ⟨h1, h2⟩ := hall m (List.mem_cons_self _ _)
    rw [processMessages_cons cfg m rest ret s h1 h2,
      ih _ _ (fun x hx => hall x (List.mem_cons_of_mem _ hx))]
    rfl

/-- C1 (amended): take a wakeup on which the socket is readable and whose batch
holds no peer-closed marker and no id that fails the range assert. Every message
of the batch with an unknown id (none of COMMAND, RETURN_VALUE, LOG_MESSAGE,
CLEAR_EVENTS) is logged as critical, and the messages behind it are still
processed: the state behind the batch is the body of the loop applied to every
message of the batch in order, so the text is that of the last COMMAND message
of the whole batch and `returnVal` that of the last RETURN_VALUE message. If the
last message of the batch has an unknown id, `processSocketEvent` returns EMPTY
and `pollUntilStopped` returns EMPTY at that wakeup: the loop stops. If the last
message is a recognised one, the loop continues, also when an unknown message
stands before it. -/
theorem unknown_message_logged_last_decides (cfg : Config) (w : Wakeup) (ws : List Wakeup)
    (s : State) (pre : List SockMsg) (last : SockMsg)
    (hpoll : 0 < w.poll_num) (hsock : w.sockReadable = true)
    (hbatch : w.sockMsgs = pre ++ [last])
    (hall : ∀ x ∈ pre ++ [last], x.msgId ≠ -1 ∧ passesAssert cfg x.msgId) :
    (∀ m ∈ pre ++ [last], unknownMsgId m.msgId →
      Effect.log LogLevel.critical (LogMsg.invalidMessage m.msgId) ∈
        (pollIteration cfg w s).state.trace) ∧
    (∀ s0 : State,
      (processSocketEvent cfg (pre ++ [last]) s0).2 =
        applyMessages cfg (pre ++ [last])
          (s0.emit (Effect.receiveMessages (pre ++ [last]))) ∧
      (processSocketEvent cfg (pre ++ [last]) s0).2.cmdInfo.text =
        ((lastPayload E_SocketMsg.COMMAND.toInt (pre ++ [last])).map QString.fromUtf8).getD
          s0.cmdInfo.text ∧
      (processSocketEvent cfg (pre ++ [last]) s0).2.cmdInfo.returnVal =
        ((lastPayload E_SocketMsg.RETURN_VALUE.toInt (pre ++ [last])).map varFromQBytes).getD
          s0.cmdInfo.returnVal) ∧
    (unknownMsgId last.msgId →
      ∃ s', pollIteration cfg w s = Step.returned E_SocketMsg.EMPTY s' ∧
        pollUntilStopped cfg (w :: ws) s = LoopResult.returned E_SocketMsg.EMPTY s' ∧
        s' = (processSocketEvent cfg (pre ++ [last])
          (drainFanotify w (s.advance w.elapsed))).2) ∧
    (¬ unknownMsgId last.msgId →
      ∃ s', pollIteration cfg w s = Step.continue s' ∧
        pollUntilStopped cfg (w :: ws) s = pollUntilStopped cfg ws s' ∧
        s' = checkFlush cfg w.storeFault (processSocketEvent cfg (pre ++ [last])
          (drainFanotify w (s.advance w.elapsed))).2) := by
  have h1 : w.poll_num ≠ -1 := by omega
  have h2 : ¬ (cfg.assertsEnabled = true ∧ w.poll_num = 0) := by
    intro h
    omega
  have hpre : ∀ x ∈ pre, x.msgId ≠ -1 ∧ passesAssert cfg x.msgId :=
    fun x hx => hall x (List.mem_append_left _ hx)
  have hlast := hall last (List.mem_append_right _ (List.mem_singleton_self _))
  have hiter : pollIteration cfg w s = inspectSocket cfg w (drainFanotify w (s.advance w.elapsed)) := by
    simp only [pollIteration, if_neg h1, if_neg h2]
  refine ⟨?_, ?_, ?_, ?_⟩
  · intro m hmem hm
    have hlog := processMessages_logs_unknown cfg m hm (pre ++ [last]) E_SocketMsg.ENUM_END
      ((drainFanotify w (s.advance w.elapsed)).emit (Effect.receiveMessages (pre ++ [last])))
      hall hmem
    rw [hiter]
    simp only [inspectSocket, hsock, if_true, processSocketEvent, hbatch]
    split
    · next s2 heq =>
      rw [heq] at hlog
      exact hlog
    · next r s2 heq =>
      rw [heq] at hlog
      split_ifs
      · exact hlog
      · exact (checkFlush_extends_trace cfg _ _).subset hlog
  · intro s0
    obtain ⟨f1, f2, _⟩ := processMessages_fields cfg (pre ++ [last]) E_SocketMsg.ENUM_END
      (s0.emit (Effect.receiveMessages (pre ++ [last]))) hall
    exact ⟨processMessages_state cfg _ _ _ hall, f1, f2⟩
  · intro hm
    obtain ⟨s', hs', _⟩ := processMessages_unknown_last cfg last hm hlast.2 pre
      E_SocketMsg.ENUM_END
      ((drainFanotify w (s.advance w.elapsed)).emit (Effect.receiveMessages (pre ++ [last])))
      hpre
    have hstep : pollIteration cfg w s = Step.returned E_SocketMsg.EMPTY s' := by
      rw [hiter]
      simp only [inspectSocket, hsock, if_true, processSocketEvent, hbatch, hs']
    refine ⟨s', hstep, by simp only [pollUntilStopped, hstep], ?_⟩
    simp only [processSocketEvent, hs']
  · intro hm
    obtain ⟨r, s', hs', hr⟩ := processMessages_recognised_last cfg last hlast.1 hm hlast.2 pre
      E_SocketMsg.ENUM_END
      ((drainFanotify w (s.advance w.elapsed)).emit (Effect.receiveMessages (pre ++ [last])))
      hpre
    have hstep : pollIteration cfg w s = Step.continue (checkFlush cfg w.storeFault s') := by
      rw [hiter]
      simp only [inspectSocket, hsock, if_true, processSocketEvent, hbatch, hs', if_neg hr]
    refine ⟨_, hstep, by simp only [pollUntilStopped, hstep], ?_⟩
    simp only [processSocketEvent, hs']

/-- C1 (amended), instances: the batch COMMAND `ls`, then the unknown id 5, logs the
id and ends the loop; the batch unknown id 5, then COMMAND `ls`, RETURN_VALUE 3,
logs the id, sets the text `ls` and the return value 3, and continues the loop. -/
theorem unknown_message_logged_last_decides_witness :
    (Effect.log LogLevel.critical (LogMsg.invalidMessage 5) ∈
      (pollIteration cfgDebug (wakeSock [⟨1, textLs, -1⟩, ⟨5, [], -1⟩]) state0).state.trace) ∧
    (∃ s', pollIteration cfgDebug (wakeSock [⟨1, textLs, -1⟩, ⟨5, [], -1⟩]) state0
        = Step.returned E_SocketMsg.EMPTY s' ∧
      pollUntilStopped cfgDebug [wakeSock [⟨1, textLs, -1⟩, ⟨5, [], -1⟩]] state0
        = LoopResult.returned E_SocketMsg.EMPTY s' ∧
      s' = (processSocketEvent cfgDebug ([⟨1, textLs, -1⟩] ++ [⟨5, [], -1⟩])
        (drainFanotify (wakeSock [⟨1, textLs, -1⟩, ⟨5, [], -1⟩])
          (state0.advance (wakeSock [⟨1, textLs, -1⟩, ⟨5, [], -1⟩]).elapsed))).2) ∧
    (Effect.log LogLevel.critical (LogMsg.invalidMessage 5) ∈
      (pollIteration cfgDebug
        (wakeSock [⟨5, [], -1⟩, ⟨1, textLs, -1⟩, ⟨2, [3, 0, 0, 0], -1⟩]) state0).state.trace) ∧
    ((processSocketEvent cfgDebug
        ([⟨5, [], -1⟩, ⟨1, textLs, -1⟩] ++ [⟨2, [3, 0, 0, 0], -1⟩]) stateBusy).2.cmdInfo.text
      = textLs) ∧
    ((processSocketEvent cfgDebug
        ([⟨5, [], -1⟩, ⟨1, textLs, -1⟩] ++ [⟨2, [3, 0, 0, 0], -1⟩])
          stateBusy).2.cmdInfo.returnVal
      = 3) ∧
    (∃ s', pollIteration cfgDebug
          (wakeSock [⟨5, [], -1⟩, ⟨1, textLs, -1⟩, ⟨2, [3, 0, 0, 0], -1⟩]) state0
        = Step.continue s' ∧
      pollUntilStopped cfgDebug
          [wakeSock [⟨5, [], -1⟩, ⟨1, textLs, -1⟩, ⟨2, [3, 0, 0, 0], -1⟩]] state0
        = pollUntilStopped cfgDebug [] s' ∧
      s' = checkFlush cfgDebug
        (wakeSock [⟨5, [], -1⟩, ⟨1, textLs, -1⟩, ⟨2, [3, 0, 0, 0], -1⟩]).storeFault
        (processSocketEvent cfgDebug
          ([⟨5, [], -1⟩, ⟨1, textLs, -1⟩] ++ [⟨2, [3, 0, 0, 0], -1⟩])
          (drainFanotify (wakeSock [⟨5, [], -1⟩, ⟨1, textLs, -1⟩, ⟨2, [3, 0, 0, 0], -1⟩])
            (state0.advance
              (wakeSock [⟨5, [], -1⟩, ⟨1, textLs, -1⟩, ⟨2, [3, 0, 0, 0], -1⟩]).elapsed))).2) :=
  ⟨(unknown_message_logged_last_decides cfgDebug
      (wakeSock [⟨1, textLs, -1⟩, ⟨5, [], -1⟩]) [] state0 [⟨1, textLs, -1⟩] ⟨5, [], -1⟩
      (by decide) rfl rfl (by decide)).1 ⟨5, [], -1⟩ (by decide) (by decide),
   (unknown_message_logged_last_decides cfgDebug
      (wakeSock [⟨1, textLs, -1⟩, ⟨5, [], -1⟩]) [] state0 [⟨1, textLs, -1⟩] ⟨5, [], -1⟩
      (by decide) rfl rfl (by decide)).2.2.1 (by decide),
   (unknown_message_logged_last_decides cfgDebug
      (wakeSock [⟨5, [], -1⟩, ⟨1, textLs, -1⟩, ⟨2, [3, 0, 0, 0], -1⟩]) [] state0
      [⟨5, [], -1⟩, ⟨1, textLs, -1⟩] ⟨2, [3, 0, 0, 0], -1⟩
      (by decide) rfl rfl (by decide)).1 ⟨5, [], -1⟩ (by decide) (by decide),
   ((unknown_message_logged_last_decides cfgDebug
      (wakeSock [⟨5, [], -1⟩, ⟨1, textLs, -1⟩, ⟨2, [3, 0, 0, 0], -1⟩]) [] state0
      [⟨5, [], -1⟩, ⟨1, textLs, -1⟩] ⟨2, [3, 0, 0, 0], -1⟩
      (by decide) rfl rfl (by decide)).2.1 stateBusy).2.1,
   ((unknown_message_logged_last_decides cfgDebug
      (wakeSock [⟨5, [], -1⟩, ⟨1, textLs, -1⟩, ⟨2, [3, 0, 0, 0], -1⟩]) [] state0
      [⟨5, [], -1⟩, ⟨1, textLs, -1⟩] ⟨2, [3, 0, 0, 0], -1⟩
      (by decide) rfl rfl (by decide)).2.1 stateBusy).2.2,
   (unknown_message_logged_last_decides cfgDebug
      (wakeSock [⟨5, [], -1⟩, ⟨1, textLs, -1⟩, ⟨2, [3, 0, 0, 0], -1⟩]) [] state0
      [⟨5, [], -1⟩, ⟨1, textLs, -1⟩] ⟨2, [3, 0, 0, 0], -1⟩
      (by decide) rfl rfl (by decide)).2.2.2 (by decide)⟩

/-! ## C19: the peer-closed marker inside a batch -/

/-- Two states agree on everything but the trace. -/
theorem handleMessage_congr (m : SockMsg) (s1 s2 : State)
    (h1 : s1.cmdInfo = s2.cmdInfo) (h2 : s1.fEventHandler = s2.fEventHandler)
    (h3 : s1.clock = s2.clock) (h4 : s1.store = s2.store) :
    (handleMessage m s1).2.cmdInfo = (handleMessage m s2).2.cmdInfo ∧
    (handleMessage m s1).2.fEventHandler = (handleMessage m s2).2.fEventHandler ∧
    (handleMessage m s1).2.clock = (handleMessage m s2).2.clock ∧
    (handleMessage m s1).2.store = (handleMessage m s2).2.store := by
  unfold handleMessage
  split <;> simp [State.log, State.emit, h1, h2, h3, h4, FileEventHandler.clearEvents]

theorem applyMessage_congr (cfg : Config) (m : SockMsg) (s1 s2 : State)
    (h1 : s1.cmdInfo = s2.cmdInfo) (h2 : s1.fEventHandler = s2.fEventHandler)
    (h3 : s1.clock = s2.clock) (h4 : s1.store = s2.store) :
    (applyMessage cfg s1 m).cmdInfo = (applyMessage cfg s2 m).cmdInfo ∧
    (applyMessage cfg s1 m).fEventHandler = (applyMessage cfg s2 m).fEventHandler ∧
    (applyMessage cfg s1 m).clock = (applyMessage cfg s2 m).clock ∧
    (applyMessage cfg s1 m).store = (applyMessage cfg s2 m).store := by
  obtain ⟨a1, a2, a3, a4⟩ := warnIfLarge_frame cfg m s1
  obtain ⟨b1, b2, b3, b4⟩ := warnIfLarge_frame cfg m s2
  unfold applyMessage
  apply handleMessage_congr
  · simp [State.log, State.emit, a1, b1, h1]
  · simp [State.log, State.emit, a2, b2, h2]
  · simp [State.log, State.emit, a4, b4, h3]
  · simp [State.log, State.emit, a3, b3, h4]

theorem applyMessages_congr (cfg : Config) :
    ∀ (msgs : List SockMsg) (s1 s2 : State),
      s1.cmdInfo = s2.cmdInfo → s1.fEventHandler = s2.fEventHandler →
      s1.clock = s2.clock → s1.store = s2.store →
      (applyMessages cfg msgs s1).cmdInfo = (applyMessages cfg msgs s2).cmdInfo ∧
      (applyMessages cfg msgs s1).fEventHandler = (applyMessages cfg msgs s2).fEventHandler ∧
      (applyMessages cfg msgs s1).clock = (applyMessages cfg msgs s2).clock ∧
      (applyMessages cfg msgs s1).store = (applyMessages cfg msgs s2).store := by
  intro msgs
  induction msgs with
  | nil =>
    intro s1 s2 h1 h2 h3 h4
    exact ⟨h1, h2, h3, h4⟩
  | cons m rest ih =>
    intro s1 s2 h1 h2 h3 h4
    obtain ⟨a1, a2, a3, a4⟩ := applyMessage_congr cfg m s1 s2 h1 h2 h3 h4
    exact ih _ _ a1 a2 a3 a4

theorem processMessages_marker (cfg : Config) (mk : SockMsg) (post : List SockMsg)
    (hmk : mk.msgId = -1) :
    ∀ (pre : List SockMsg) (ret : E_SocketMsg) (s : State),
      (∀ m ∈ pre, m.msgId ≠ -1 ∧ passesAssert cfg m.msgId) →
      processMessages cfg (pre ++ mk :: post) ret s =
        (SockResult.returned E_SocketMsg.EMPTY,
         warnIfLarge cfg mk (applyMessages cfg pre s)) := by
  intro pre
  induction pre with
  | nil =>
    intro ret s _
    simp only [List.nil_append, processMessages, hmk, if_true, applyMessages, List.foldl_nil]
  | cons x rest ih =>
    intro ret s hpre
    have hx := hpre x (List.mem_cons_self _ _)
    rw [List.cons_append, processMessages_cons cfg x _ ret s hx.1 hx.2]
    rw [ih _ _ (fun y hy => hpre y (List.mem_cons_of_mem _ hy))]
    rfl

/-- C19: take a received batch whose first peer-closed marker (msgId = -1) stands
at position k, behind messages that pass the range assert. `processSocketEvent`
applies the effects of exactly the messages before position k, in order, and
returns EMPTY. What stands behind the marker is not applied: CommandInfo, caches
and store are the same for every tail of the batch, so a COMMAND or RETURN_VALUE
that follows the marker leaves text and returnVal as the messages before the
marker left them. -/
theorem marker_ends_batch (cfg : Config) (pre post : List SockMsg) (mk : SockMsg) (s : State)
    (hmk : mk.msgId = -1)
    (hpre : ∀ m ∈ pre, m.msgId ≠ -1 ∧ passesAssert cfg m.msgId) :
    processSocketEvent cfg (pre ++ mk :: post) s =
      (SockResult.returned E_SocketMsg.EMPTY,
       warnIfLarge cfg mk (applyMessages cfg pre
         (s.emit (Effect.receiveMessages (pre ++ mk :: post))))) ∧
    (processSocketEvent cfg (pre ++ mk :: post) s).2.cmdInfo = (applyMessages cfg pre s).cmdInfo ∧
    (processSocketEvent cfg (pre ++ mk :: post) s).2.fEventHandler
      = (applyMessages cfg pre s).fEventHandler ∧
    (processSocketEvent cfg (pre ++ mk :: post) s).2.store = (applyMessages cfg pre s).store ∧
    (processSocketEvent cfg (pre ++ mk :: post) s).2.cmdInfo.text
      = (processSocketEvent cfg (pre ++ [mk]) s).2.cmdInfo.text ∧
    (processSocketEvent cfg (pre ++ mk :: post) s).2.cmdInfo.returnVal
      = (processSocketEvent cfg (pre ++ [mk]) s).2.cmdInfo.returnVal := by
  have key : ∀ tail : List SockMsg,
      processSocketEvent cfg (pre ++ mk :: tail) s =
        (SockResult.returned E_SocketMsg.EMPTY,
         warnIfLarge cfg mk (applyMessages cfg pre
           (s.emit (Effect.receiveMessages (pre ++ mk :: tail))))) := by
    intro tail
    unfold processSocketEvent
    exact processMessages_marker cfg mk tail hmk pre _ _ hpre
  have frame : ∀ tail : List SockMsg,
      (processSocketEvent cfg (pre ++ mk :: tail) s).2.cmdInfo
        = (applyMessages cfg pre s).cmdInfo ∧
      (processSocketEvent cfg (pre ++ mk :: tail) s).2.fEventHandler
        = (applyMessages cfg pre s).fEventHandler ∧
      (processSocketEvent cfg (pre ++ mk :: tail) s).2.store
        = (applyMessages cfg pre s).store := by
    intro tail
    rw [key tail]
    obtain ⟨w1, w2, w3, _⟩ := warnIfLarge_frame cfg mk (applyMessages cfg pre
      (s.emit (Effect.receiveMessages (pre ++ mk :: tail))))
    obtain ⟨c1, c2, _, c4⟩ := applyMessages_congr cfg pre
      (s.emit (Effect.receiveMessages (pre ++ mk :: tail))) s rfl rfl rfl rfl
    exact ⟨by rw [w1, c1], by rw [w2, c2], by rw [w3, c4]⟩
  refine ⟨key post, (frame post).1, (frame post).2.1, (frame post).2.2, ?_, ?_⟩
  · rw [(frame post).1, (frame []).1]
  · rw [(frame post).1, (frame []).1]

/-- C19, instance: COMMAND `ls`, marker, COMMAND `x`, RETURN_VALUE 7: the call
returns EMPTY, the text is `ls` and the return value is untouched. -/
theorem marker_ends_batch_witness :
    (processSocketEvent cfgDebug
      ([⟨1, textLs, -1⟩] ++ msgClosed :: [⟨1, [120], -1⟩, ⟨2, [7, 0, 0, 0], -1⟩]) state0).1
        = SockResult.returned E_SocketMsg.EMPTY ∧
    (processSocketEvent cfgDebug
      ([⟨1, textLs, -1⟩] ++ msgClosed :: [⟨1, [120], -1⟩, ⟨2, [7, 0, 0, 0], -1⟩]) state0).2.cmdInfo
        = { state0.cmdInfo with text := textLs } := by
  obtain ⟨h1, h2, _⟩ := marker_ends_batch cfgDebug [⟨1, textLs, -1⟩]
    [⟨1, [120], -1⟩, ⟨2, [7, 0, 0, 0], -1⟩] msgClosed state0 rfl (by decide)
  refine ⟨by rw [h1], ?_⟩
  rw [h2]
  decide

/-! ## C11: a second flush adds no rows -/

theorem flushToDisk_none_id (s : State) :
    (flushToDisk none s).cmdInfo.idInDb ≠ INVALID_INT_ID := by
  by_cases hid : s.cmdInfo.idInDb = INVALID_INT_ID
  · rw [flushToDisk_insert s hid]
    simp only [INVALID_INT_ID]
    omega
  · rw [flushToDisk_update s hid]
    exact hid

theorem storeCommand_update_rows (s : State) (h : s.cmdInfo.idInDb ≠ INVALID_INT_ID) :
    (storeCommand s).store.cmd.length = s.store.cmd.length ∧
    (storeCommand s).store.nextId = s.store.nextId ∧
    (storeCommand s).trace = s.trace ++ [Effect.updateCommand s.cmdInfo] := by
  simp [storeCommand, h, Store.updateCommand]

theorem flushToDisk_valid_id_rows (fault : Option StoreStep) (s : State)
    (h : s.cmdInfo.idInDb ≠ INVALID_INT_ID)
    (hc : s.fEventHandler = { writeEvents := [], readEvents := [] }) :
    (flushToDisk fault s).store.cmd.length = s.store.cmd.length ∧
    (flushToDisk fault s).store.nextId = s.store.nextId ∧
    (flushToDisk fault s).store.writtenFile = s.store.writtenFile ∧
    (flushToDisk fault s).store.readFile = s.store.readFile ∧
    (∀ e ∈ (flushToDisk fault s).trace.drop s.trace.length, e.isAddCommand = false) := by
  have hf : flushCommand s = s.cmdInfo := by
    unfold flushCommand
    rw [if_neg (fun hh => h hh.1)]
  have hs : ({ s with cmdInfo := flushCommand s } : State) = s := by
    rw [hf]
  obtain ⟨u1, u2, u3⟩ := storeCommand_update_rows s h
  obtain ⟨_, _, f3, f4⟩ := storeCommand_frame s
  rcases fault with _ | _ | _ | _
  · rw [flushToDisk_update s h]
    simp [Store.addFileEvents, Store.updateCommand, hc, Effect.isAddCommand]
  · rw [flushToDisk_some, hs]
    simp [State.log, State.emit, Effect.isAddCommand]
  · rw [flushToDisk_some, hs]
    simp [State.log, State.emit, u1, u2, u3, f3, f4, Effect.isAddCommand]
  · rw [flushToDisk_some, hs]
    simp [State.log, State.emit, u1, u2, u3, f3, f4, Effect.isAddCommand]

/-- C11: for every CommandInfo and every content of the caches, a second call of
`flushToDisk` right after a first one (the first has cleared the caches, no event
arrived in between) adds no rows: it inserts no further command row, it calls
`updateCommand` for the command with the id the first call left in `idInDb`, and
its `addFileEvents` carries no event, so zero read and zero written file rows
are added. The same holds when a store call of the second flush throws. -/
theorem second_flush_adds_no_rows (s : State) :
    (flushToDisk none s).cmdInfo.idInDb ≠ INVALID_INT_ID ∧
    (flushToDisk none (flushToDisk none s)).trace =
      (flushToDisk none s).trace ++
        [Effect.updateCommand (flushToDisk none s).cmdInfo, Effect.mkpath,
         Effect.addFileEvents (flushToDisk none s).cmdInfo.idInDb [] []] ∧
    (flushToDisk none (flushToDisk none s)).cmdInfo = (flushToDisk none s).cmdInfo ∧
    (∀ later : Option StoreStep,
      (flushToDisk later (flushToDisk none s)).store.cmd.length
        = (flushToDisk none s).store.cmd.length ∧
      (flushToDisk later (flushToDisk none s)).store.nextId
        = (flushToDisk none s).store.nextId ∧
      (flushToDisk later (flushToDisk none s)).store.writtenFile
        = (flushToDisk none s).store.writtenFile ∧
      (flushToDisk later (flushToDisk none s)).store.readFile
        = (flushToDisk none s).store.readFile ∧
      (∀ e ∈ (flushToDisk later (flushToDisk none s)).trace.drop
          (flushToDisk none s).trace.length, e.isAddCommand = false)) := by
  have hid := flushToDisk_none_id s
  have hc := flushToDisk_caches none s
  refine ⟨hid, ?_, ?_, fun later => flushToDisk_valid_id_rows later _ hid hc⟩
  · rw [flushToDisk_update _ hid, hc]
  · rw [flushToDisk_update _ hid]

/-- C11, instance: two flushes of a command with three cached write events leave
one command row and three written file rows. -/
theorem second_flush_adds_no_rows_example :
    (flushToDisk none (flushToDisk none
      { state0 with fEventHandler :=
          { writeEvents := [writeEvt 1, writeEvt 2, writeEvt 3], readEvents := [] } })).store
      = (flushToDisk none
      { state0 with fEventHandler :=
          { writeEvents := [writeEvt 1, writeEvt 2, writeEvt 3], readEvents := [] } }).store ∧
    (flushToDisk none (flushToDisk none
      { state0 with fEventHandler :=
          { writeEvents := [writeEvt 1, writeEvt 2, writeEvt 3], readEvents := [] } })).store.cmd.length
      = 1 ∧
    (flushToDisk none (flushToDisk none
      { state0 with fEventHandler :=
          { writeEvents := [writeEvt 1, writeEvt 2, writeEvt 3], readEvents := [] } })).store.writtenFile.length
      = 3 := by
  decide

/-! ## C17: the socket-mode handshake -/

theorem drainFanotify_frame (w : Wakeup) (s : State) :
    (drainFanotify w s).cmdInfo = s.cmdInfo ∧ (drainFanotify w s).clock = s.clock ∧
    (drainFanotify w s).store = s.store := by
  unfold drainFanotify
  split_ifs <;> exact ⟨rfl, rfl, rfl⟩

theorem pollIteration_socketOk (cfg : Config) (w : Wakeup) (s : State) (hw : w.socketOk) :
    pollIteration cfg w s =
      match processSocketEvent cfg w.sockMsgs (drainFanotify w (s.advance w.elapsed)) with
      | (SockResult.assertFailed, s2) => Step.aborted s2
      | (SockResult.returned r, s2) =>
        if r = E_SocketMsg.EMPTY then Step.returned E_SocketMsg.EMPTY s2
        else Step.continue (checkFlush cfg none s2) := by
  obtain ⟨h1, h2, h3⟩ := hw
  have p1 : w.poll_num ≠ -1 := by omega
  have p2 : ¬ (cfg.assertsEnabled = true ∧ w.poll_num = 0) := by
    intro h
    omega
  simp only [pollIteration, if_neg p1, if_neg p2, inspectSocket, h2, if_true, h3]

theorem pollIteration_marker (cfg : Config) (w : Wakeup) (s : State) (hw : w.socketOk)
    (pre post : List SockMsg) (mk : SockMsg) (hmk : mk.msgId = -1)
    (hmsgs : w.sockMsgs = pre ++ mk :: post)
    (hpre : ∀ m ∈ pre, recognisedMsgId m.msgId) :
    ∃ s', pollIteration cfg w s = Step.returned E_SocketMsg.EMPTY s' ∧
      s'.cmdInfo = (applyMessages cfg pre (drainFanotify w (s.advance w.elapsed))).cmdInfo ∧
      s'.clock = (applyMessages cfg pre (drainFanotify w (s.advance w.elapsed))).clock := by
  have hpre2 : ∀ m ∈ pre, m.msgId ≠ -1 ∧ passesAssert cfg m.msgId := by
    intro m hm
    have := recognised_passes cfg m.msgId (hpre m hm)
    exact ⟨this.1, this.2.1⟩
  have hproc := processMessages_marker cfg mk post hmk pre E_SocketMsg.ENUM_END
    ((drainFanotify w (s.advance w.elapsed)).emit (Effect.receiveMessages (pre ++ mk :: post)))
    hpre2
  obtain ⟨w1, _, _, w4⟩ := warnIfLarge_frame cfg mk (applyMessages cfg pre
    ((drainFanotify w (s.advance w.elapsed)).emit
      (Effect.receiveMessages (pre ++ mk :: post))))
  obtain ⟨c1, _, c3, _⟩ := applyMessages_congr cfg pre
    ((drainFanotify w (s.advance w.elapsed)).emit
      (Effect.receiveMessages (pre ++ mk :: post)))
    (drainFanotify w (s.advance w.elapsed)) rfl rfl rfl rfl
  refine ⟨warnIfLarge cfg mk (applyMessages cfg pre
    ((drainFanotify w (s.advance w.elapsed)).emit
      (Effect.receiveMessages (pre ++ mk :: post)))), ?_, by rw [w1, c1], by rw [w4, c3]⟩
  rw [pollIteration_socketOk cfg w s hw, hmsgs]
  simp only [processSocketEvent, hproc, if_true]

theorem checkFlush_cmdInfo (cfg : Config) (fault : Option StoreStep) (s : State) :
    (checkFlush cfg fault s).cmdInfo.text = s.cmdInfo.text ∧
    (checkFlush cfg fault s).cmdInfo.returnVal = s.cmdInfo.returnVal := by
  unfold checkFlush
  split_ifs
  · rw [flushToDisk_cmdInfo]
    have hf : flushCommand (s.log LogLevel.info LogMsg.flushingToDisk) = flushCommand s := rfl
    rw [hf]
    unfold flushCommand
    split_ifs <;> exact ⟨rfl, rfl⟩
  · exact ⟨rfl, rfl⟩

theorem pollIteration_command (cfg : Config) (w : Wakeup) (s : State) (hw : w.socketOk)
    (mc : SockMsg) (hc : mc.msgId = E_SocketMsg.COMMAND.toInt) (hmsgs : w.sockMsgs = [mc]) :
    ∃ s', pollIteration cfg w s = Step.continue s' ∧
      s'.cmdInfo.text = QString.fromUtf8 mc.bytes ∧
      s'.cmdInfo.returnVal = s.cmdInfo.returnVal := by
  have hrec : recognisedMsgId mc.msgId := Or.inl hc
  obtain ⟨h1, h2, _⟩ := recognised_passes cfg mc.msgId hrec
  have hid : mc.msgId = 1 := hc
  have hpm : processSocketEvent cfg [mc] (drainFanotify w (s.advance w.elapsed)) =
      (SockResult.returned E_SocketMsg.COMMAND,
       applyMessage cfg ((drainFanotify w (s.advance w.elapsed)).emit
         (Effect.receiveMessages [mc])) mc) := by
    unfold processSocketEvent
    rw [processMessages_cons cfg mc [] _ _ h1 h2]
    have hret : (handleMessage mc ((warnIfLarge cfg mc
        ((drainFanotify w (s.advance w.elapsed)).emit (Effect.receiveMessages [mc]))).log
          LogLevel.debug (LogMsg.receivedMessage mc.msgId))).1 = E_SocketMsg.COMMAND := by
      simp [handleMessage, E_SocketMsg.ofInt, hid]
    rw [hret]
    simp [processMessages]
  have hci := applyMessage_recognised_cmdInfo cfg mc
    ((drainFanotify w (s.advance w.elapsed)).emit (Effect.receiveMessages [mc])) hrec
  obtain ⟨d1, _, _⟩ := drainFanotify_frame w (s.advance w.elapsed)
  obtain ⟨f1, f2⟩ := checkFlush_cmdInfo cfg none
    (applyMessage cfg ((drainFanotify w (s.advance w.elapsed)).emit
      (Effect.receiveMessages [mc])) mc)
  refine ⟨checkFlush cfg none (applyMessage cfg ((drainFanotify w (s.advance w.elapsed)).emit
    (Effect.receiveMessages [mc])) mc), ?_, ?_, ?_⟩
  · rw [pollIteration_socketOk cfg w s hw, hmsgs, hpm]
    simp
  · rw [f1, hci]
    simp [hc]
  · rw [f2, hci]
    simp only [hid, E_SocketMsg.toInt, State.emit]
    rw [if_neg (by decide), d1]
    rfl

theorem flushToDisk_none_stored (s : State) :
    ∃ tail, (flushToDisk none s).trace = s.trace ++ tail ∧
      storedCommands tail = [flushCommand s] := by
  by_cases hid : s.cmdInfo.idInDb = INVALID_INT_ID
  · rw [flushToDisk_insert s hid]
    exact ⟨_, rfl, by simp [storedCommands, Effect.command?]⟩
  · rw [flushToDisk_update s hid]
    have hf : flushCommand s = s.cmdInfo := by
      unfold flushCommand
      rw [if_neg (fun hh => hid hh.1)]
    exact ⟨_, rfl, by simp [storedCommands, Effect.command?, hf]⟩

theorem finalFlush_records (cfg : Config) (ret : Int) (s : State)
    (htext : s.cmdInfo.text ≠ []) :
    ∃ s', finalFlush cfg none ret s = RunResult.exited ret s' ∧
      storedCommands (s'.trace.drop s.trace.length) = [flushCommand s] := by
  have hkeep : ¬ (s.cmdInfo.text.isEmpty = true ∧ s.cmdInfo.idInDb = INVALID_INT_ID) := by
    intro h
    exact htext (by simpa using h.1)
  unfold finalFlush
  rw [if_neg hkeep]
  split_ifs
  · obtain ⟨tail, ht, hc⟩ := flushToDisk_none_stored (s.log LogLevel.debug LogMsg.missingFields)
    refine ⟨_, rfl, ?_⟩
    rw [ht]
    simp only [State.log, State.emit, List.append_assoc, List.drop_left]
    simp only [storedCommands, List.singleton_append, List.filterMap_cons, Effect.command?]
    exact hc
  · obtain ⟨tail, ht, hc⟩ := flushToDisk_none_stored s
    refine ⟨_, rfl, ?_⟩
    rw [ht, List.drop_left]
    exact hc

theorem runFinish_records (cfg : Config) (dt : Nat) (ret : Int) (s : State)
    (htext : s.cmdInfo.text ≠ []) :
    ∃ s', runFinish cfg dt none E_SocketMsg.EMPTY ret s = RunResult.exited ret s' ∧
      storedCommands (s'.trace.drop s.trace.length) =
        [{ s.cmdInfo with endTime := some (s.clock + dt) }] := by
  obtain ⟨s', h1, h2⟩ := finalFlush_records cfg ret (s.advance dt).setEndTime htext
  refine ⟨s', ?_, ?_⟩
  · simp only [runFinish, h1]
  · rw [flushCommand_setEndTime] at h2
    exact h2

/-- C17 (counterexample): in socket mode the shell sends COMMAND with an empty text
and closes the socket. The loop ends with EMPTY and `run` exits with 0, but the
command is discarded: no record is handed to the store. The same happens for
the payload that is one NUL byte, whose text is empty. With a non-empty text
and a store that fails on the command of the terminal flush, the loop also ends
with EMPTY and `run` exits with 0, and the store holds no command row. -/
theorem empty_command_text_is_discarded :
    (runLoop cfgDebug fwSocket envHandshakeEmptyText).result = some E_SocketMsg.EMPTY ∧
    (run cfgDebug fwSocket envHandshakeEmptyText).exitCode = some 0 ∧
    storedCommands (run cfgDebug fwSocket envHandshakeEmptyText).state.trace = [] ∧
    (run cfgDebug fwSocket envHandshakeEmptyText).state.store.cmd = [] ∧
    (runLoop cfgDebug fwSocket
      { envPlain with wakeups := [wakeSock [⟨1, [0], -1⟩, msgClosed]] }).result
        = some E_SocketMsg.EMPTY ∧
    (run cfgDebug fwSocket
      { envPlain with wakeups := [wakeSock [⟨1, [0], -1⟩, msgClosed]] }).exitCode
        = some 0 ∧
    storedCommands (run cfgDebug fwSocket
      { envPlain with wakeups := [wakeSock [⟨1, [0], -1⟩, msgClosed]] }).state.trace
        = [] ∧
    (runLoop cfgDebug fwSocket
      { envHandshakeOneBatch with terminalFault := some StoreStep.command }).result
        = some E_SocketMsg.EMPTY ∧
    (run cfgDebug fwSocket
      { envHandshakeOneBatch with terminalFault := some StoreStep.command }).exitCode
        = some 0 ∧
    (run cfgDebug fwSocket
      { envHandshakeOneBatch with terminalFault := some StoreStep.command }).state.store.cmd
        = [] := by
  decide

/-- C17 (amended): in socket mode, for every COMMAND payload whose text t (the
payload as the assignment to a `QString` converts it, `QString::fromUtf8`) is
not empty: if the shell sends this COMMAND and then closes the socket (COMMAND
and the peer-closed marker in one received batch, or on two wakeups), and the
terminal flush meets no store failure, then the loop terminates with the normal
status EMPTY, the terminal flush hands exactly one command record to the store,
with text t and `returnVal = INVALID_RETURN_VAL`, and `run` exits with code 0.
For a payload of US-ASCII bytes without NUL, t is the payload. -/
theorem socket_handshake_records_command (cfg : Config) (fw : FileWatcher) (env : RunEnv)
    (mc mk : SockMsg)
    (hmode : fw.m_commandArgc = 0) (hfd : fw.m_sockFd ≠ -1)
    (hc : mc.msgId = E_SocketMsg.COMMAND.toInt) (hk : mk.msgId = -1)
    (ht : QString.fromUtf8 mc.bytes ≠ []) (hterm : env.terminalFault = none)
    (hshape : (∃ w, env.wakeups = [w] ∧ w.socketOk ∧ w.sockMsgs = [mc, mk]) ∨
      (∃ w1 w2, env.wakeups = [w1, w2] ∧ w1.socketOk ∧ w2.socketOk ∧
        w1.sockMsgs = [mc] ∧ w2.sockMsgs = [mk])) :
    ∃ s s' c, runLoop cfg fw env = LoopResult.returned E_SocketMsg.EMPTY s ∧
      run cfg fw env = RunResult.exited 0 s' ∧
      storedCommands (s'.trace.drop s.trace.length) = [c] ∧
      c.text = QString.fromUtf8 mc.bytes ∧
      ((∀ b ∈ mc.bytes, 0 < b ∧ b < 128) → c.text = mc.bytes) ∧
      c.returnVal = cfg.INVALID_RETURN_VAL := by
  have hloop : runLoop cfg fw env = pollUntilStopped cfg env.wakeups (socketStart cfg fw env) := by
    simp [runLoop, hmode, hfd]
  have hret : runRet fw env = 0 := by
    simp [runRet, hmode, hfd]
  have hstart : (socketStart cfg fw env).cmdInfo.returnVal = cfg.INVALID_RETURN_VAL := rfl
  have hrec : recognisedMsgId mc.msgId := Or.inl hc
  have key : ∃ s, runLoop cfg fw env = LoopResult.returned E_SocketMsg.EMPTY s ∧
      s.cmdInfo.text = QString.fromUtf8 mc.bytes ∧
      s.cmdInfo.returnVal = cfg.INVALID_RETURN_VAL := by
    rcases hshape with ⟨w, hw, hok, hmsgs⟩ | ⟨w1, w2, hw, hok1, hok2, hm1, hm2⟩
    · obtain ⟨s1, hs1, hci, _⟩ := pollIteration_marker cfg w (socketStart cfg fw env) hok
        [mc] [] mk hk (by rw [hmsgs]; rfl)
        (fun m hm => by rw [List.mem_singleton.mp hm]; exact hrec)
      refine ⟨s1, ?_, ?_, ?_⟩
      · rw [hloop, hw]
        simp only [pollUntilStopped, hs1]
      · rw [hci]
        simp only [applyMessages, List.foldl_cons, List.foldl_nil]
        rw [applyMessage_recognised_cmdInfo cfg mc _ hrec]
        simp [hc]
      · rw [hci]
        simp only [applyMessages, List.foldl_cons, List.foldl_nil]
        rw [applyMessage_recognised_cmdInfo cfg mc _ hrec]
        have hne : ¬ (mc.msgId = E_SocketMsg.RETURN_VALUE.toInt) := by
          rw [hc]
          decide
        simp only [if_neg hne, (drainFanotify_frame w _).1]
        rfl
    · obtain ⟨s1, hs1, t1, r1⟩ := pollIteration_command cfg w1 (socketStart cfg fw env) hok1
        mc hc hm1
      obtain ⟨s2, hs2, hci, _⟩ := pollIteration_marker cfg w2 s1 hok2
        [] [] mk hk (by rw [hm2]; rfl) (fun m hm => by cases hm)
      refine ⟨s2, ?_, ?_, ?_⟩
      · rw [hloop, hw]
        simp only [pollUntilStopped, hs1, hs2]
      · rw [hci]
        simp only [applyMessages, List.foldl_nil, (drainFanotify_frame w2 _).1]
        exact t1
      · rw [hci]
        simp only [applyMessages, List.foldl_nil, (drainFanotify_frame w2 _).1]
        rw [← hstart, ← r1]
        rfl
  obtain ⟨s, hs, htext, hrv⟩ := key
  obtain ⟨s', hs', hstored⟩ := runFinish_records cfg env.elapsedEnd 0 s (by rw [htext]; exact ht)
  refine ⟨s, s', _, hs, ?_, hstored, htext, ?_, hrv⟩
  · simp only [run, hs, hterm, hret, hs']
  · intro hascii
    exact htext.trans (fromUtf8_ascii mc.bytes hascii)

/-- C17 (amended), instances: the text `ls` with the marker in the same batch and
on a second wakeup. -/
theorem socket_handshake_records_command_witness :
    (∃ s s' c, runLoop cfgDebug fwSocket envHandshakeOneBatch
        = LoopResult.returned E_SocketMsg.EMPTY s ∧
      run cfgDebug fwSocket envHandshakeOneBatch = RunResult.exited 0 s' ∧
      storedCommands (s'.trace.drop s.trace.length) = [c] ∧
      c.text = textLs ∧
      ((∀ b ∈ textLs, 0 < b ∧ b < 128) → c.text = textLs) ∧
      c.returnVal = cfgDebug.INVALID_RETURN_VAL) ∧
    (∃ s s' c, runLoop cfgDebug fwSocket envHandshakeTwoWakeups
        = LoopResult.returned E_SocketMsg.EMPTY s ∧
      run cfgDebug fwSocket envHandshakeTwoWakeups = RunResult.exited 0 s' ∧
      storedCommands (s'.trace.drop s.trace.length) = [c] ∧
      c.text = textLs ∧
      ((∀ b ∈ textLs, 0 < b ∧ b < 128) → c.text = textLs) ∧
      c.returnVal = cfgDebug.INVALID_RETURN_VAL) :=
  ⟨socket_handshake_records_command cfgDebug fwSocket envHandshakeOneBatch
      ⟨1, textLs, -1⟩ msgClosed rfl (by decide) rfl rfl (by decide) rfl
      (Or.inl ⟨wakeSock [⟨1, textLs, -1⟩, msgClosed], rfl, by decide, rfl⟩),
   socket_handshake_records_command cfgDebug fwSocket envHandshakeTwoWakeups
      ⟨1, textLs, -1⟩ msgClosed rfl (by decide) rfl rfl (by decide) rfl
      (Or.inr ⟨wakeSock [⟨1, textLs, -1⟩], wakeSock [msgClosed], rfl, by decide, by decide,
        rfl, rfl⟩)⟩

/-! ## C12: the write events of a command-mode run -/

theorem cachedWrites_append (l1 l2 : List Effect) :
    cachedWrites (l1 ++ l2) = cachedWrites l1 ++ cachedWrites l2 := by
  induction l1 with
  | nil => rfl
  | cons e es ih => simp [cachedWrites, ih]

theorem handedWrites_append (l1 l2 : List Effect) :
    handedWrites (l1 ++ l2) = handedWrites l1 ++ handedWrites l2 := by
  induction l1 with
  | nil => rfl
  | cons e es ih => simp [handedWrites, ih]

theorem fileEventsIds_append (l1 l2 : List Effect) :
    fileEventsIds (l1 ++ l2) = fileEventsIds l1 ++ fileEventsIds l2 := by
  simp [fileEventsIds]

theorem handedWrites_of_no_ids (tr : List Effect) (h : fileEventsIds tr = []) :
    handedWrites tr = [] := by
  induction tr with
  | nil => rfl
  | cons e es ih =>
    cases e <;> simp_all [fileEventsIds, handedWrites, Effect.fileEventsId?,
      Effect.handedWrites]

/-- An external call that neither caches nor hands over events. -/
theorem writesInvariant_emit (base : List (Int × FileWriteEvent)) (t0 : Bytes) (s : State)
    (e : Effect) (h1 : e.cachedWrites = []) (h2 : e.handedWrites = [])
    (h3 : e.fileEventsId? = none) (h : s.writesInvariant base t0) :
    (s.emit e).writesInvariant base t0 := by
  unfold State.writesInvariant at h ⊢
  simpa [State.emit, cachedWrites_append, handedWrites_append, fileEventsIds_append,
    cachedWrites, handedWrites, fileEventsIds, h1, h2, h3] using h

theorem flushCommand_text (s : State) : (flushCommand s).text = s.cmdInfo.text := by
  unfold flushCommand
  split_ifs <;> rfl

theorem flush_tail_writes (e : Effect) (id : Int) (ws : List FileWriteEvent)
    (rs : List FileReadEvent) (h1 : e.cachedWrites = []) (h2 : e.handedWrites = [])
    (h3 : e.fileEventsId? = none) :
    cachedWrites [e, Effect.mkpath, Effect.addFileEvents id ws rs] = [] ∧
    handedWrites [e, Effect.mkpath, Effect.addFileEvents id ws rs] = ws ∧
    fileEventsIds [e, Effect.mkpath, Effect.addFileEvents id ws rs] = [id] := by
  refine ⟨?_, ?_, ?_⟩
  · simp only [cachedWrites, h1]
    rfl
  · simp only [handedWrites, h2]
    simp [Effect.handedWrites]
  · simp only [fileEventsIds, List.filterMap_cons, h3]
    simp [Effect.fileEventsId?]

theorem flushToDisk_writesInvariant (base : List (Int × FileWriteEvent)) (t0 : Bytes)
    (s : State) (h : s.writesInvariant base t0) :
    (flushToDisk none s).writesInvariant base t0 ∧
    handedWrites (flushToDisk none s).trace = cachedWrites (flushToDisk none s).trace ∧
    handedWrites (flushToDisk none s).trace
      = handedWrites s.trace ++ s.fEventHandler.writeEvents ∧
    fileEventsIds (flushToDisk none s).trace =
      fileEventsIds s.trace ++ [(flushToDisk none s).cmdInfo.idInDb] := by
  obtain ⟨ha, hb, hc, he⟩ := h
  by_cases hid : s.cmdInfo.idInDb = INVALID_INT_ID
  · have hno : fileEventsIds s.trace = [] := by
      rw [List.eq_nil_iff_forall_not_mem]
      intro id hmem
      obtain ⟨h1, h2⟩ := hb id hmem
      exact h2 (h1.trans hid)
    have hh : handedWrites s.trace = [] := handedWrites_of_no_ids _ hno
    obtain ⟨t1, t2, t3⟩ := flush_tail_writes
      (Effect.addCommand (flushCommand s) (s.store.nextId : Int)) (s.store.nextId : Int)
      s.fEventHandler.writeEvents s.fEventHandler.readEvents rfl rfl rfl
    rw [flushToDisk_insert s hid]
    unfold State.writesInvariant
    refine ⟨⟨?_, ?_, ?_, ?_⟩, ?_, ?_, ?_⟩
    · simp only [cachedWrites_append, handedWrites_append, t1, t2, List.append_nil]
      exact ha
    · simp only [fileEventsIds_append, t3, hno, List.nil_append]
      intro id hmem
      rw [List.mem_singleton] at hmem
      subst hmem
      refine ⟨rfl, ?_⟩
      simp only [INVALID_INT_ID]
      omega
    · simp only [handedWrites_append, t2, hh, List.nil_append]
      simp [Store.addFileEvents, Store.addCommand, hc, hh]
    · exact (flushCommand_text s).trans he
    · simp only [cachedWrites_append, handedWrites_append, t1, t2, List.append_nil]
      exact ha.symm
    · simp only [handedWrites_append, t2]
    · simp only [fileEventsIds_append, t3]
  · obtain ⟨t1, t2, t3⟩ := flush_tail_writes
      (Effect.updateCommand s.cmdInfo) s.cmdInfo.idInDb
      s.fEventHandler.writeEvents s.fEventHandler.readEvents rfl rfl rfl
    rw [flushToDisk_update s hid]
    unfold State.writesInvariant
    refine ⟨⟨?_, ?_, ?_, he⟩, ?_, ?_, ?_⟩
    · simp only [cachedWrites_append, handedWrites_append, t1, t2, List.append_nil]
      exact ha
    · simp only [fileEventsIds_append, t3]
      intro id hmem
      rw [List.mem_append, List.mem_singleton] at hmem
      rcases hmem with hmem | hmem
      · exact hb id hmem
      · subst hmem
        exact ⟨rfl, hid⟩
    · simp only [handedWrites_append, t2]
      simp [Store.addFileEvents, Store.updateCommand, hc]
    · simp only [cachedWrites_append, handedWrites_append, t1, t2, List.append_nil]
      exact ha.symm
    · simp only [handedWrites_append, t2]
    · simp only [fileEventsIds_append, t3]

theorem flushInvariant_emit (base : List (Int × FileWriteEvent)) (t0 : Bytes) (s : State)
    (e : Effect) (h1 : e.cachedWrites = []) (h2 : e.handedWrites = [])
    (h3 : e.fileEventsId? = none) (h4 : e ≠ Effect.log LogLevel.info LogMsg.flushingToDisk)
    (h : s.flushInvariant base t0) : (s.emit e).flushInvariant base t0 := by
  refine ⟨writesInvariant_emit base t0 s e h1 h2 h3 h.1, ?_⟩
  rw [flushCount_emit s e h4]
  have h5 : fileEventsIds [e] = [] := by
    simp only [fileEventsIds, List.filterMap_cons, h3, List.filterMap_nil]
  simp only [State.emit, fileEventsIds_append, h5, List.append_nil]
  exact h.2

theorem handleMessage_marker_state (m : SockMsg) (s : State) (h : m.msgId = -1) :
    (handleMessage m s).2 = s.emit (Effect.log LogLevel.critical (LogMsg.invalidMessage m.msgId)) := by
  simp [handleMessage, E_SocketMsg.ofInt, h, State.log]

theorem processSocketEvent_flushInvariant (cfg : Config) (base : List (Int × FileWriteEvent))
    (t0 : Bytes) (msgs : List SockMsg) (s : State) (hm : ∀ m ∈ msgs, m.msgId = -1)
    (h : s.flushInvariant base t0) :
    (processSocketEvent cfg msgs s).2.flushInvariant base t0 := by
  unfold processSocketEvent
  refine processMessages_induction cfg (State.flushInvariant base t0) (fun m => m.msgId = -1)
    ?_ ?_ msgs _ _ hm (flushInvariant_emit base t0 s _ rfl rfl rfl (by simp) h)
  · intro m s0 h0
    unfold warnIfLarge
    split_ifs
    · exact flushInvariant_emit base t0 s0 _ rfl rfl rfl (by simp) h0
    · exact h0
  · intro m s0 hq h0
    rw [handleMessage_marker_state m _ hq]
    exact flushInvariant_emit base t0 _ _ rfl rfl rfl (by simp)
      (flushInvariant_emit base t0 s0 (Effect.log LogLevel.debug (LogMsg.receivedMessage m.msgId))
        rfl rfl rfl (by simp) h0)

theorem checkFlush_flushInvariant (cfg : Config) (base : List (Int × FileWriteEvent))
    (t0 : Bytes) (s : State) (h : s.flushInvariant base t0) :
    (checkFlush cfg none s).flushInvariant base t0 := by
  have hcount := checkFlush_flushCount cfg none s
  refine ⟨?_, ?_⟩
  · unfold checkFlush
    split_ifs
    · exact (flushToDisk_writesInvariant base t0 _
        (writesInvariant_emit base t0 s (Effect.log LogLevel.info LogMsg.flushingToDisk)
          rfl rfl rfl h.1)).1
    · exact h.1
  · rw [hcount]
    unfold checkFlush
    split_ifs
    · have hids := (flushToDisk_writesInvariant base t0 _
        (writesInvariant_emit base t0 s (Effect.log LogLevel.info LogMsg.flushingToDisk)
          rfl rfl rfl h.1)).2.2.2
      have h5 : fileEventsIds [Effect.log LogLevel.info LogMsg.flushingToDisk] = [] := rfl
      simp only [State.log] at hids ⊢
      rw [hids]
      simp only [State.emit, fileEventsIds_append, h5, List.append_nil, List.length_append,
        List.length_singleton]
      rw [h.2]
    · simpa using h.2

theorem pollIteration_flushInvariant (cfg : Config) (base : List (Int × FileWriteEvent))
    (t0 : Bytes) (w : Wakeup) (s : State) (hf : w.storeFault = none)
    (hm : ∀ m ∈ w.sockMsgs, m.msgId = -1) (h : s.flushInvariant base t0) :
    (pollIteration cfg w s).state.flushInvariant base t0 := by
  refine pollIteration_induction cfg (State.flushInvariant base t0) w ?_ ?_ ?_ ?_ ?_ s h
  · intro s0 h0
    exact h0
  · intro s0 h0
    exact flushInvariant_emit base t0 s0 _ rfl rfl rfl (by simp) h0
  · intro s0 h0
    unfold drainFanotify
    split_ifs
    · obtain ⟨⟨a, b, c, e⟩, d⟩ := h0
      refine ⟨⟨?_, ?_, ?_, e⟩, ?_⟩
      · simp only [handleEvents, State.emit, cachedWrites_append, handedWrites_append,
          FileEventHandler.insertEvents]
        simp only [cachedWrites, handedWrites, Effect.cachedWrites, Effect.handedWrites,
          List.append_nil]
        rw [a, List.append_assoc]
      · simpa [handleEvents, State.emit, fileEventsIds, Effect.fileEventsId?] using b
      · simpa [handleEvents, State.emit, handedWrites_append, handedWrites,
          Effect.handedWrites] using c
      · have hc := flushCount_emit s0 (Effect.handleEvents w.fanWrites w.fanReads) (by simp)
        simp only [State.emit] at hc
        simp only [handleEvents, State.emit, hc]
        simpa [fileEventsIds, Effect.fileEventsId?] using d
    · exact h0
  · intro s0 h0
    exact processSocketEvent_flushInvariant cfg base t0 _ _ hm h0
  · intro s0 h0
    rw [hf]
    exact checkFlush_flushInvariant cfg base t0 s0 h0

theorem flushToDisk_none_handed (s : State) :
    handedWrites (flushToDisk none s).trace
      = handedWrites s.trace ++ s.fEventHandler.writeEvents := by
  by_cases hid : s.cmdInfo.idInDb = INVALID_INT_ID
  · rw [flushToDisk_insert s hid]
    simp only [handedWrites_append]
    rw [(flush_tail_writes (Effect.addCommand (flushCommand s) (s.store.nextId : Int))
      _ _ _ rfl rfl rfl).2.1]
  · rw [flushToDisk_update s hid]
    simp only [handedWrites_append]
    rw [(flush_tail_writes (Effect.updateCommand s.cmdInfo) _ _ _ rfl rfl rfl).2.1]

theorem writeFlushBound_emit (cfg : Config) (s : State) (e : Effect)
    (h2 : e.handedWrites = []) (h4 : e ≠ Effect.log LogLevel.info LogMsg.flushingToDisk)
    (h : s.writeFlushBound cfg) : (s.emit e).writeFlushBound cfg := by
  refine ⟨h.1, ?_⟩
  rw [flushCount_emit s e h4]
  have h5 : handedWrites [e] = [] := by
    simp only [handedWrites, h2, List.append_nil]
  simp only [State.emit, handedWrites_append, h5, List.append_nil]
  exact h.2

theorem checkFlush_writeFlushBound (cfg : Config) (s : State) (h : s.writeFlushBound cfg) :
    (checkFlush cfg none s).writeFlushBound cfg := by
  have hcount := checkFlush_flushCount cfg none s
  refine ⟨?_, ?_⟩
  · unfold checkFlush
    split_ifs
    · rw [flushToDisk_caches]
    · exact h.1
  · rw [hcount]
    unfold checkFlush
    split_ifs with hex
    · have hlen : cfg.flushToDiskEventCount < s.fEventHandler.writeEvents.length := by
        simp only [thresholdExceeded, Bool.or_eq_true, decide_eq_true_eq] at hex
        rcases hex with hex | hex
        · simp [FileEventHandler.sizeOfCachedReadFiles, h.1] at hex
        · exact hex
      rw [flushToDisk_none_handed]
      have h5 : handedWrites [Effect.log LogLevel.info LogMsg.flushingToDisk] = [] := rfl
      simp only [State.log, State.emit, handedWrites_append, h5, List.append_nil,
        List.length_append]
      have h2 := h.2
      rw [Nat.mul_add, Nat.mul_one]
      omega
    · simpa using h.2

theorem pollIteration_writeFlushBound (cfg : Config) (w : Wakeup) (s : State)
    (hf : w.storeFault = none) (hr : w.fanReads = [])
    (hm : ∀ m ∈ w.sockMsgs, m.msgId = -1) (h : s.writeFlushBound cfg) :
    (pollIteration cfg w s).state.writeFlushBound cfg := by
  refine pollIteration_induction cfg (State.writeFlushBound cfg) w ?_ ?_ ?_ ?_ ?_ s h
  · intro s0 h0
    exact h0
  · intro s0 h0
    exact writeFlushBound_emit cfg s0 _ rfl (by simp) h0
  · intro s0 h0
    unfold drainFanotify
    split_ifs
    · have h1 := writeFlushBound_emit cfg s0 (Effect.handleEvents w.fanWrites w.fanReads)
        rfl (by simp) h0
      refine ⟨?_, h1.2⟩
      simp [handleEvents, State.emit, FileEventHandler.insertEvents, hr, h0.1]
    · exact h0
  · intro s0 h0
    unfold processSocketEvent
    refine processMessages_induction cfg (State.writeFlushBound cfg) (fun m => m.msgId = -1)
      ?_ ?_ w.sockMsgs _ _ hm (writeFlushBound_emit cfg s0 _ rfl (by simp) h0)
    · intro m s1 h1
      unfold warnIfLarge
      split_ifs
      · exact writeFlushBound_emit cfg s1 _ rfl (by simp) h1
      · exact h1
    · intro m s1 hq h1
      rw [handleMessage_marker_state m _ hq]
      exact writeFlushBound_emit cfg _ _ rfl (by simp)
        (writeFlushBound_emit cfg s1 (Effect.log LogLevel.debug (LogMsg.receivedMessage m.msgId))
          rfl (by simp) h1)
  · intro s0 h0
    rw [hf]
    exact checkFlush_writeFlushBound cfg s0 h0

theorem finalFlush_writes (cfg : Config) (ret : Int) (base : List (Int × FileWriteEvent))
    (t0 : Bytes) (s : State) (htext : t0 ≠ []) (h : s.flushInvariant base t0) :
    ∃ s', finalFlush cfg none ret s = RunResult.exited ret s' ∧
      s'.writesInvariant base t0 ∧
      handedWrites s'.trace = cachedWrites s'.trace ∧
      (fileEventsIds s'.trace).length = flushCount s'.trace + 1 ∧
      flushCount s'.trace = flushCount s.trace ∧
      handedWrites s'.trace = handedWrites s.trace ++ s.fEventHandler.writeEvents := by
  have ht : s.cmdInfo.text = t0 := h.1.2.2.2
  have hne : ¬ (s.cmdInfo.text.isEmpty ∧ s.cmdInfo.idInDb = INVALID_INT_ID) := by
    intro hh
    have h1 := hh.1
    rw [List.isEmpty_iff] at h1
    exact htext (ht ▸ h1)
  unfold finalFlush
  rw [if_neg hne]
  by_cases hr : s.cmdInfo.returnVal = cfg.INVALID_RETURN_VAL
  · simp only [if_pos hr]
    have h1 : (s.log LogLevel.debug LogMsg.missingFields).flushInvariant base t0 :=
      flushInvariant_emit base t0 s _ rfl rfl rfl (by simp) h
    obtain ⟨g1, g2, g3, g4⟩ := flushToDisk_writesInvariant base t0 _ h1.1
    refine ⟨_, rfl, g1, g2, ?_, ?_, ?_⟩
    · rw [g4, List.length_append, h1.2, flushToDisk_flushCount]
      rfl
    · rw [flushToDisk_flushCount]
      exact flushCount_emit s _ (by simp)
    · rw [g3]
      have h5 : handedWrites [Effect.log LogLevel.debug LogMsg.missingFields] = [] := rfl
      simp only [State.log, State.emit, handedWrites_append, h5, List.append_nil]
  · simp only [if_neg hr]
    obtain ⟨g1, g2, g3, g4⟩ := flushToDisk_writesInvariant base t0 _ h.1
    refine ⟨_, rfl, g1, g2, ?_, flushToDisk_flushCount none s, g3⟩
    rw [g4, List.length_append, h.2, flushToDisk_flushCount]
    rfl

theorem commandLoop_writes (cfg : Config) (fw : FileWatcher) (env : RunEnv)
    (hsock : onlyPeerClosed env.wakeups) (hw : ∀ w ∈ env.wakeups, w.storeFault = none) :
    (commandLoop cfg env.child.returnVal env.exitAt env.wakeups
      (commandStart cfg fw env)).state.flushInvariant env.store0.writtenFile
        (commandStart cfg fw env).cmdInfo.text := by
  refine commandLoop_induction cfg
    (State.flushInvariant env.store0.writtenFile (commandStart cfg fw env).cmdInfo.text)
    _ _ _ ?_ ?_ _ ?_
  · intro s h
    exact h
  · intro w hmem s h
    exact pollIteration_flushInvariant cfg _ _ w s (hw w hmem) (hsock w hmem) h
  · refine ⟨⟨rfl, ?_, ?_, rfl⟩, rfl⟩
    · intro id hid
      simp [commandStart, runInit, fileEventsIds] at hid
    · simp [commandStart, runInit, handedWrites]

theorem commandLoop_writeFlushBound (cfg : Config) (fw : FileWatcher) (env : RunEnv)
    (hsock : onlyPeerClosed env.wakeups) (hw : ∀ w ∈ env.wakeups, w.storeFault = none)
    (hr : ∀ w ∈ env.wakeups, w.fanReads = []) :
    (commandLoop cfg env.child.returnVal env.exitAt env.wakeups
      (commandStart cfg fw env)).state.writeFlushBound cfg := by
  refine commandLoop_induction cfg (State.writeFlushBound cfg) _ _ _ ?_ ?_ _ ?_
  · intro s h
    exact h
  · intro w hmem s h
    exact pollIteration_writeFlushBound cfg w s (hw w hmem) (hr w hmem) (hsock w hmem) h
  · refine ⟨rfl, ?_⟩
    simp [commandStart, runInit, flushCount]

theorem noFlush_emit (s : State) (e : Effect) (h2 : e.handedWrites = [])
    (h : flushCount s.trace = 0 → handedWrites s.trace = []) :
    flushCount (s.emit e).trace = 0 → handedWrites (s.emit e).trace = [] := by
  intro h0
  have h5 : handedWrites [e] = [] := by
    simp only [handedWrites, h2, List.append_nil]
  have h6 : flushCount s.trace = 0 := by
    simp only [flushCount, State.emit, List.count_append] at h0 ⊢
    omega
  simp only [State.emit, handedWrites_append, h5, List.append_nil]
  exact h h6

theorem pollIteration_noFlush (cfg : Config) (w : Wakeup) (s : State)
    (hm : ∀ m ∈ w.sockMsgs, m.msgId = -1)
    (h : flushCount s.trace = 0 → handedWrites s.trace = []) :
    flushCount (pollIteration cfg w s).state.trace = 0 →
      handedWrites (pollIteration cfg w s).state.trace = [] := by
  refine pollIteration_induction cfg
    (fun x => flushCount x.trace = 0 → handedWrites x.trace = []) w ?_ ?_ ?_ ?_ ?_ s h
  · intro s0 h0
    exact h0
  · intro s0 h0
    exact noFlush_emit s0 _ rfl h0
  · intro s0 h0
    unfold drainFanotify
    split_ifs
    · exact noFlush_emit s0 (Effect.handleEvents w.fanWrites w.fanReads) rfl h0
    · exact h0
  · intro s0 h0
    unfold processSocketEvent
    refine processMessages_induction cfg
      (fun x => flushCount x.trace = 0 → handedWrites x.trace = [])
      (fun m => m.msgId = -1) ?_ ?_ w.sockMsgs _ _ hm (noFlush_emit s0 _ rfl h0)
    · intro m s1 h1
      unfold warnIfLarge
      split_ifs
      · exact noFlush_emit s1 _ rfl h1
      · exact h1
    · intro m s1 hq h1
      rw [handleMessage_marker_state m _ hq]
      exact noFlush_emit _ _ rfl
        (noFlush_emit s1 (Effect.log LogLevel.debug (LogMsg.receivedMessage m.msgId)) rfl h1)
  · intro s0 h0
    have hc := checkFlush_flushCount cfg w.storeFault s0
    unfold checkFlush at hc ⊢
    split_ifs at hc ⊢ with hex
    · intro hz
      omega
    · exact h0

theorem commandLoop_noFlush (cfg : Config) (fw : FileWatcher) (env : RunEnv)
    (hsock : onlyPeerClosed env.wakeups) :
    flushCount (commandLoop cfg env.child.returnVal env.exitAt env.wakeups
        (commandStart cfg fw env)).state.trace = 0 →
      handedWrites (commandLoop cfg env.child.returnVal env.exitAt env.wakeups
        (commandStart cfg fw env)).state.trace = [] := by
  refine commandLoop_induction cfg
    (fun x => flushCount x.trace = 0 → handedWrites x.trace = []) _ _ _ ?_ ?_ _ ?_
  · intro s h
    exact h
  · intro w hmem s h
    exact pollIteration_noFlush cfg w s (hsock w hmem) h
  · intro _
    rfl

theorem processSocketEvent_marker_caches (cfg : Config) (msgs : List SockMsg) (s : State)
    (hm : ∀ m ∈ msgs, m.msgId = -1) :
    (processSocketEvent cfg msgs s).2.fEventHandler = s.fEventHandler := by
  unfold processSocketEvent
  refine processMessages_induction cfg (fun x => x.fEventHandler = s.fEventHandler)
    (fun m => m.msgId = -1) ?_ ?_ msgs _ _ hm rfl
  · intro m s1 h1
    rw [(warnIfLarge_frame cfg m s1).2.1]
    exact h1
  · intro m s1 hq h1
    rw [handleMessage_marker_state m _ hq]
    exact h1

/-- The iteration on which the command loop returns starts from a state whose
caches are below the thresholds. -/
theorem commandLoop_returned_split (cfg : Config) (v : Int) (k : Nat) (ws : List Wakeup)
    (s s' : State) (r : E_SocketMsg) (hstart : thresholdExceeded cfg s = false)
    (h : commandLoop cfg v k ws s = LoopResult.returned r s') :
    ∃ w s1 s0, w ∈ ws ∧ thresholdExceeded cfg s1 = false ∧
      pollIteration cfg w s1 = Step.returned r s0 ∧
      s'.fEventHandler = s0.fEventHandler := by
  unfold commandLoop at h
  split at h
  · next s2 heq =>
    have h2 : thresholdExceeded cfg (s2.setReturnVal v) = false :=
      pollUntilStopped_blocked_below cfg _ s s2 hstart heq
    obtain ⟨pre, w, post, s1, e1, e2, e3⟩ := pollUntilStopped_returned_split cfg r _ _ s' h
    refine ⟨w, s1, s', ?_, pollUntilStopped_blocked_below cfg _ _ s1 h2 e2, e3, rfl⟩
    exact List.mem_of_mem_drop (by rw [e1]; simp)
  · next r2 s2 heq =>
    simp only [LoopResult.returned.injEq] at h
    obtain ⟨hr, hs⟩ := h
    subst hr
    subst hs
    obtain ⟨pre, w, post, s1, e1, e2, e3⟩ := pollUntilStopped_returned_split cfg r2 _ _ s2 heq
    refine ⟨w, s1, s2, ?_, pollUntilStopped_blocked_below cfg _ s s1 hstart e2, e3, rfl⟩
    exact List.mem_of_mem_take (by rw [e1]; simp)
  · cases h

/-- When no event is handled on a wakeup that finds the socket readable, the
write cache with which the command loop returns EMPTY holds no more events than
the threshold. -/
theorem commandLoop_final_cache (cfg : Config) (v : Int) (k : Nat) (ws : List Wakeup)
    (s s' : State) (hstart : thresholdExceeded cfg s = false) (hsock : onlyPeerClosed ws)
    (hq : ∀ w ∈ ws, w.sockReadable = true → w.fanReadable = true →
      w.fanWrites = [] ∧ w.fanReads = [])
    (h : commandLoop cfg v k ws s = LoopResult.returned E_SocketMsg.EMPTY s') :
    s'.fEventHandler.writeEvents.length ≤ cfg.flushToDiskEventCount := by
  obtain ⟨w, s1, s0, hmem, hbelow, hstep, hcache⟩ :=
    commandLoop_returned_split cfg v k ws s s' _ hstart h
  obtain ⟨hsr, hproc⟩ := pollIteration_returned_EMPTY cfg w s1 s0 hstep
  have h0 : s0.fEventHandler = (drainFanotify w (s1.advance w.elapsed)).fEventHandler := by
    have := processSocketEvent_marker_caches cfg w.sockMsgs
      (drainFanotify w (s1.advance w.elapsed)) (hsock w hmem)
    rw [hproc] at this
    exact this
  have h1 : (drainFanotify w (s1.advance w.elapsed)).fEventHandler = s1.fEventHandler := by
    unfold drainFanotify
    split_ifs with hf
    · obtain ⟨q1, q2⟩ := hq w hmem hsr hf
      simp [handleEvents, State.emit, State.advance, FileEventHandler.insertEvents, q1, q2]
    · rfl
  rw [hcache, h0, h1]
  simp only [thresholdExceeded, Bool.or_eq_false_iff, decide_eq_false_iff_not] at hbelow
  omega

/-- C12 (counterexample): command mode with `flushToDiskEventCount = 2`, no store
failure, no CLEAR_EVENTS, no loop error. The three write events become readable
on the wakeup on which the socket is also found closed: they are cached, the
loop returns before the threshold check, so there is no intermediate flush; the
terminal flush alone hands the three events to the store. With an empty command
text the terminal flush is skipped and the three cached events are not handed
to the store at all. -/
theorem late_events_skip_intermediate_flush :
    cfgDebug.flushToDiskEventCount = 2 ∧
    fwCommand.m_commandArgc ≠ 0 ∧
    (∀ w ∈ envThreeFilesLate.wakeups, w.storeFault = none) ∧
    envThreeFilesLate.terminalFault = none ∧
    noClearEvents envThreeFilesLate.wakeups ∧
    (runLoop cfgDebug fwCommand envThreeFilesLate).result = some E_SocketMsg.EMPTY ∧
    (run cfgDebug fwCommand envThreeFilesLate).exitCode = some 0 ∧
    cachedWrites (run cfgDebug fwCommand envThreeFilesLate).state.trace
      = [writeEvt 1, writeEvt 2, writeEvt 3] ∧
    flushCount (run cfgDebug fwCommand envThreeFilesLate).state.trace = 0 ∧
    (fileEventsIds (run cfgDebug fwCommand envThreeFilesLate).state.trace).length = 1 ∧
    (run cfgDebug fwCommand envThreeFilesLate).state.store.writtenFile.length = 3 ∧
    fwEmptyText.m_commandArgc ≠ 0 ∧
    (runLoop cfgDebug fwEmptyText envThreeFilesLate).result = some E_SocketMsg.EMPTY ∧
    cachedWrites (run cfgDebug fwEmptyText envThreeFilesLate).state.trace
      = [writeEvt 1, writeEvt 2, writeEvt 3] ∧
    handedWrites (run cfgDebug fwEmptyText envThreeFilesLate).state.trace = [] := by
  decide

/-- C12 (amended): for every command-mode run with a non-empty command text, no
store failure and no loop error (in command mode the socket pair carries nothing
but the peer-closed marker, so no CLEAR_EVENTS), `run` exits with the child's
code, and the write events handed to the store over all intermediate flushes
plus the terminal flush are exactly the write events cached during the run, each
exactly once, all under one valid command id, and they are the writtenFile rows
added to the store; the store receives one call per intermediate flush plus one
for the terminal flush. If no read events are cached, every intermediate flush
carries more than `flushToDiskEventCount` write events; so with
`flushToDiskEventCount = 2` and three written files three writtenFile rows are
added by at most one intermediate flush plus the terminal flush, and by exactly
one intermediate flush plus the terminal flush when no write event is handled on
a wakeup that finds the socket readable. -/
theorem command_mode_write_events (cfg : Config) (fw : FileWatcher) (env : RunEnv)
    (hcmd : fw.m_commandArgc ≠ 0) (htext : (commandStart cfg fw env).cmdInfo.text ≠ [])
    (hsock : onlyPeerClosed env.wakeups) (hw : ∀ w ∈ env.wakeups, w.storeFault = none)
    (hterm : env.terminalFault = none)
    (hloop : (runLoop cfg fw env).result = some E_SocketMsg.EMPTY) :
    (run cfg fw env).exitCode = some env.child.returnVal ∧
    handedWrites (run cfg fw env).state.trace = cachedWrites (run cfg fw env).state.trace ∧
    (∀ id ∈ fileEventsIds (run cfg fw env).state.trace,
      id = (run cfg fw env).state.cmdInfo.idInDb) ∧
    (run cfg fw env).state.cmdInfo.idInDb ≠ INVALID_INT_ID ∧
    (run cfg fw env).state.store.writtenFile = env.store0.writtenFile ++
      (cachedWrites (run cfg fw env).state.trace).map
        (fun e => ((run cfg fw env).state.cmdInfo.idInDb, e)) ∧
    (fileEventsIds (run cfg fw env).state.trace).length
      = flushCount (run cfg fw env).state.trace + 1 ∧
    ((∀ w ∈ env.wakeups, w.fanReads = []) →
      (cfg.flushToDiskEventCount + 1) * flushCount (run cfg fw env).state.trace
        ≤ (cachedWrites (run cfg fw env).state.trace).length) ∧
    ((∀ w ∈ env.wakeups, w.fanReads = []) → cfg.flushToDiskEventCount = 2 →
      (cachedWrites (run cfg fw env).state.trace).length = 3 →
      flushCount (run cfg fw env).state.trace ≤ 1 ∧
      (run cfg fw env).state.store.writtenFile.length
        = env.store0.writtenFile.length + 3 ∧
      ((∀ w ∈ env.wakeups, w.sockReadable = true → w.fanReadable = true →
          w.fanWrites = []) →
        flushCount (run cfg fw env).state.trace = 1)) := by
  have hl : runLoop cfg fw env = commandLoop cfg env.child.returnVal env.exitAt env.wakeups
      (commandStart cfg fw env) := by
    unfold runLoop
    rw [if_pos hcmd]
  have hinv := commandLoop_writes cfg fw env hsock hw
  have hbound := commandLoop_writeFlushBound cfg fw env hsock hw
  have hK := commandLoop_noFlush cfg fw env hsock
  rw [← hl] at hinv hbound hK
  have hret : runRet fw env = env.child.returnVal := by
    unfold runRet
    rw [if_pos hcmd]
  cases hres : runLoop cfg fw env with
  | blocked s1 => rw [hres] at hloop; simp [LoopResult.result] at hloop
  | aborted s1 => rw [hres] at hloop; simp [LoopResult.result] at hloop
  | returned r s1 =>
    rw [hres] at hloop hinv hbound hK
    simp only [LoopResult.result, Option.some.injEq] at hloop
    subst hloop
    have hinv1 : ((s1.advance env.elapsedEnd).setEndTime).flushInvariant
        env.store0.writtenFile (commandStart cfg fw env).cmdInfo.text := hinv
    obtain ⟨s', hs', g1, g2, g3, g4, g5⟩ := finalFlush_writes cfg (runRet fw env) _ _ _ htext hinv1
    have hrun : run cfg fw env = RunResult.exited env.child.returnVal s' := by
      unfold run
      rw [hres]
      simp only [runFinish, hterm]
      rw [hs', hret]
    rw [hrun]
    simp only [RunResult.exitCode, RunResult.state]
    have hids : ∀ id ∈ fileEventsIds s'.trace, id = s'.cmdInfo.idInDb := fun id hid =>
      (g1.2.1 id hid).1
    have hvalid : s'.cmdInfo.idInDb ≠ INVALID_INT_ID := by
      cases hl2 : fileEventsIds s'.trace with
      | nil => rw [hl2] at g3; simp at g3
      | cons a rest =>
        have h1 := g1.2.1 a (by rw [hl2]; exact List.mem_cons_self _ _)
        rw [← h1.1]
        exact h1.2
    have hrows : s'.store.writtenFile = env.store0.writtenFile ++
        (cachedWrites s'.trace).map (fun e => (s'.cmdInfo.idInDb, e)) := by
      rw [← g2]
      exact g1.2.2.1
    have hb : (∀ w ∈ env.wakeups, w.fanReads = []) →
        (cfg.flushToDiskEventCount + 1) * flushCount s'.trace
          ≤ (cachedWrites s'.trace).length := by
      intro hr
      have h1 := (hbound hr).2
      rw [← g2, g5, g4, List.length_append]
      exact Nat.le_trans h1 (Nat.le_add_right _ _)
    refine ⟨trivial, g2, hids, hvalid, hrows, g3, hb, ?_⟩
    intro hr h2 h3
    have h4 := hb hr
    rw [h2, h3] at h4
    have hle : flushCount s'.trace ≤ 1 := by omega
    refine ⟨hle, ?_, ?_⟩
    · rw [hrows, List.length_append, List.length_map, h3]
    · intro hq
      have hstart : thresholdExceeded cfg (commandStart cfg fw env) = false := by
        simp [thresholdExceeded, commandStart, runInit,
          FileEventHandler.sizeOfCachedReadFiles]
      have hc := commandLoop_final_cache cfg env.child.returnVal env.exitAt env.wakeups
        (commandStart cfg fw env) s1 hstart hsock
        (fun w hmem h5 h6 => ⟨hq w hmem h5 h6, hr w hmem⟩) (hl ▸ hres)
      have hlen : (handedWrites s'.trace).length =
          (handedWrites s1.trace).length + s1.fEventHandler.writeEvents.length := by
        rw [g5, List.length_append]
        rfl
      have hfc : flushCount s'.trace = flushCount s1.trace := g4
      have hne : flushCount s1.trace ≠ 0 := by
        intro hz
        have h7 : handedWrites s1.trace = [] := hK hz
        rw [h7, g2, h3] at hlen
        simp only [List.length_nil] at hlen
        rw [h2] at hc
        omega
      omega

/-- C12 (witness): three write events on three wakeups with
`flushToDiskEventCount = 2`, then the socket closes: three writtenFile rows under
one command id, by one intermediate flush plus the terminal flush. -/
theorem command_mode_write_events_witness :
    fwCommand.m_commandArgc ≠ 0 ∧
    (commandStart cfgDebug fwCommand envThreeFilesEarly).cmdInfo.text ≠ [] ∧
    onlyPeerClosed envThreeFilesEarly.wakeups ∧
    (∀ w ∈ envThreeFilesEarly.wakeups, w.storeFault = none) ∧
    envThreeFilesEarly.terminalFault = none ∧
    (runLoop cfgDebug fwCommand envThreeFilesEarly).result = some E_SocketMsg.EMPTY ∧
    cachedWrites (run cfgDebug fwCommand envThreeFilesEarly).state.trace
      = [writeEvt 1, writeEvt 2, writeEvt 3] ∧
    handedWrites (run cfgDebug fwCommand envThreeFilesEarly).state.trace
      = cachedWrites (run cfgDebug fwCommand envThreeFilesEarly).state.trace ∧
    (fileEventsIds (run cfgDebug fwCommand envThreeFilesEarly).state.trace).length
      = flushCount (run cfgDebug fwCommand envThreeFilesEarly).state.trace + 1 ∧
    (flushCount (run cfgDebug fwCommand envThreeFilesEarly).state.trace ≤ 1 ∧
     (run cfgDebug fwCommand envThreeFilesEarly).state.store.writtenFile.length
       = envThreeFilesEarly.store0.writtenFile.length + 3 ∧
     ((∀ w ∈ envThreeFilesEarly.wakeups, w.sockReadable = true → w.fanReadable = true →
          w.fanWrites = []) →
       flushCount (run cfgDebug fwCommand envThreeFilesEarly).state.trace = 1)) ∧
    (∀ w ∈ envThreeFilesEarly.wakeups, w.sockReadable = true → w.fanReadable = true →
      w.fanWrites = []) :=
  ⟨by decide, by decide, by decide, by decide, rfl, by decide, by decide,
   (command_mode_write_events cfgDebug fwCommand envThreeFilesEarly (by decide) (by decide)
     (by decide) (by decide) (by decide) (by decide)).2.1,
   (command_mode_write_events cfgDebug fwCommand envThreeFilesEarly (by decide) (by decide)
     (by decide) (by decide) (by decide) (by decide)).2.2.2.2.2.1,
   (command_mode_write_events cfgDebug fwCommand envThreeFilesEarly (by decide) (by decide)
     (by decide) (by decide) (by decide) (by decide)).2.2.2.2.2.2.2 (by decide) rfl
     (by decide),
   by decide⟩

/-! ## C13 and C14: the version of the store after it was opened -/

theorem compareSegments_self (a : List Nat) : compareSegments a a = 0 := by
  induction a with
  | nil => rfl
  | cons x xs ih => simp [compareSegments, ih]

theorem compareSegments_antisymm (a : List Nat) :
    ∀ b, compareSegments a b ≤ -1 → 1 ≤ compareSegments b a := by
  induction a with
  | nil =>
    intro b h
    cases b with
    | nil => simp [compareSegments] at h
    | cons y ys =>
      simp only [compareSegments]
      split_ifs <;> omega
  | cons x xs ih =>
    intro b h
    cases b with
    | nil =>
      simp only [compareSegments] at h
      split_ifs at h <;> omega
    | cons y ys =>
      simp only [compareSegments] at h ⊢
      by_cases hxy : x = y
      · subst hxy
        simp only [ne_eq, not_true_eq_false, if_false] at h ⊢
        exact ih ys h
      · have hyx : y ≠ x := fun hh => hxy hh.symm
        rw [if_pos hxy] at h
        rw [if_pos hyx]
        omega

theorem compare_self (v : QVersionNumber) : QVersionNumber.compare v v = 0 :=
  compareSegments_self v.segments

theorem compare_antisymm (v1 v2 : QVersionNumber) (h : QVersionNumber.compare v1 v2 ≤ -1) :
    1 ≤ QVersionNumber.compare v2 v1 :=
  compareSegments_antisymm v1.segments v2.segments h

theorem exec_ok (env : DbEnv) (step : DbStep) (s out : DbState)
    (h : exec env step s = Except.ok out) :
    out = s.emit (DbEffect.exec step) ∧ env.fault ≠ some step := by
  unfold exec at h
  split_ifs at h with hf
  simp only [Except.ok.injEq] at h
  exact ⟨h.symm, hf⟩

theorem exec_no_fault (env : DbEnv) (step : DbStep) (s : DbState) (h : env.fault = none) :
    exec env step s = Except.ok (s.emit (DbEffect.exec step)) := by
  unfold exec
  rw [h]
  simp

theorem prepareVersion_ok (env : DbEnv) (s out : DbState)
    (h : prepareVersion env s = Except.ok out) :
    ∃ v, s.db.version = some v ∧
      out.db.version
        = some (if QVersionNumber.compare v env.appVersion ≤ -1 then env.appVersion else v) ∧
      out.trace = s.trace ++ versionSteps env v := by
  unfold prepareVersion at h
  cases hq : queryVersion env s with
  | error e => rw [hq] at h; simp at h
  | ok p =>
    obtain ⟨v, s1⟩ := p
    rw [hq] at h
    simp only at h
    unfold queryVersion at hq
    cases he : exec env DbStep.queryVersion s with
    | error e => rw [he] at hq; simp at hq
    | ok s0 =>
      rw [he] at hq
      simp only at hq
      obtain ⟨hs0, _⟩ := exec_ok env _ _ _ he
      cases hver : s0.db.version with
      | none => rw [hver] at hq; simp at hq
      | some v0 =>
        rw [hver] at hq
        simp only [Except.ok.injEq, Prod.mk.injEq] at hq
        obtain ⟨hv, hs1⟩ := hq
        subst hv
        subst hs1
        have hsv : s.db.version = some v0 := by
          rw [hs0] at hver
          exact hver
        refine ⟨v0, hsv, ?_⟩
        cases hz : updateZeroPointNine env v0 ((warnIfNewer env v0 s0).emit
            (DbEffect.log LogLevel.debug (DbLogMsg.dbVersion v0))) with
        | error e => rw [hz] at h; simp at h
        | ok s3 =>
          rw [hz] at h
          simp only at h
          have hs3 : s3.db = s.db ∧ s3.trace = s.trace ++ ([DbEffect.exec DbStep.queryVersion] ++
              (if QVersionNumber.compare v0 env.appVersion ≥ 1 then
                [DbEffect.log LogLevel.warning (DbLogMsg.dbVersionHigher v0 env.appVersion)]
               else []) ++
              [DbEffect.log LogLevel.debug (DbLogMsg.dbVersion v0)] ++
              (if QVersionNumber.compare v0 { segments := [0, 9] } ≤ -1 then
                [DbEffect.exec DbStep.zero_point_nine]
               else [])) := by
            unfold updateZeroPointNine at hz
            unfold warnIfNewer at hz
            by_cases c1 : QVersionNumber.compare v0 env.appVersion ≥ 1
            · by_cases c2 : QVersionNumber.compare v0 { segments := [0, 9] } ≤ -1
              · rw [if_pos c2, if_pos c1] at hz
                obtain ⟨hz1, _⟩ := exec_ok env _ _ _ hz
                rw [hz1, hs0]
                simp [DbState.emit, c1, c2]
              · rw [if_neg c2, if_pos c1] at hz
                simp only [Except.ok.injEq] at hz
                rw [← hz, hs0]
                simp [DbState.emit, c1, c2]
            · by_cases c2 : QVersionNumber.compare v0 { segments := [0, 9] } ≤ -1
              · rw [if_pos c2, if_neg c1] at hz
                obtain ⟨hz1, _⟩ := exec_ok env _ _ _ hz
                rw [hz1, hs0]
                simp [DbState.emit, c1, c2]
              · rw [if_neg c2, if_neg c1] at hz
                simp only [Except.ok.injEq] at hz
                rw [← hz, hs0]
                simp [DbState.emit, c1, c2]
          unfold writeAppVersion at h
          unfold versionSteps
          split_ifs at h with c3
          · cases hr : exec env DbStep.replaceVersion s3 with
            | error e => rw [hr] at h; simp at h
            | ok s4 =>
              rw [hr] at h
              simp only [Except.ok.injEq] at h
              obtain ⟨hr1, _⟩ := exec_ok env _ _ _ hr
              rw [← h, hr1]
              simp [DbState.emit, c3, hs3.2]
          · simp only [Except.ok.injEq] at h
            rw [← h]
            simp [c3, hs3.1, hs3.2, hsv]

theorem prepareVersion_no_fault (env : DbEnv) (s : DbState) (v : QVersionNumber)
    (hf : env.fault = none) (hv : s.db.version = some v) :
    ∃ out, prepareVersion env s = Except.ok out := by
  unfold prepareVersion queryVersion
  rw [exec_no_fault env _ _ hf]
  simp only [DbState.emit, hv]
  unfold updateZeroPointNine
  split_ifs
  · rw [exec_no_fault env _ _ hf]
    simp only
    unfold writeAppVersion
    split_ifs
    · rw [exec_no_fault env _ _ hf]
      exact ⟨_, rfl⟩
    · exact ⟨_, rfl⟩
  · simp only
    unfold writeAppVersion
    split_ifs
    · rw [exec_no_fault env _ _ hf]
      exact ⟨_, rfl⟩
    · exact ⟨_, rfl⟩

theorem createDatabase_ok (env : DbEnv) (s out : DbState)
    (h : createDatabase env s = Except.ok out) :
    out.db.version = env.DATABASE_SCHEME ∧
    out.trace = s.trace ++
      ([DbEffect.log LogLevel.info DbLogMsg.creatingNewDatabase, DbEffect.exec DbStep.scheme,
        DbEffect.setPermissions] ++
      (if env.setPermissionsOk then []
       else [DbEffect.log LogLevel.warning DbLogMsg.setPermissionsFailed])) := by
  unfold createDatabase at h
  cases he : exec env DbStep.scheme
      (s.emit (DbEffect.log LogLevel.info DbLogMsg.creatingNewDatabase)) with
  | error e => rw [he] at h; simp at h
  | ok s1 =>
    rw [he] at h
    simp only at h
    obtain ⟨h1, _⟩ := exec_ok env _ _ _ he
    split_ifs at h with c
    · simp only [Except.ok.injEq] at h
      rw [← h, h1]
      simp [DbState.emit, c]
    · simp only [Except.ok.injEq] at h
      rw [← h, h1]
      simp [DbState.emit, c]

theorem createDatabase_no_fault (env : DbEnv) (s : DbState) (hf : env.fault = none) :
    ∃ out, createDatabase env s = Except.ok out := by
  unfold createDatabase
  rw [exec_no_fault env _ _ hf]
  simp only
  split_ifs
  · exact ⟨_, rfl⟩
  · exact ⟨_, rfl⟩

theorem open_ok (env : DbEnv) (out : DbState)
    (h : openAndPrepareSqliteDb env = Except.ok out) :
    ∃ v, versionBefore env = some v ∧
      out.db.version
        = some (if QVersionNumber.compare v env.appVersion ≤ -1 then env.appVersion else v) ∧
      out.trace = setupSteps env ++ versionSteps env v := by
  unfold openAndPrepareSqliteDb at h
  by_cases hopen : env.openOk = true
  swap
  · rw [if_pos hopen] at h
    simp at h
  rw [if_neg (not_not.mpr hopen)] at h
  cases h1 : exec env DbStep.foreignKeys { db := openedDatabase env, trace := [] } with
  | error e => rw [h1] at h; simp at h
  | ok s1 =>
    rw [h1] at h
    simp only at h
    obtain ⟨g1, _⟩ := exec_ok env _ _ _ h1
    cases h2 : exec env DbStep.transaction
        { s1 with db := { s1.db with foreign_keys := true } } with
    | error e => rw [h2] at h; simp at h
    | ok s2 =>
      rw [h2] at h
      simp only at h
      obtain ⟨g2, _⟩ := exec_ok env _ _ _ h2
      have hs2 : s2.db.version = (openedDatabase env).version ∧
          s2.trace = [DbEffect.exec DbStep.foreignKeys, DbEffect.exec DbStep.transaction] := by
        rw [g2, g1]
        simp [DbState.emit]
      by_cases hp : env.pathExisted = true
      · rw [if_neg (by simpa using hp)] at h
        obtain ⟨v, hv, hver, htr⟩ := prepareVersion_ok env s2 out h
        refine ⟨v, ?_, hver, ?_⟩
        · rw [hs2.1] at hv
          simpa [versionBefore, openedDatabase, hp] using hv
        · rw [htr, hs2.2]
          simp [setupSteps, hp]
      · rw [if_pos (by simpa using hp)] at h
        cases h3 : createDatabase env s2 with
        | error e => rw [h3] at h; simp at h
        | ok s3 =>
          rw [h3] at h
          simp only at h
          obtain ⟨g3, g4⟩ := createDatabase_ok env s2 s3 h3
          obtain ⟨v, hv, hver, htr⟩ := prepareVersion_ok env s3 out h
          refine ⟨v, ?_, hver, ?_⟩
          · rw [g3] at hv
            simpa [versionBefore, hp] using hv
          · rw [htr, g4, hs2.2]
            simp [setupSteps, hp]

theorem open_no_fault (env : DbEnv) (v : QVersionNumber) (hopen : env.openOk = true)
    (hf : env.fault = none) (hv : versionBefore env = some v) :
    ∃ out, openAndPrepareSqliteDb env = Except.ok out := by
  unfold openAndPrepareSqliteDb
  rw [if_neg (by simpa using hopen), exec_no_fault env _ _ hf]
  simp only
  rw [exec_no_fault env _ _ hf]
  simp only
  by_cases hp : env.pathExisted = true
  · rw [if_neg (by simpa using hp)]
    refine prepareVersion_no_fault env _ v hf ?_
    simpa [DbState.emit, versionBefore, openedDatabase, hp] using hv
  · rw [if_pos (by simpa using hp)]
    obtain ⟨s3, h3⟩ := createDatabase_no_fault env
      (({ ({ db := openedDatabase env, trace := [] } : DbState).emit
          (DbEffect.exec DbStep.foreignKeys) with
        db := { (({ db := openedDatabase env, trace := [] } : DbState).emit
          (DbEffect.exec DbStep.foreignKeys)).db with foreign_keys := true } } : DbState).emit
        (DbEffect.exec DbStep.transaction)) hf
    rw [h3]
    simp only
    refine prepareVersion_no_fault env _ v hf ?_
    rw [(createDatabase_ok env _ _ h3).1]
    simpa [versionBefore, hp] using hv

theorem replaceVersion_mem (env : DbEnv) (v : QVersionNumber) :
    DbEffect.exec DbStep.replaceVersion ∈ setupSteps env ++ versionSteps env v ↔
      QVersionNumber.compare v env.appVersion ≤ -1 := by
  unfold setupSteps versionSteps
  split_ifs <;> simp_all

theorem warning_mem (env : DbEnv) (v : QVersionNumber) :
    DbEffect.log LogLevel.warning (DbLogMsg.dbVersionHigher v env.appVersion)
        ∈ setupSteps env ++ versionSteps env v ↔
      QVersionNumber.compare v env.appVersion ≥ 1 := by
  unfold setupSteps versionSteps
  split_ifs <;> simp_all

/-- C13 (examples): a store file that did not exist, whose schema inserts version
0.1, ends at the application version with the 0.9 step applied; a store at
version 1.0 ends at the application version without the 0.9 step. -/
theorem open_fresh_store_example :
    (openAndPrepareSqliteDb envFreshStore).toOption.map (fun s => s.db.version)
      = some (some appVersion23) ∧
    (openAndPrepareSqliteDb envFreshStore).toOption.map
        (fun s => s.trace.count (DbEffect.exec DbStep.zero_point_nine)) = some 1 ∧
    (openAndPrepareSqliteDb envStoreOneZero).toOption.map (fun s => s.db.version)
      = some (some appVersion23) ∧
    (openAndPrepareSqliteDb envStoreOneZero).toOption.map
        (fun s => s.trace.count (DbEffect.exec DbStep.zero_point_nine)) = some 0 := by
  decide

/-- C14: let v be the version found in the store. If v is higher than the
application version and neither `open` nor a statement fails, then
`openAndPrepareSqliteDb` does not throw, logs the warning, leaves the stored
version at v and does not execute `replace into version`. After every
successful open the stored version is the greater of v and the application
version, so it is not below v and not below the application version. -/
theorem newer_store_version_is_kept (env : DbEnv) (v : QVersionNumber)
    (hv : versionBefore env = some v) :
    (env.openOk = true → env.fault = none →
      QVersionNumber.compare v env.appVersion ≥ 1 →
      ∃ out, openAndPrepareSqliteDb env = Except.ok out ∧
        DbEffect.log LogLevel.warning (DbLogMsg.dbVersionHigher v env.appVersion) ∈ out.trace ∧
        out.db.version = some v ∧
        DbEffect.exec DbStep.replaceVersion ∉ out.trace) ∧
    (∀ out, openAndPrepareSqliteDb env = Except.ok out →
      out.db.version = some (maxVersion v env.appVersion) ∧
      QVersionNumber.compare (maxVersion v env.appVersion) v ≥ 0 ∧
      QVersionNumber.compare (maxVersion v env.appVersion) env.appVersion ≥ 0 ∧
      (QVersionNumber.compare v env.appVersion ≥ 1 →
        DbEffect.log LogLevel.warning (DbLogMsg.dbVersionHigher v env.appVersion) ∈ out.trace ∧
        out.db.version = some v ∧
        DbEffect.exec DbStep.replaceVersion ∉ out.trace)) := by
  have key : ∀ out, openAndPrepareSqliteDb env = Except.ok out →
      out.db.version = some (maxVersion v env.appVersion) ∧
      QVersionNumber.compare (maxVersion v env.appVersion) v ≥ 0 ∧
      QVersionNumber.compare (maxVersion v env.appVersion) env.appVersion ≥ 0 ∧
      (QVersionNumber.compare v env.appVersion ≥ 1 →
        DbEffect.log LogLevel.warning (DbLogMsg.dbVersionHigher v env.appVersion) ∈ out.trace ∧
        out.db.version = some v ∧
        DbEffect.exec DbStep.replaceVersion ∉ out.trace) := by
    intro out hok
    obtain ⟨v1, h1, h2, h3⟩ := open_ok env out hok
    rw [hv] at h1
    simp only [Option.some.injEq] at h1
    subst h1
    have hmax : (if QVersionNumber.compare v env.appVersion ≤ -1 then env.appVersion else v)
        = maxVersion v env.appVersion := by
      unfold maxVersion
      by_cases c : QVersionNumber.compare v env.appVersion ≤ -1
      · rw [if_pos c, if_neg (by omega)]
      · rw [if_neg c, if_pos (by omega)]
    refine ⟨by rw [h2, hmax], ?_, ?_, ?_⟩
    · unfold maxVersion
      split_ifs with c
      · rw [compare_self]
      · have := compare_antisymm v env.appVersion (by omega)
        omega
    · unfold maxVersion
      split_ifs with c
      · exact c
      · rw [compare_self]
    · intro hnew
      refine ⟨?_, ?_, ?_⟩
      · rw [h3]
        exact (warning_mem env v).2 hnew
      · rw [h2, if_neg (by omega)]
      · rw [h3, replaceVersion_mem]
        omega
  refine ⟨?_, key⟩
  intro hopen hf hnew
  obtain ⟨out, hout⟩ := open_no_fault env v hopen hf hv
  exact ⟨out, hout, ((key out hout).2.2.2 hnew)⟩

/-- C14 (witness): a store at version 2.4 opened by application version 2.3. -/
theorem newer_store_version_is_kept_witness :
    versionBefore envNewerStore = some { segments := [2, 4] } ∧
    QVersionNumber.compare { segments := [2, 4] } envNewerStore.appVersion ≥ 1 ∧
    (openAndPrepareSqliteDb envNewerStore).toOption.map (fun s => s.db.version)
      = some (some { segments := [2, 4] }) ∧
    ((envNewerStore.openOk = true → envNewerStore.fault = none →
      QVersionNumber.compare { segments := [2, 4] } envNewerStore.appVersion ≥ 1 →
      ∃ out, openAndPrepareSqliteDb envNewerStore = Except.ok out ∧
        DbEffect.log LogLevel.warning
          (DbLogMsg.dbVersionHigher { segments := [2, 4] } envNewerStore.appVersion)
            ∈ out.trace ∧
        out.db.version = some { segments := [2, 4] } ∧
        DbEffect.exec DbStep.replaceVersion ∉ out.trace) ∧
    (∀ out, openAndPrepareSqliteDb envNewerStore = Except.ok out →
      out.db.version = some (maxVersion { segments := [2, 4] } envNewerStore.appVersion) ∧
      QVersionNumber.compare (maxVersion { segments := [2, 4] } envNewerStore.appVersion)
        { segments := [2, 4] } ≥ 0 ∧
      QVersionNumber.compare (maxVersion { segments := [2, 4] } envNewerStore.appVersion)
        envNewerStore.appVersion ≥ 0 ∧
      (QVersionNumber.compare { segments := [2, 4] } envNewerStore.appVersion ≥ 1 →
        DbEffect.log LogLevel.warning
          (DbLogMsg.dbVersionHigher { segments := [2, 4] } envNewerStore.appVersion)
            ∈ out.trace ∧
        out.db.version = some { segments := [2, 4] } ∧
        DbEffect.exec DbStep.replaceVersion ∉ out.trace))) :=
  ⟨rfl, by decide, by decide,
   newer_store_version_is_kept envNewerStore { segments := [2, 4] } rfl⟩

/-! ## C18: the argument --history of the query command line -/

theorem uintToInt_small (n : Nat) (h : n < 2 ^ 31) : uintToInt n = (n : Int) := by
  have h1 : n % 2 ^ 32 = n := Nat.mod_eq_of_lt (by omega)
  unfold uintToInt
  rw [h1, if_pos h]

theorem historyQuery_not_empty (l : Int) :
    (((SqlQuery.new.setAscending false).setLimit l).setQuery " 1 ").isEmpty = false := by
  rfl

theorem reverse_take_reverse {α : Type} (l : List α) (n : Nat) :
    (l.reverse.take n).reverse = l.drop (l.length - n) := by
  by_cases h : n ≤ l.length
  · have h1 : l.reverse.take n = (l.drop (l.length - n)).reverse := by
      rw [List.reverse_drop]
      congr 1
      omega
    rw [h1, List.reverse_reverse]
  · have h2 : l.length - n = 0 := by omega
    rw [h2, List.drop_zero, List.take_of_length_le (by rw [List.length_reverse]; omega),
      List.reverse_reverse]

/-- The history query selects every command; its result is the last `n`
commands, oldest first. -/
theorem queryForCmd_history (env : QueryEnv) (n : Nat) :
    queryForCmd env (historyQuery n) true
      = env.commands.drop (env.commands.length - n) := by
  have hsel : env.commands.filter ((historyQuery n).selects env) = env.commands := by
    rw [List.filter_eq_self]
    intro c _
    simp [SqlQuery.selects, historyQuery]
  unfold queryForCmd
  simp only [hsel]
  simp only [historyQuery, if_true, Nat.cast_nonneg, Int.toNat_ofNat]
  exact reverse_take_reverse env.commands n

theorem parse_history (env : QueryEnv) (a : ParsedArgs) (n : Nat)
    (hh : a.argHistory = some n) (hn : n < 2 ^ 31)
    (hdir : a.argRestoreRfilesAt.isSome = true → env.restoreDirExists = true) :
    argcontol_dbquery.parse env a =
      { code := 0,
        trace := [QueryEffect.queryForCmd (historyQuery n) true,
          QueryEffect.printCommandInfosEvtlRestore (preparePrettyPrint env a)
            (queryForCmd env (historyQuery n) true)] } := by
  have hq : ((SqlQuery.new.setAscending false).setLimit (uintToInt n)).setQuery " 1 "
      = historyQuery n := by
    rw [uintToInt_small n hn]
    rfl
  unfold argcontol_dbquery.parse
  rw [if_neg (fun hc => hc.2 (hdir hc.1))]
  simp only [hh]
  unfold queryCmdPrintAndExit
  rw [historyQuery_not_empty]
  simp only [hq]
  rfl

/-- C18 (counterexample): `--history 3 --restore-rfiles-at /nowhere` with a
directory that does not exist: `parse` reports the missing directory and exits
with 1 before it looks at `--history`; no query is run and nothing is
displayed. And for `--history 2147483648` the limit of the query is
-2147483648, not N, and all five commands of the store are displayed. -/
theorem history_after_missing_restore_dir :
    argsHistoryRestoreAt.argHistory = some 3 ∧
    argcontol_dbquery.parse queryEnv0 argsHistoryRestoreAt =
      { code := 1,
        trace := [QueryEffect.qiErr (QueryErrMsg.restoreDirDoesNotExist "/nowhere")] } ∧
    argsHistoryHuge.argHistory = some 2147483648 ∧
    (argcontol_dbquery.parse queryEnv0 argsHistoryHuge).trace =
      [QueryEffect.queryForCmd
        { query := " 1 ", conditions := [], ascending := some false,
          limit := some (-2147483648) } true,
       QueryEffect.printCommandInfosEvtlRestore
         { maxCountOfReadFileLines := 5, restoreReadFiles := false, restoreDir := none }
         [cmdRow 1, cmdRow 2, cmdRow 3, cmdRow 4, cmdRow 5]] := by
  refine ⟨rfl, rfl, rfl, ?_⟩
  decide

/-- C18 (amended): when `--history N` is parsed with N below 2^31, and
`--restore-rfiles-at` is absent or names an existing directory, `parse` builds
the unconditional query (condition " 1 ") with descending order and limit N and
runs it with reversed result iteration, so that the last N commands of the
store are displayed, oldest first; it exits with 0 right after printing. No
error about invalid remaining parameters is reported, and the outcome does not
depend on the predicate arguments, on `--restore-rfile-id` or on the rest of
the command line. -/
theorem history_runs_unconditional_query (env : QueryEnv) (a : ParsedArgs) (n : Nat)
    (hh : a.argHistory = some n) (hn : n < 2 ^ 31)
    (hdir : a.argRestoreRfilesAt.isSome = true → env.restoreDirExists = true) :
    argcontol_dbquery.parse env a =
      { code := 0,
        trace := [QueryEffect.queryForCmd
            { query := " 1 ", conditions := [], ascending := some false,
              limit := some (n : Int) } true,
          QueryEffect.printCommandInfosEvtlRestore (preparePrettyPrint env a)
            (env.commands.drop (env.commands.length - n))] } ∧
    (∀ e ∈ (argcontol_dbquery.parse env a).trace, e.isInvalidParameters = false) ∧
    (∀ b : ParsedArgs, b.argHistory = a.argHistory →
      b.argMaxReadFileLines = a.argMaxReadFileLines →
      b.argRestoreRfiles = a.argRestoreRfiles →
      b.argRestoreRfilesAt = a.argRestoreRfilesAt →
      argcontol_dbquery.parse env b = argcontol_dbquery.parse env a) := by
  have h1 := parse_history env a n hh hn hdir
  refine ⟨?_, ?_, ?_⟩
  · rw [h1, queryForCmd_history]
    rfl
  · intro e he
    rw [h1] at he
    simp only [List.mem_cons, List.mem_singleton, List.not_mem_nil, or_false] at he
    rcases he with he | he <;> rw [he] <;> rfl
  · intro b hb1 hb2 hb3 hb4
    rw [h1, parse_history env b n (hb1.trans hh) hn (by rw [hb4]; exact hdir)]
    simp only [preparePrettyPrint, hb2, hb3, hb4]

/-- C18 (witness): `--history 3 --wname -eq foo bar` on a store of five commands:
the commands 3, 4 and 5 are displayed in this order; the predicate and the rest
of the command line play no part. -/
theorem history_runs_unconditional_query_witness :
    argsHistoryAndMore.argHistory = some 3 ∧ 3 < 2 ^ 31 ∧
    argsHistoryAndMore.argWName ≠ none ∧ argsHistoryAndMore.rest ≠ [] ∧
    (argcontol_dbquery.parse queryEnv0 argsHistoryAndMore).trace.getLast? =
      some (QueryEffect.printCommandInfosEvtlRestore
        (preparePrettyPrint queryEnv0 argsHistoryAndMore) [cmdRow 3, cmdRow 4, cmdRow 5]) ∧
    (argcontol_dbquery.parse queryEnv0 argsHistoryAndMore =
      { code := 0,
        trace := [QueryEffect.queryForCmd
            { query := " 1 ", conditions := [], ascending := some false,
              limit := some ((3 : Nat) : Int) } true,
          QueryEffect.printCommandInfosEvtlRestore
            (preparePrettyPrint queryEnv0 argsHistoryAndMore)
            (queryEnv0.commands.drop (queryEnv0.commands.length - 3))] } ∧
    (∀ e ∈ (argcontol_dbquery.parse queryEnv0 argsHistoryAndMore).trace,
      e.isInvalidParameters = false) ∧
    (∀ b : ParsedArgs, b.argHistory = argsHistoryAndMore.argHistory →
      b.argMaxReadFileLines = argsHistoryAndMore.argMaxReadFileLines →
      b.argRestoreRfiles = argsHistoryAndMore.argRestoreRfiles →
      b.argRestoreRfilesAt = argsHistoryAndMore.argRestoreRfilesAt →
      argcontol_dbquery.parse queryEnv0 b
        = argcontol_dbquery.parse queryEnv0 argsHistoryAndMore)) :=
  ⟨rfl, by decide, by decide, by decide, by decide,
   history_runs_unconditional_query queryEnv0 argsHistoryAndMore 3 rfl (by decide)
     (by decide)⟩

/-! ## C3: exit code and recorded return value in command mode -/

theorem pollIteration_text (cfg : Config) (t : Bytes) (w : Wakeup) (s : State)
    (hw : ∀ m ∈ w.sockMsgs, m.msgId = -1) (h : s.cmdInfo.text = t) :
    (pollIteration cfg w s).state.cmdInfo.text = t := by
  refine pollIteration_induction cfg (fun s => s.cmdInfo.text = t) w ?_ ?_ ?_ ?_ ?_ s h
  · intro s0 h0
    exact h0
  · intro s0 h0
    exact h0
  · intro s0 h0
    rw [(drainFanotify_frame w s0).1]
    exact h0
  · intro s0 h0
    unfold processSocketEvent
    refine processMessages_induction cfg (fun s => s.cmdInfo.text = t)
      (fun m => m.msgId = -1) ?_ ?_ w.sockMsgs _ _ hw h0
    · intro m s1 h1
      rw [(warnIfLarge_frame cfg m s1).1]
      exact h1
    · intro m s1 hq h1
      rw [handleMessage_marker_state m _ hq]
      exact h1
  · intro s0 h0
    rw [(checkFlush_cmdInfo cfg w.storeFault s0).1]
    exact h0

theorem commandLoop_text (cfg : Config) (v : Int) (k : Nat) (ws : List Wakeup) (s : State)
    (hws : onlyPeerClosed ws) :
    (commandLoop cfg v k ws s).state.cmdInfo.text = s.cmdInfo.text := by
  refine commandLoop_induction cfg (fun x => x.cmdInfo.text = s.cmdInfo.text) v k ws ?_ ?_ s rfl
  · intro x hx
    exact hx
  · intro w hmem x hx
    exact pollIteration_text cfg _ w x (hws w hmem) hx

theorem pollIteration_quiet (cfg : Config) (w : Wakeup) (s : State) (h : w.quiet) :
    ∃ s', pollIteration cfg w s = Step.continue s' := by
  rcases h with ⟨h1, h2⟩ | ⟨h1, h2⟩
  · refine ⟨s.advance w.elapsed, ?_⟩
    simp only [pollIteration, h1, h2, if_true]
  · have p1 : w.poll_num ≠ -1 := by omega
    have p2 : ¬ (cfg.assertsEnabled = true ∧ w.poll_num = 0) := by
      intro h
      omega
    refine ⟨checkFlush cfg w.storeFault (drainFanotify w (s.advance w.elapsed)), ?_⟩
    simp only [pollIteration, if_neg p1, if_neg p2, inspectSocket, h2,
      Bool.false_eq_true, if_false]

theorem pollIteration_seesClose (cfg : Config) (w : Wakeup) (s : State) (h : w.seesClose) :
    ∃ s', pollIteration cfg w s = Step.returned E_SocketMsg.EMPTY s' := by
  obtain ⟨h1, h2, h3⟩ := h
  have p1 : w.poll_num ≠ -1 := by omega
  have p2 : ¬ (cfg.assertsEnabled = true ∧ w.poll_num = 0) := by
    intro h
    omega
  cases hm : w.sockMsgs with
  | nil => rw [hm] at h3; simp at h3
  | cons mk rest =>
    rw [hm] at h3
    have hmk : mk.msgId = -1 := by simpa using h3
    refine ⟨warnIfLarge cfg mk ((drainFanotify w (s.advance w.elapsed)).emit
      (Effect.receiveMessages (mk :: rest))), ?_⟩
    simp only [pollIteration, if_neg p1, if_neg p2, inspectSocket, h2, if_true,
      hm, processSocketEvent, processMessages, hmk]

theorem pollUntilStopped_quiet_append (cfg : Config) (rest : List Wakeup) :
    ∀ (pre : List Wakeup) (s : State), (∀ w ∈ pre, w.quiet) →
      ∃ s1, pollUntilStopped cfg pre s = LoopResult.blocked s1 ∧
        pollUntilStopped cfg (pre ++ rest) s = pollUntilStopped cfg rest s1 := by
  intro pre
  induction pre with
  | nil =>
    intro s _
    exact ⟨s, rfl, rfl⟩
  | cons w ws ih =>
    intro s hq
    obtain ⟨s', hs'⟩ := pollIteration_quiet cfg w s (hq w (List.mem_cons_self _ _))
    obtain ⟨s1, h1, h2⟩ := ih s' (fun x hx => hq x (List.mem_cons_of_mem _ hx))
    refine ⟨s1, ?_, ?_⟩
    · simp only [pollUntilStopped, hs', h1]
    · rw [List.cons_append]
      simp only [pollUntilStopped, hs']
      exact h2

theorem pollUntilStopped_close (cfg : Config) (pre : List Wakeup) (wc : Wakeup)
    (post : List Wakeup) (s : State) (hq : ∀ w ∈ pre, w.quiet) (hc : wc.seesClose) :
    ∃ s', pollUntilStopped cfg (pre ++ wc :: post) s
      = LoopResult.returned E_SocketMsg.EMPTY s' := by
  obtain ⟨s1, _, h2⟩ := pollUntilStopped_quiet_append cfg (wc :: post) pre s hq
  obtain ⟨s', hs'⟩ := pollIteration_seesClose cfg wc s1 hc
  exact ⟨s', by rw [h2]; simp only [pollUntilStopped, hs']⟩

/-- In command mode the loop returns EMPTY when the closing of the socket pair is
seen after wakeups that leave the loop running. -/
theorem commandLoop_returns_EMPTY (cfg : Config) (v : Int) (k : Nat) (ws : List Wakeup)
    (s : State) (h : closesAfterQuiet ws) :
    (commandLoop cfg v k ws s).result = some E_SocketMsg.EMPTY := by
  obtain ⟨pre, wc, post, hws, hq, hc⟩ := h
  subst hws
  by_cases hk : k ≤ pre.length
  · have ht : (pre ++ wc :: post).take k = pre.take k := List.take_append_of_le_length hk
    have hd : (pre ++ wc :: post).drop k = pre.drop k ++ wc :: post :=
      List.drop_append_of_le_length hk
    obtain ⟨s1, h1, _⟩ := pollUntilStopped_quiet_append cfg [] (pre.take k) s
      (fun w hw => hq w (List.mem_of_mem_take hw))
    obtain ⟨s', hs'⟩ := pollUntilStopped_close cfg (pre.drop k) wc post (s1.setReturnVal v)
      (fun w hw => hq w (List.mem_of_mem_drop hw)) hc
    simp only [commandLoop, ht, hd, h1, hs', LoopResult.result]
  · have ht : (pre ++ wc :: post).take k = pre ++ wc :: post.take (k - pre.length - 1) := by
      rw [List.take_append_eq_append_take, List.take_of_length_le (by omega)]
      have hk2 : k - pre.length = (k - pre.length - 1) + 1 := by omega
      rw [hk2, List.take_succ_cons]
      simp
    obtain ⟨s', hs'⟩ := pollUntilStopped_close cfg pre wc (post.take (k - pre.length - 1)) s
      hq hc
    simp only [commandLoop, ht, hs', LoopResult.result]

theorem runLoop_returns_EMPTY (cfg : Config) (fw : FileWatcher) (env : RunEnv)
    (hcmd : fw.m_commandArgc ≠ 0) (h : closesAfterQuiet env.wakeups) :
    (runLoop cfg fw env).result = some E_SocketMsg.EMPTY := by
  unfold runLoop
  rw [if_pos hcmd]
  exact commandLoop_returns_EMPTY cfg _ _ _ _ h

/-- C3 (counterexample): command mode, the child is killed by signal 9. Three
written files make the loop flush (threshold 2) before the main thread has
stored the return value; then `poll` fails and the loop returns the error
status. `run` exits with 137, but the terminal flush is skipped: the only record
handed to the store, and the command row of the store, carry
`INVALID_RETURN_VAL`. With an empty command text, or with a store that fails on
the command of the terminal flush, a loop that ends normally leaves no record
of the command at all. -/
theorem flush_before_loop_error_keeps_invalid_returnVal :
    fwCommand.m_commandArgc ≠ 0 ∧ onlyPeerClosed envFlushThenPollFails.wakeups ∧
    envFlushThenPollFails.child = ChildExit.notNormal 9 ∧
    (runLoop cfgDebug fwCommand envFlushThenPollFails).result = some E_SocketMsg.ENUM_END ∧
    (run cfgDebug fwCommand envFlushThenPollFails).exitCode = some 137 ∧
    (storedCommands (run cfgDebug fwCommand envFlushThenPollFails).state.trace).map
      (fun c => c.returnVal) = [cfgDebug.INVALID_RETURN_VAL] ∧
    (run cfgDebug fwCommand envFlushThenPollFails).state.store.cmd.map
      (fun c => c.returnVal) = [cfgDebug.INVALID_RETURN_VAL] ∧
    cfgDebug.INVALID_RETURN_VAL ≠ 137 ∧
    (runLoop cfgDebug fwEmptyText envKilled).result = some E_SocketMsg.EMPTY ∧
    (run cfgDebug fwEmptyText envKilled).exitCode = some 137 ∧
    storedCommands (run cfgDebug fwEmptyText envKilled).state.trace = [] ∧
    (runLoop cfgDebug fwCommand
      { envKilled with terminalFault := some StoreStep.command }).result
        = some E_SocketMsg.EMPTY ∧
    (run cfgDebug fwCommand
      { envKilled with terminalFault := some StoreStep.command }).state.store.cmd = [] := by
  decide

/-- C3 (amended): in command mode (the socket pair carries nothing but the
peer-closed marker), for every outcome of the observed child: if the closing of
the socket pair is seen after wakeups that leave the loop running (no `poll`
call fails before), the command text is not empty and the terminal flush meets
no store failure, then the poll loop ends normally (EMPTY), `run` exits with the
exit code of the child when it exited normally and with 128 + the signal number
when `waitFinish` reported an abnormal exit, `cmdInfo.returnVal` holds the same
value, and the terminal flush hands exactly one record to the store, the last
one of the run, which carries this value as `returnVal`. In particular a child
killed by signal 9 yields 137. -/
theorem command_mode_exit_code (cfg : Config) (fw : FileWatcher) (env : RunEnv)
    (hcmd : fw.m_commandArgc ≠ 0) (hsock : onlyPeerClosed env.wakeups)
    (hclose : closesAfterQuiet env.wakeups)
    (htext : (commandStart cfg fw env).cmdInfo.text ≠ [])
    (hterm : env.terminalFault = none) :
    (runLoop cfg fw env).result = some E_SocketMsg.EMPTY ∧
    (run cfg fw env).exitCode =
      some (match env.child with
            | ChildExit.normal code => code
            | ChildExit.notNormal sig => 128 + sig) ∧
    (run cfg fw env).state.cmdInfo.returnVal =
      (match env.child with
       | ChildExit.normal code => code
       | ChildExit.notNormal sig => 128 + sig) ∧
    (∃ c, storedCommands ((run cfg fw env).state.trace.drop
          (runLoop cfg fw env).state.trace.length) = [c] ∧
      c.returnVal =
        (match env.child with
         | ChildExit.normal code => code
         | ChildExit.notNormal sig => 128 + sig) ∧
      c.text = (commandStart cfg fw env).cmdInfo.text ∧
      (storedCommands (run cfg fw env).state.trace).getLast? = some c) ∧
    (env.child = ChildExit.notNormal 9 →
      (run cfg fw env).exitCode = some 137 ∧
      (run cfg fw env).state.cmdInfo.returnVal = 137) := by
  have hloop := runLoop_returns_EMPTY cfg fw env hcmd hclose
  refine ⟨hloop, ?_⟩
  have hv : (match env.child with
      | ChildExit.normal code => code
      | ChildExit.notNormal sig => 128 + sig) = env.child.returnVal := by
    cases env.child <;> rfl
  rw [hv]
  have hl : runLoop cfg fw env = commandLoop cfg env.child.returnVal env.exitAt env.wakeups
      (commandStart cfg fw env) := by
    unfold runLoop
    rw [if_pos hcmd]
  have hret : runRet fw env = env.child.returnVal := by
    simp only [runRet, if_pos hcmd]
  have htxt := commandLoop_text cfg env.child.returnVal env.exitAt env.wakeups
    (commandStart cfg fw env) hsock
  rw [← hl] at htxt
  cases hres : runLoop cfg fw env with
  | blocked s1 => rw [hres] at hloop; simp [LoopResult.result] at hloop
  | aborted s1 => rw [hres] at hloop; simp [LoopResult.result] at hloop
  | returned r s =>
    rw [hres] at hloop htxt
    simp only [LoopResult.result, Option.some.injEq] at hloop
    subst hloop
    have htxt1 : s.cmdInfo.text = (commandStart cfg fw env).cmdInfo.text := htxt
    have hs : s.cmdInfo.returnVal = env.child.returnVal :=
      commandLoop_returnVal cfg _ _ _ _ hsock E_SocketMsg.EMPTY s (hl ▸ hres)
    obtain ⟨s', h1, h2⟩ := runFinish_records cfg env.elapsedEnd (runRet fw env) s
      (by rw [htxt1]; exact htext)
    obtain ⟨s2, tail, g1, g2, _, g4⟩ :=
      runFinish_exited cfg env.elapsedEnd none E_SocketMsg.EMPTY (runRet fw env) s
    have hs2 : s2 = s' := by
      rw [h1] at g1
      simp only [RunResult.exited.injEq, true_and] at g1
      exact g1.symm
    subst hs2
    have hrun : run cfg fw env = RunResult.exited env.child.returnVal s2 := by
      rw [hret] at h1
      simp only [run, hres, hterm, hret, h1]
    rw [hrun]
    simp only [RunResult.exitCode, RunResult.state, LoopResult.state]
    have hrv : s2.cmdInfo.returnVal = env.child.returnVal := by rw [g4, hs]
    have hlast : (storedCommands s2.trace).getLast?
        = some { s.cmdInfo with endTime := some (s.clock + env.elapsedEnd) } := by
      have h3 : storedCommands tail
          = [{ s.cmdInfo with endTime := some (s.clock + env.elapsedEnd) }] := by
        rw [g2, List.drop_left] at h2
        exact h2
      rw [g2, storedCommands_append, h3, List.getLast?_append]
      rfl
    refine ⟨trivial, hrv, ⟨_, h2, hs, htxt1, hlast⟩, ?_⟩
    intro hc
    rw [hrv, hc]
    exact ⟨rfl, rfl⟩

/-- C3 (witness, scenario S6): a child killed by signal 9 gives the exit code 137,
and the terminal flush records the return value 137. -/
theorem command_mode_exit_code_witness :
    fwCommand.m_commandArgc ≠ 0 ∧ onlyPeerClosed envKilled.wakeups ∧
    closesAfterQuiet envKilled.wakeups ∧
    (commandStart cfgDebug fwCommand envKilled).cmdInfo.text ≠ [] ∧
    envKilled.terminalFault = none ∧
    envKilled.child = ChildExit.notNormal 9 ∧
    ((runLoop cfgDebug fwCommand envKilled).result = some E_SocketMsg.EMPTY ∧
     (run cfgDebug fwCommand envKilled).exitCode = some 137 ∧
     (run cfgDebug fwCommand envKilled).state.cmdInfo.returnVal = 137 ∧
     (∃ c, storedCommands ((run cfgDebug fwCommand envKilled).state.trace.drop
          (runLoop cfgDebug fwCommand envKilled).state.trace.length) = [c] ∧
       c.returnVal = 137 ∧
       c.text = (commandStart cfgDebug fwCommand envKilled).cmdInfo.text ∧
       (storedCommands (run cfgDebug fwCommand envKilled).state.trace).getLast? = some c) ∧
     (envKilled.child = ChildExit.notNormal 9 →
       (run cfgDebug fwCommand envKilled).exitCode = some 137 ∧
       (run cfgDebug fwCommand envKilled).state.cmdInfo.returnVal = 137)) :=
  ⟨by decide, by decide,
   ⟨[wakeFan [writeEvt 1]], wakeSock [msgClosed], [], rfl, by decide, by decide⟩,
   by decide, rfl, rfl,
   command_mode_exit_code cfgDebug fwCommand envKilled (by decide) (by decide)
     ⟨[wakeFan [writeEvt 1]], wakeSock [msgClosed], [], rfl, by decide, by decide⟩
     (by decide) rfl⟩

end Shournal
